import Mathlib

/-!
# fskit: rename

A shallow embedding of `libfskit/rename.cpp` (fskit_rename and its helpers) and of the
adapter `fuse/fskit_fuse.c` (the caller's identity, the callback mask and the operations
that it guards), and the statements about them.

The model is sequential: one call runs at a time.  Entries live in a heap addressed by
pointers (natural numbers); a `NULL` pointer is `none`.  The reader/writer lock of an entry
is kept beside the heap as the number of holds currently on it, so that "the tree" and
"the lock state" can be compared separately; blocking is not modelled.

Code that `rename.cpp` calls but that lives in other files of the library (path helpers,
the entry set, the path resolver, the permission tests, the low-level detach) is modelled
from the written specification and is marked as such.  The route dispatcher, the allocator
and the outcome of the destination cleanup are external: their results for the call are
read from an environment record.  The constants of `fskit_fuse.h` are a parameter of the
adapter; the status of a core call other than `fskit_rename` is an argument of the adapter
operation that makes it, and which functions of the library an operation calls on
`state->core` is given beside it as a list.  The masks of the adapter are numbers of 64
bits; the complement `~id` is taken in 64 bits.
-/

namespace Fskit

/-! ## Status codes -/

def EPERM : Int := 1
def ENOENT : Int := 2
def ENOMEM : Int := 12
def EACCES : Int := 13
def EEXIST : Int := 17
def ENOTDIR : Int := 20
def EISDIR : Int := 21
def EINVAL : Int := 22
def ENOSYS : Int := 38

/-! ## Data model -/

/-- Modelled from the spec: the `kind` of an entry (§3), named as the constants
`FSKIT_ENTRY_TYPE_*` that `rename.cpp` compares against. -/
inductive fskit_entry_type
  | FSKIT_ENTRY_TYPE_FILE
  | FSKIT_ENTRY_TYPE_DIR
  | FSKIT_ENTRY_TYPE_FIFO
  | FSKIT_ENTRY_TYPE_SOCK
  | FSKIT_ENTRY_TYPE_CHR
  | FSKIT_ENTRY_TYPE_BLK
  | FSKIT_ENTRY_TYPE_LNK
  deriving DecidableEq

open fskit_entry_type

/-- Modelled from the spec: the per-directory child index (§4.1), an ordered mapping from
child name to a reference to the child entry, kept in insertion order. -/
abbrev fskit_entry_set := List (String × Nat)

/-- Modelled from the spec: `struct fskit_entry` (§3), with the fields that `rename.cpp`
and the cleanup of a replaced entry read or write.  The lock is kept in
`fskit_core.locks`. -/
structure fskit_entry where
  file_id : Nat
  type : fskit_entry_type
  name : String
  owner : Nat
  group : Nat
  mode : Nat
  link_count : Nat
  open_count : Nat
  destroyed : Bool
  children : fskit_entry_set
  deriving DecidableEq

/-- One lock operation, as recorded in the history of a core. -/
inductive lock_event
  | rlock (p : Nat)
  | wlock (p : Nat)
  | unlock (p : Nat)
  deriving DecidableEq

/-- Modelled from the spec: `struct fskit_core` (§3): the root entry and the entries.
`locks p` is the number of holds on the lock of entry `p`; `lock_log` is the history of
lock operations, oldest first; `name_freed p` tells that the string which `name` of the
entry `p` points to has been given back to the allocator. -/
structure fskit_core where
  root : Nat
  ents : Nat → fskit_entry
  locks : Nat → Int
  lock_log : List lock_event
  name_freed : Nat → Bool

/-- The external collaborators of one call of `fskit_rename`: which allocations fail, what
the route dispatcher answers, and what the cleanup of a replaced destination reports. -/
structure fskit_env where
  /-- `fskit_dirname( old_path, NULL )` returns `NULL`. -/
  dirname_old_oom : Bool
  /-- `fskit_dirname( new_path, NULL )` returns `NULL`. -/
  dirname_new_oom : Bool
  /-- `file_ids->insert( id )` throws `bad_alloc`. -/
  set_insert_oom : Nat → Bool
  /-- `fskit_route_call_rename( core, path, old_fent, dargs, &cbrc )` on
  `(path, old_fent, new_path, new_parent, dest)`: the dispatch status `rc` and the status
  `cbrc` left by the handler. -/
  fskit_route_call_rename : List String → Nat → List String → Nat → Option Nat → Int × Int
  /-- The status with which the cleanup of a replaced destination entry ends. -/
  detach_rc : Int

/-! ## Locks -/

/-- Modelled from the spec: `fskit_entry_rlock` takes one hold on the entry's lock. -/
def fskit_entry_rlock (core : fskit_core) (p : Nat) : fskit_core :=
  { core with locks := Function.update core.locks p (core.locks p + 1),
              lock_log := core.lock_log ++ [lock_event.rlock p] }

/-- Modelled from the spec: `fskit_entry_wlock` takes one hold on the entry's lock. -/
def fskit_entry_wlock (core : fskit_core) (p : Nat) : fskit_core :=
  { core with locks := Function.update core.locks p (core.locks p + 1),
              lock_log := core.lock_log ++ [lock_event.wlock p] }

/-- Modelled from the spec: `fskit_entry_unlock` gives one hold back. -/
def fskit_entry_unlock (core : fskit_core) (p : Nat) : fskit_core :=
  { core with locks := Function.update core.locks p (core.locks p - 1),
              lock_log := core.lock_log ++ [lock_event.unlock p] }

/-! ## Entry set (§4.1) -/

/-- Modelled from the spec: `find(name)` returns the entry or "not found". -/
def fskit_entry_set_find_name : fskit_entry_set → String → Option Nat
  | [], _ => none
  | (k, v) :: rest, name =>
    if k = name then some v else fskit_entry_set_find_name rest name

/-- Modelled from the spec: `remove(name)` is a no-op if absent. -/
def fskit_entry_set_remove (set : fskit_entry_set) (name : String) : fskit_entry_set :=
  set.filter (fun kv => decide (kv.1 ≠ name))

/-- Modelled from the spec: `insert(name, entry)` fails if `name` is already present. -/
def fskit_entry_set_insert (set : fskit_entry_set) (name : String) (child : Nat) :
    Int × fskit_entry_set :=
  match fskit_entry_set_find_name set name with
  | some _ => (-EEXIST, set)
  | none => (0, set ++ [(name, child)])

/-- Writes `fent->children` of the entry at `p`. -/
def set_children (core : fskit_core) (p : Nat) (cs : fskit_entry_set) : fskit_core :=
  { core with ents := Function.update core.ents p { core.ents p with children := cs } }

/-- Writes `fent->name` of the entry at `p`: the name now points to the freshly allocated
string `n`. -/
def set_name (core : fskit_core) (p : Nat) (n : String) : fskit_core :=
  { core with ents := Function.update core.ents p { core.ents p with name := n },
              name_freed := Function.update core.name_freed p false }

/-- The effect of `fskit_safe_free` on the string that `name` of the entry at `p` points
to. -/
def free_name (core : fskit_core) (p : Nat) : fskit_core :=
  { core with name_freed := Function.update core.name_freed p true }

/-! ## Paths -/

/-- Modelled from the spec: a path is the sequence of its components below the root;
`fskit_dirname` is the path of the parent directory. -/
def fskit_dirname (path : List String) : List String := path.dropLast

/-- Modelled from the spec: `fskit_basename` is the final component of the path; the root
path has the basename "/", as in POSIX. -/
def fskit_basename (path : List String) : String := path.getLastD "/"

/-- Modelled from the spec: `fskit_depth` is the distance of the path from the root. -/
def fskit_depth (path : List String) : Nat := path.length

/-! ## Permission tests -/

/-- Modelled from the spec: the permission bits that apply to `(user, group)` in the
standard owner/group/other test of §4.3. -/
def perm_bits (mode node_user node_group user group : Nat) : Nat :=
  if user = node_user then (mode / 64) % 8
  else if group = node_group then (mode / 8) % 8
  else mode % 8

/-- Modelled from the spec: `FSKIT_ENTRY_IS_DIR_SEARCHABLE`, the search (execute) test of
§4.3; user 0 is the root-equivalent caller that bypasses it. -/
def FSKIT_ENTRY_IS_DIR_SEARCHABLE (mode node_user node_group user group : Nat) : Bool :=
  user == 0 || perm_bits mode node_user node_group user group % 2 == 1

/-- Modelled from the spec: `FSKIT_ENTRY_IS_WRITEABLE`, the write test of §4.4 step 3;
user 0 is the root-equivalent caller that bypasses it. -/
def FSKIT_ENTRY_IS_WRITEABLE (mode node_user node_group user group : Nat) : Bool :=
  user == 0 || (perm_bits mode node_user node_group user group / 2) % 2 == 1

/-! ## Path resolver (§4.3) -/

/-- Modelled from the spec: the walk of the path resolver from the entry `cur` along the
remaining components.  Each intermediate directory is read-locked, checked to be a
directory that the caller may search, handed to the visitor `ent_eval` (if any), and
released once the next component is fetched; the final entry is returned locked. -/
def resolve_walk {σ : Type} (user group : Nat) (writelock : Bool)
    (ent_eval : Option (fskit_entry → σ → Int × σ)) :
    fskit_core → Nat → List String → σ → Option Nat × Int × fskit_core × σ
  | core, cur, [], cls =>
    (some cur, 0,
      if writelock then fskit_entry_wlock core cur else fskit_entry_rlock core cur, cls)
  | core, cur, name :: rest, cls =>
    let core := fskit_entry_rlock core cur
    let ent := core.ents cur
    if ent.type ≠ FSKIT_ENTRY_TYPE_DIR then
      (none, -ENOTDIR, fskit_entry_unlock core cur, cls)
    else if !FSKIT_ENTRY_IS_DIR_SEARCHABLE ent.mode ent.owner ent.group user group then
      (none, -EACCES, fskit_entry_unlock core cur, cls)
    else
      let ev : Int × σ := match ent_eval with
        | some f => f ent cls
        | none => (0, cls)
      if ev.1 ≠ 0 then
        (none, ev.1, fskit_entry_unlock core cur, ev.2)
      else
        match fskit_entry_set_find_name ent.children name with
        | none => (none, -ENOENT, fskit_entry_unlock core cur, ev.2)
        | some child =>
          resolve_walk user group writelock ent_eval (fskit_entry_unlock core cur) child rest ev.2

/-- Modelled from the spec: `fskit_entry_resolve_path_cls`, the resolver with a visitor:
the resolved entry (or `NULL`), `*err`, the core and the visitor's state. -/
def fskit_entry_resolve_path_cls {σ : Type} (core : fskit_core) (path : List String)
    (user group : Nat) (writelock : Bool) (ent_eval : fskit_entry → σ → Int × σ) (cls : σ) :
    Option Nat × Int × fskit_core × σ :=
  resolve_walk user group writelock (some ent_eval) core core.root path cls

/-- Modelled from the spec: `fskit_entry_resolve_path`, the resolver without a visitor:
the resolved entry (or `NULL`), `*err` and the core. -/
def fskit_entry_resolve_path (core : fskit_core) (path : List String)
    (user group : Nat) (writelock : Bool) : Option Nat × Int × fskit_core :=
  let r := resolve_walk user group writelock (none : Option (fskit_entry → Unit → Int × Unit))
    core core.root path ()
  (r.1, r.2.1, r.2.2.1)

/-! ## Cleanup of a replaced entry -/

/-- Modelled from the spec: `fskit_entry_detach_lowlevel( parent, child )` (§4.4 step 9 and
Detach): unless it fails with the status `rc`, the child is taken out of the parent's
children mapping, its link count is decremented, and it is destroyed at once when no link
and no open handle is left. -/
def fskit_entry_detach_lowlevel (rc : Int) (core : fskit_core) (parent child : Nat) :
    Int × fskit_core :=
  if rc ≠ 0 then (rc, core) else
  let core := set_children core parent
    ((core.ents parent).children.filter (fun kv => decide (kv.2 ≠ child)))
  let ent := core.ents child
  let links := ent.link_count - 1
  let ent := { ent with link_count := links,
                        destroyed := ent.destroyed || (links == 0 && ent.open_count == 0) }
  (0, { core with ents := Function.update core.ents child ent })

/-! ## rename.cpp -/

/-- Translation of `fskit_entry_verify_no_loop` (rename.cpp 28-44); `cls` is the set of
file ids, `oom` tells for which id the insertion throws `bad_alloc`. -/
def fskit_entry_verify_no_loop (oom : Nat → Bool) (fent : fskit_entry) (file_ids : List Nat) :
    Int × List Nat :=
  if fent.file_id ∈ file_ids then (-EINVAL, file_ids)
  else if oom fent.file_id then (-ENOMEM, file_ids)
  else (0, fent.file_id :: file_ids)

/-- Translation of `fskit_entry_rename_unlock` (rename.cpp 47-59); it always returns 0, so
only the core is given back. -/
def fskit_entry_rename_unlock (core : fskit_core)
    (fent_common_parent fent_old_parent fent_new_parent : Option Nat) : fskit_core :=
  let core := match fent_old_parent with
    | some p => fskit_entry_unlock core p
    | none => core
  let core := match fent_new_parent with
    | some p => fskit_entry_unlock core p
    | none => core
  match fent_common_parent with
  | some p => fskit_entry_unlock core p
  | none => core

/-- Translation of `fskit_run_user_rename` (rename.cpp 63-80). -/
def fskit_run_user_rename (env : fskit_env) (path : List String) (_old_parent old_fent : Nat)
    (new_path : List String) (new_parent : Nat) (dest : Option Nat) : Int :=
  let r := env.fskit_route_call_rename path old_fent new_path new_parent dest
  let rc := r.1
  let cbrc := r.2
  if rc = -EPERM ∨ rc = -ENOSYS then 0 else cbrc

/-- The local variables of `fskit_rename` after the parents are resolved. -/
structure rename_parents where
  fent_old_parent : Option Nat
  fent_new_parent : Option Nat
  fent_common_parent : Option Nat
  err_old : Int
  err_new : Int
  core : fskit_core

/-- Translation of `fskit_rename`, rename.cpp 125-157: resolve and write-lock the parents,
the one lower in the hierarchy first. -/
def fskit_rename_resolve_parents (env : fskit_env) (core : fskit_core)
    (old_path new_path : List String) (user group : Nat) : rename_parents :=
  let old_path_dirname := fskit_dirname old_path
  let new_path_dirname := fskit_dirname new_path
  if fskit_depth old_path > fskit_depth new_path then
    let ro := fskit_entry_resolve_path core old_path_dirname user group true
    match ro.1 with
    | some p =>
      let rn := fskit_entry_resolve_path_cls ro.2.2 new_path_dirname user group true
        (fskit_entry_verify_no_loop env.set_insert_oom) []
      { fent_old_parent := some p, fent_new_parent := rn.1, fent_common_parent := none,
        err_old := ro.2.1, err_new := rn.2.1, core := rn.2.2.1 }
    | none =>
      { fent_old_parent := none, fent_new_parent := none, fent_common_parent := none,
        err_old := ro.2.1, err_new := 0, core := ro.2.2 }
  else if fskit_depth old_path < fskit_depth new_path then
    let rn := fskit_entry_resolve_path_cls core new_path_dirname user group true
      (fskit_entry_verify_no_loop env.set_insert_oom) []
    let ro := fskit_entry_resolve_path rn.2.2.1 old_path_dirname user group true
    { fent_old_parent := ro.1, fent_new_parent := rn.1, fent_common_parent := none,
      err_old := ro.2.1, err_new := rn.2.1, core := ro.2.2 }
  else if old_path_dirname = new_path_dirname then
    let rc := fskit_entry_resolve_path core old_path_dirname user group true
    { fent_old_parent := none, fent_new_parent := none, fent_common_parent := rc.1,
      err_old := rc.2.1, err_new := 0, core := rc.2.2 }
  else
    let rn := fskit_entry_resolve_path_cls core new_path_dirname user group true
      (fskit_entry_verify_no_loop env.set_insert_oom) []
    let ro := fskit_entry_resolve_path rn.2.2.1 old_path_dirname user group true
    { fent_old_parent := ro.1, fent_new_parent := rn.1, fent_common_parent := none,
      err_old := ro.2.1, err_new := rn.2.1, core := ro.2.2 }

/-- The test `fent != NULL && (!SEARCHABLE( fent ) || !WRITEABLE( fent ))` that
rename.cpp 173-180 makes on each parent. -/
def parent_denied (core : fskit_core) (fent : Option Nat) (user group : Nat) : Bool :=
  match fent with
  | some p =>
    let e := core.ents p
    !FSKIT_ENTRY_IS_DIR_SEARCHABLE e.mode e.owner e.group user group ||
      !FSKIT_ENTRY_IS_WRITEABLE e.mode e.owner e.group user group
  | none => false

/-- Translation of `fskit_rename`, rename.cpp 173-180: the condition of the permission
check. -/
def fskit_rename_access_denied (r : rename_parents) (user group : Nat) : Bool :=
  parent_denied r.core r.fent_new_parent user group ||
    parent_denied r.core r.fent_old_parent user group ||
    parent_denied r.core r.fent_common_parent user group

/-- The directory in which the source is looked up: the common parent, else the old
parent. -/
def rename_parents.src_parent (r : rename_parents) : Option Nat :=
  match r.fent_common_parent with
  | some c => some c
  | none => r.fent_old_parent

/-- The directory in which the destination is looked up, `dest_parent` of rename.cpp 270:
the common parent, else the new parent. -/
def rename_parents.dest_parent (r : rename_parents) : Option Nat :=
  match r.fent_common_parent with
  | some c => some c
  | none => r.fent_new_parent

/-- Translation of `fskit_rename`, rename.cpp 193-200: `fent_old`, looked up in the
resolved parent (a `NULL` parent, which the code never has here, holds nothing). -/
def fskit_rename_fent_old (r : rename_parents) (old_path : List String) : Option Nat :=
  match r.src_parent with
  | some p => fskit_entry_set_find_name (r.core.ents p).children (fskit_basename old_path)
  | none => none

/-- Translation of `fskit_rename`, rename.cpp 193-200: `fent_new`, looked up in the
resolved parent (a `NULL` parent, which the code never has here, holds nothing). -/
def fskit_rename_fent_new (r : rename_parents) (new_path : List String) : Option Nat :=
  match r.dest_parent with
  | some p => fskit_entry_set_find_name (r.core.ents p).children (fskit_basename new_path)
  | none => none

/-- Translation of `fskit_rename`, rename.cpp 224-234: the status of the kind check. -/
def fskit_rename_check_types (core : fskit_core) (fent_old : Nat) (fent_new : Option Nat) : Int :=
  match fent_new with
  | some n =>
    if (core.ents n).type ≠ (core.ents fent_old).type then
      if (core.ents n).type = FSKIT_ENTRY_TYPE_DIR then -EISDIR else -ENOTDIR
    else 0
  | none => 0

/-- Translation of `fskit_rename`, rename.cpp 277-287 and 294-304: take `fent_old` out of
`src` under its stored name, store the new name, take `fent_new` (if any) out of `dst`
under its stored name, and insert `fent_old` into `dst` under its new name.  In the
branch of the common parent `src` and `dst` are the same entry. -/
def fskit_rename_move (core : fskit_core) (src dst fent_old : Nat) (fent_new : Option Nat)
    (new_path_basename : String) : fskit_core :=
  let core := set_children core src
    (fskit_entry_set_remove (core.ents src).children (core.ents fent_old).name)
  let core := set_name core fent_old new_path_basename
  let core := match fent_new with
    | some n => set_children core dst
        (fskit_entry_set_remove (core.ents dst).children (core.ents n).name)
    | none => core
  set_children core dst
    (fskit_entry_set_insert (core.ents dst).children (core.ents fent_old).name fent_old).2

/-- Translation of `fskit_rename`, rename.cpp 186-329: everything after the permission
check. -/
def fskit_rename_children (env : fskit_env) (r : rename_parents)
    (old_path new_path : List String) : Int × fskit_core :=
  let new_path_basename := fskit_basename new_path
  let fent_new := fskit_rename_fent_new r new_path
  match fskit_rename_fent_old r old_path with
  | none =>
    -- old must exist
    (-ENOENT,
      fskit_entry_rename_unlock r.core r.fent_common_parent r.fent_old_parent r.fent_new_parent)
  | some fent_old =>
    if some fent_old = fent_new then
      -- renaming a file into itself
      (0, fskit_entry_rename_unlock r.core r.fent_common_parent r.fent_old_parent
        r.fent_new_parent)
    else
      -- lock the children
      let core := fskit_entry_wlock r.core fent_old
      let core := match fent_new with
        | some n => fskit_entry_wlock core n
        | none => core
      let err := fskit_rename_check_types core fent_old fent_new
      if err ≠ 0 then
        -- directory mismatch
        (err, fskit_entry_rename_unlock core r.fent_common_parent r.fent_old_parent
          r.fent_new_parent)
      else
        match r.src_parent, r.dest_parent with
        | some src, some dst =>
          -- user rename
          let err := fskit_run_user_rename env old_path src fent_old new_path dst fent_new
          if err ≠ 0 then
            let core := fskit_entry_unlock core fent_old
            let core := match fent_new with
              | some n => fskit_entry_unlock core n
              | none => core
            (err, fskit_entry_rename_unlock core r.fent_common_parent r.fent_old_parent
              r.fent_new_parent)
          else
            -- perform the rename
            let core := fskit_rename_move core src dst fent_old fent_new new_path_basename
            let res : Int × fskit_core := match fent_new with
              | some n => fskit_entry_detach_lowlevel env.detach_rc (fskit_entry_unlock core n) dst n
              | none => (err, core)
            -- unlock everything
            let core := fskit_entry_rename_unlock res.2 r.fent_common_parent r.fent_old_parent
              r.fent_new_parent
            let core := fskit_entry_unlock core fent_old
            -- rename.cpp 323-326: new_path_basename is freed; since 281 and 298 it is
            -- the string that fent_old->name points to
            (res.1, if res.1 ≠ 0 then free_name core fent_old else core)
        -- a parent is NULL: not reached, the statuses of the resolution were 0
        | _, _ => (err, core)

/-- Translation of `fskit_rename` (rename.cpp 110-329). -/
def fskit_rename (env : fskit_env) (core : fskit_core) (old_path new_path : List String)
    (user group : Nat) : Int × fskit_core :=
  if env.dirname_old_oom || env.dirname_new_oom then (-ENOMEM, core) else
  let r := fskit_rename_resolve_parents env core old_path new_path user group
  if r.err_new ≠ 0 then
    (r.err_new,
      fskit_entry_rename_unlock r.core r.fent_common_parent r.fent_old_parent r.fent_new_parent)
  else if r.err_old ≠ 0 then
    (r.err_old,
      fskit_entry_rename_unlock r.core r.fent_common_parent r.fent_old_parent r.fent_new_parent)
  else if fskit_rename_access_denied r user group then
    (-EACCES,
      fskit_entry_rename_unlock r.core r.fent_common_parent r.fent_old_parent r.fent_new_parent)
  else
    fskit_rename_children env r old_path new_path

/-! ## Sample trees -/

/-- A directory entry owned by user 1000 with mode 0755. -/
def mk_dir (id : Nat) (name : String) (children : fskit_entry_set) : fskit_entry :=
  { file_id := id, type := FSKIT_ENTRY_TYPE_DIR, name := name, owner := 1000, group := 1000,
    mode := 493, link_count := 1, open_count := 0, destroyed := false, children := children }

/-- A regular file owned by user 1000 with mode 0644. -/
def mk_file (id : Nat) (name : String) : fskit_entry :=
  { file_id := id, type := FSKIT_ENTRY_TYPE_FILE, name := name, owner := 1000, group := 1000,
    mode := 420, link_count := 1, open_count := 0, destroyed := false, children := [] }

/-- A core with the given entries at the pointers 0, 1, 2, ... (root at 0), no lock held. -/
def mk_core (es : List fskit_entry) : fskit_core :=
  { root := 0, ents := fun p => es.getD p (mk_file 0 ""), locks := fun _ => 0, lock_log := [],
    name_freed := fun _ => false }

/-- An environment in which no allocation fails, no route is installed and the cleanup of
a replaced entry succeeds. -/
def env_plain : fskit_env :=
  { dirname_old_oom := false, dirname_new_oom := false, set_insert_oom := fun _ => false,
    fskit_route_call_rename := fun _ _ _ _ _ => (-EPERM, 0), detach_rc := 0 }

/-- The tree `/d/c`: a directory `d` holding a directory `c`. -/
def tree_nested : fskit_core :=
  mk_core [mk_dir 0 "/" [("d", 1)], mk_dir 1 "d" [("c", 2)], mk_dir 2 "c" []]

/-- The tree with a regular file `/f` and an empty directory `/d`. -/
def tree_file_dir : fskit_core :=
  mk_core [mk_dir 0 "/" [("f", 1), ("d", 2)], mk_file 1 "f", mk_dir 2 "d" []]

/-- The tree with two regular files `/a` and `/b`. -/
def tree_two_files : fskit_core :=
  mk_core [mk_dir 0 "/" [("a", 1), ("b", 2)], mk_file 1 "a", mk_file 2 "b"]

/-- The tree in which one regular file is linked under the two names `/a` and `/b`. -/
def tree_hard_link : fskit_core :=
  mk_core [mk_dir 0 "/" [("a", 1), ("b", 1)], { mk_file 1 "a" with link_count := 2 }]

/-- An environment in which a route handler rejects the rename with `-EACCES`. -/
def env_rejecting : fskit_env :=
  { env_plain with fskit_route_call_rename := fun _ _ _ _ _ => (0, -EACCES) }

/-- An environment in which the cleanup of a replaced entry fails with status -16. -/
def env_cleanup_fails : fskit_env :=
  { env_plain with detach_rc := -16 }

/-- The tree with a regular file `/f` under a root that is owned by user 0 and has mode
0555: nobody but user 0 may write it. -/
def tree_readonly : fskit_core :=
  mk_core [{ mk_dir 0 "/" [("f", 1)] with owner := 0, group := 0, mode := 365 }, mk_file 1 "f"]

/-! ## Invariants of the data model (§3) -/

/-- Name/key consistency: every key of every children mapping maps to an entry whose stored
name is that key. -/
def name_key_consistent (core : fskit_core) : Prop :=
  ∀ d k c, (k, c) ∈ (core.ents d).children → (core.ents c).name = k

/-- One parent: no entry is held by two children mappings or under two keys. -/
def single_parent (core : fskit_core) : Prop :=
  ∀ d1 k1 d2 k2 c, (k1, c) ∈ (core.ents d1).children → (k2, c) ∈ (core.ents d2).children →
    d1 = d2 ∧ k1 = k2

/-! ## Bookkeeping for the statements -/

/-- One hold on the lock of `p`, seen from the entry `x`. -/
def held (p x : Nat) : Int := if x = p then 1 else 0

/-- The hold on an optional parent, seen from the entry `x`. -/
def oheld (p : Option Nat) (x : Nat) : Int :=
  match p with
  | some q => held q x
  | none => 0

/-- What a run of the resolver leaves behind: the entries and the root as they were; on
success a non-`NULL` entry, status 0 and one more hold on that entry; on failure `NULL`,
a non-zero status and the locks as they were. -/
def resolved_ok (core : fskit_core) (res : Option Nat) (err : Int) (core1 : fskit_core) : Prop :=
  core1.ents = core.ents ∧ core1.root = core.root ∧
    ((∃ p, res = some p ∧ err = 0) ∨ (res = none ∧ err ≠ 0)) ∧
    ∀ x, core1.locks x = core.locks x + oheld res x

/-- What rename.cpp 125-157 leaves behind: the entries and the root as they were, one
hold on each parent that is not `NULL`, and, when both statuses are 0, either the common
parent alone or the old and the new parent. -/
def parents_ok (core : fskit_core) (r : rename_parents) : Prop :=
  r.core.ents = core.ents ∧ r.core.root = core.root ∧
    (∀ x, r.core.locks x = core.locks x + oheld r.fent_old_parent x
      + oheld r.fent_new_parent x + oheld r.fent_common_parent x) ∧
    (r.err_new = 0 → r.err_old = 0 →
      (∃ c, r.fent_common_parent = some c ∧ r.fent_old_parent = none ∧
        r.fent_new_parent = none) ∨
      (r.fent_common_parent = none ∧ ∃ p q, r.fent_old_parent = some p ∧
        r.fent_new_parent = some q))

/-- The children of `x` once `fent_old` is taken out of `src` under its stored name. -/
def move_src (core : fskit_core) (src fent_old x : Nat) : fskit_entry_set :=
  if x = src then fskit_entry_set_remove (core.ents src).children (core.ents fent_old).name
  else (core.ents x).children

/-- The children of the destination once `fent_new` (if any) is taken out under its stored
name, read after `fent_old` got its new name. -/
def move_rm (core : fskit_core) (fent_old : Nat) (fent_new : Option Nat) (bn : String)
    (l : fskit_entry_set) : fskit_entry_set :=
  match fent_new with
  | some n => fskit_entry_set_remove l (if n = fent_old then bn else (core.ents n).name)
  | none => l

/-- A symbolic link owned by user 1000 with mode 0777. -/
def mk_symlink (id : Nat) (name : String) : fskit_entry :=
  { file_id := id, type := FSKIT_ENTRY_TYPE_LNK, name := name, owner := 1000, group := 1000,
    mode := 511, link_count := 1, open_count := 0, destroyed := false, children := [] }

/-- The tree with a regular file `/a` and a symbolic link `/l`. -/
def tree_file_symlink : fskit_core :=
  mk_core [mk_dir 0 "/" [("a", 1), ("l", 2)], mk_file 1 "a", mk_symlink 2 "l"]

/-! ## Reading the lock history -/

/-- The entries that were write-locked, in the order of their acquisition. -/
def wlocks : List lock_event → List Nat
  | [] => []
  | lock_event.wlock p :: rest => p :: wlocks rest
  | _ :: rest => wlocks rest

/-- The write lock taken on an optional parent. -/
def olist (p : Option Nat) : List Nat :=
  match p with
  | some q => [q]
  | none => []

/-- The history of `b` continues the history of `a`. -/
def log_ext (a b : fskit_core) : Prop := ∃ rest, b.lock_log = a.lock_log ++ rest

/-- The tree with two directories `/A` and `/B` of equal depth, holding the files `/A/x`
and `/B/y`. -/
def tree_two_dirs : fskit_core :=
  mk_core [mk_dir 0 "/" [("A", 1), ("B", 2)], mk_dir 1 "A" [("x", 3)], mk_dir 2 "B" [("y", 4)],
    mk_file 3 "x", mk_file 4 "y"]

/-- The tree `/A/C/x`, `/B`: the directory `C` lies one level below `A` and `B`. -/
def tree_deep : fskit_core :=
  mk_core [mk_dir 0 "/" [("A", 1), ("B", 2)], mk_dir 1 "A" [("C", 3)], mk_dir 2 "B" [],
    mk_dir 3 "C" [("x", 4)], mk_file 4 "x"]

/-! ## The tree below the root (§3) -/

/-- An entry is reachable from the root via children mappings. -/
inductive reachable (core : fskit_core) : Nat → Prop
  | root : reachable core core.root
  | child (d : Nat) (k : String) (c : Nat) :
      reachable core d → (k, c) ∈ (core.ents d).children → reachable core c

/-- The entry `b` lies below the entry `a`: it is reached from `a` by one or more steps
through children mappings. -/
inductive descends (core : fskit_core) (a : Nat) : Nat → Prop
  | child (k : String) (c : Nat) :
      (k, c) ∈ (core.ents a).children → descends core a c
  | more (b : Nat) (k : String) (c : Nat) :
      descends core a b → (k, c) ∈ (core.ents b).children → descends core a c

/-- Among the entries reachable from the root, no entry is held by two children mappings
or under two keys. -/
def one_parent_below_root (core : fskit_core) : Prop :=
  ∀ d1 k1 d2 k2 c, reachable core d1 → reachable core d2 →
    (k1, c) ∈ (core.ents d1).children → (k2, c) ∈ (core.ents d2).children →
    d1 = d2 ∧ k1 = k2

/-- No entry reachable from the root lies below itself. -/
def no_cycle_below_root (core : fskit_core) : Prop :=
  ∀ x, reachable core x → ¬ descends core x x

/-- The root is held by no reachable directory. -/
def root_has_no_parent (core : fskit_core) : Prop :=
  ∀ d k, reachable core d → (k, core.root) ∉ (core.ents d).children

/-- The entries reachable from the root via children form a tree: no entry is held by two
children mappings or under two keys, and there is no cycle. -/
def tree_inv (core : fskit_core) : Prop :=
  one_parent_below_root core ∧ no_cycle_below_root core

/-! ## fskit_fuse.c: the adapter -/

/-- The constants of `fskit_fuse.h`, which is not among the sources: the two setting flags
and one callback id for every operation.  They are a parameter of the adapter. -/
structure fskit_fuse_h where
  FSKIT_FUSE_SET_FS_ACCESS : Nat
  FSKIT_FUSE_NO_PERMISSIONS : Nat
  FSKIT_FUSE_GETATTR : Nat
  FSKIT_FUSE_READLINK : Nat
  FSKIT_FUSE_MKNOD : Nat
  FSKIT_FUSE_MKDIR : Nat
  FSKIT_FUSE_UNLINK : Nat
  FSKIT_FUSE_RMDIR : Nat
  FSKIT_FUSE_SYMLINK : Nat
  FSKIT_FUSE_RENAME : Nat
  FSKIT_FUSE_LINK : Nat
  FSKIT_FUSE_CHMOD : Nat
  FSKIT_FUSE_CHOWN : Nat
  FSKIT_FUSE_TRUNCATE : Nat
  FSKIT_FUSE_UTIME : Nat
  FSKIT_FUSE_OPEN : Nat
  FSKIT_FUSE_READ : Nat
  FSKIT_FUSE_WRITE : Nat
  FSKIT_FUSE_STATFS : Nat
  FSKIT_FUSE_FLUSH : Nat
  FSKIT_FUSE_RELEASE : Nat
  FSKIT_FUSE_FSYNC : Nat
  FSKIT_FUSE_SETXATTR : Nat
  FSKIT_FUSE_GETXATTR : Nat
  FSKIT_FUSE_LISTXATTR : Nat
  FSKIT_FUSE_REMOVEXATTR : Nat
  FSKIT_FUSE_OPENDIR : Nat
  FSKIT_FUSE_READDIR : Nat
  FSKIT_FUSE_RELEASEDIR : Nat
  FSKIT_FUSE_FSYNCDIR : Nat
  FSKIT_FUSE_ACCESS : Nat
  FSKIT_FUSE_CREATE : Nat
  FSKIT_FUSE_FTRUNCATE : Nat
  FSKIT_FUSE_FGETATTR : Nat

/-- The fields of `struct fskit_fuse_state` that the operations read: the core and the two
bit masks. -/
structure fskit_fuse_state where
  core : fskit_core
  settings : Nat
  callbacks : Nat

/-- The fields of the request context (`fuse_get_context()`) that the adapter reads. -/
structure fuse_context where
  pid : Nat
  uid : Nat
  gid : Nat

/-- Translation of `fskit_fuse_get_uid` (fskit_fuse.c 58-71); `getpid` is the id of the
process of the filesystem. -/
def fskit_fuse_get_uid (h : fskit_fuse_h) (getpid : Nat) (ctx : fuse_context)
    (state : fskit_fuse_state) : Nat :=
  if getpid = ctx.pid ∧ state.settings &&& h.FSKIT_FUSE_SET_FS_ACCESS ≠ 0 then 0
  else if state.settings &&& h.FSKIT_FUSE_NO_PERMISSIONS ≠ 0 then 0
  else ctx.uid

/-- Translation of `fskit_fuse_get_gid` (fskit_fuse.c 74-87). -/
def fskit_fuse_get_gid (h : fskit_fuse_h) (getpid : Nat) (ctx : fuse_context)
    (state : fskit_fuse_state) : Nat :=
  if getpid = ctx.pid ∧ state.settings &&& h.FSKIT_FUSE_SET_FS_ACCESS ≠ 0 then 0
  else if state.settings &&& h.FSKIT_FUSE_NO_PERMISSIONS ≠ 0 then 0
  else ctx.gid

/-- Translation of `fskit_fuse_getattr` (fskit_fuse.c 169-186); `rc` is the status that the
core call `fskit_stat` returns. -/
def fskit_fuse_getattr (h : fskit_fuse_h) (state : fskit_fuse_state) (rc : Int) : Int :=
  if state.callbacks &&& h.FSKIT_FUSE_GETATTR = 0 then -ENOSYS else rc

/-- Translation of `fskit_fuse_mknod` (fskit_fuse.c 214-231); `rc` is the status that the
core call `fskit_mknod` returns. -/
def fskit_fuse_mknod (h : fskit_fuse_h) (state : fskit_fuse_state) (rc : Int) : Int :=
  if state.callbacks &&& h.FSKIT_FUSE_MKNOD = 0 then -ENOSYS else rc

/-- Translation of `fskit_fuse_mkdir` (fskit_fuse.c 233-250); `rc` is the status that the
core call `fskit_mkdir` returns. -/
def fskit_fuse_mkdir (h : fskit_fuse_h) (state : fskit_fuse_state) (rc : Int) : Int :=
  if state.callbacks &&& h.FSKIT_FUSE_MKDIR = 0 then -ENOSYS else rc

/-- Translation of `fskit_fuse_unlink` (fskit_fuse.c 252-269); `rc` is the status that the
core call `fskit_unlink` returns. -/
def fskit_fuse_unlink (h : fskit_fuse_h) (state : fskit_fuse_state) (rc : Int) : Int :=
  if state.callbacks &&& h.FSKIT_FUSE_UNLINK = 0 then -ENOSYS else rc

/-- Translation of `fskit_fuse_rmdir` (fskit_fuse.c 271-288); `rc` is the status that the
core call `fskit_rmdir` returns. -/
def fskit_fuse_rmdir (h : fskit_fuse_h) (state : fskit_fuse_state) (rc : Int) : Int :=
  if state.callbacks &&& h.FSKIT_FUSE_RMDIR = 0 then -ENOSYS else rc

/-- Translation of `fskit_fuse_symlink` (fskit_fuse.c 290-307); `rc` is the status that the
core call `fskit_symlink` returns. -/
def fskit_fuse_symlink (h : fskit_fuse_h) (state : fskit_fuse_state) (rc : Int) : Int :=
  if state.callbacks &&& h.FSKIT_FUSE_SYMLINK = 0 then -ENOSYS else rc

/-- Translation of `fskit_fuse_rename` (fskit_fuse.c 309-326): the status, and the state
with the core as `fskit_rename` leaves it. -/
def fskit_fuse_rename (h : fskit_fuse_h) (env : fskit_env) (getpid : Nat) (ctx : fuse_context)
    (state : fskit_fuse_state) (path newpath : List String) : Int × fskit_fuse_state :=
  if state.callbacks &&& h.FSKIT_FUSE_RENAME = 0 then (-ENOSYS, state) else
  let uid := fskit_fuse_get_uid h getpid ctx state
  let gid := fskit_fuse_get_gid h getpid ctx state
  let r := fskit_rename env state.core path newpath uid gid
  (r.1, { state with core := r.2 })

/-- Translation of `fskit_fuse_link` (fskit_fuse.c 328-345); `rc` is the status that the
core call `fskit_link` returns.  The function ends with `return 0;`. -/
def fskit_fuse_link (h : fskit_fuse_h) (state : fskit_fuse_state) (_rc : Int) : Int :=
  if state.callbacks &&& h.FSKIT_FUSE_LINK = 0 then -ENOSYS else 0

/-- Translation of `fskit_fuse_chmod` (fskit_fuse.c 347-364); `rc` is the status that the
core call `fskit_chmod` returns. -/
def fskit_fuse_chmod (h : fskit_fuse_h) (state : fskit_fuse_state) (rc : Int) : Int :=
  if state.callbacks &&& h.FSKIT_FUSE_CHMOD = 0 then -ENOSYS else rc

/-- Translation of `fskit_fuse_chown` (fskit_fuse.c 366-383); `rc` is the status that the
core call `fskit_chown` returns. -/
def fskit_fuse_chown (h : fskit_fuse_h) (state : fskit_fuse_state) (rc : Int) : Int :=
  if state.callbacks &&& h.FSKIT_FUSE_CHOWN = 0 then -ENOSYS else rc

/-- Translation of `fskit_fuse_truncate` (fskit_fuse.c 385-402); `rc` is the status that the
core call `fskit_trunc` returns. -/
def fskit_fuse_truncate (h : fskit_fuse_h) (state : fskit_fuse_state) (rc : Int) : Int :=
  if state.callbacks &&& h.FSKIT_FUSE_TRUNCATE = 0 then -ENOSYS else rc

/-- Translation of `fskit_fuse_utime` (fskit_fuse.c 404-421); `rc` is the status that the
core call `fskit_utime` returns. -/
def fskit_fuse_utime (h : fskit_fuse_h) (state : fskit_fuse_state) (rc : Int) : Int :=
  if state.callbacks &&& h.FSKIT_FUSE_UTIME = 0 then -ENOSYS else rc

/-- Translation of `fskit_fuse_access` (fskit_fuse.c 772-789); `rc` is the status that the
core call `fskit_access` returns. -/
def fskit_fuse_access (h : fskit_fuse_h) (state : fskit_fuse_state) (rc : Int) : Int :=
  if state.callbacks &&& h.FSKIT_FUSE_ACCESS = 0 then -ENOSYS else rc

/-- A sample header: one bit per callback id, in the order of `fskit_fuse_get_opers`. -/
def fuse_h_sample : fskit_fuse_h :=
  { FSKIT_FUSE_SET_FS_ACCESS := 1, FSKIT_FUSE_NO_PERMISSIONS := 2,
    FSKIT_FUSE_GETATTR := 1,
    FSKIT_FUSE_READLINK := 2,
    FSKIT_FUSE_MKNOD := 4,
    FSKIT_FUSE_MKDIR := 8,
    FSKIT_FUSE_UNLINK := 16,
    FSKIT_FUSE_RMDIR := 32,
    FSKIT_FUSE_SYMLINK := 64,
    FSKIT_FUSE_RENAME := 128,
    FSKIT_FUSE_LINK := 256,
    FSKIT_FUSE_CHMOD := 512,
    FSKIT_FUSE_CHOWN := 1024,
    FSKIT_FUSE_TRUNCATE := 2048,
    FSKIT_FUSE_UTIME := 4096,
    FSKIT_FUSE_OPEN := 8192,
    FSKIT_FUSE_READ := 16384,
    FSKIT_FUSE_WRITE := 32768,
    FSKIT_FUSE_STATFS := 65536,
    FSKIT_FUSE_FLUSH := 131072,
    FSKIT_FUSE_RELEASE := 262144,
    FSKIT_FUSE_FSYNC := 524288,
    FSKIT_FUSE_SETXATTR := 1048576,
    FSKIT_FUSE_GETXATTR := 2097152,
    FSKIT_FUSE_LISTXATTR := 4194304,
    FSKIT_FUSE_REMOVEXATTR := 8388608,
    FSKIT_FUSE_OPENDIR := 16777216,
    FSKIT_FUSE_READDIR := 33554432,
    FSKIT_FUSE_RELEASEDIR := 67108864,
    FSKIT_FUSE_FSYNCDIR := 134217728,
    FSKIT_FUSE_ACCESS := 268435456,
    FSKIT_FUSE_CREATE := 536870912,
    FSKIT_FUSE_FTRUNCATE := 1073741824,
    FSKIT_FUSE_FGETATTR := 2147483648 }

/-- A state as `fskit_fuse_init_fs` leaves it: no setting, every callback enabled. -/
def fuse_state_sample : fskit_fuse_state :=
  { core := tree_two_files, settings := 0, callbacks := 18446744073709551615 }

/-- An environment in which the copy of the dirname of `old_path` cannot be allocated. -/
def env_dirname_oom : fskit_env :=
  { env_plain with dirname_old_oom := true }

/-! ## fskit_fuse.c: the handle-based operations, the callback mask and the calls into the core -/

/-- The functions of libfskit that the adapter calls on `state->core`. -/
inductive core_call
  | fskit_stat | fskit_readlink | fskit_mknod | fskit_mkdir | fskit_unlink | fskit_rmdir
  | fskit_symlink | fskit_rename | fskit_link | fskit_chmod | fskit_chown | fskit_trunc
  | fskit_utime | fskit_open | fskit_close | fskit_read | fskit_write | fskit_statvfs
  | fskit_fsync | fskit_setxattr | fskit_getxattr | fskit_listxattr | fskit_removexattr
  | fskit_opendir | fskit_closedir | fskit_listdir | fskit_access | fskit_create
  | fskit_ftrunc | fskit_fstat
  deriving DecidableEq

/-- The largest value of a `uint64_t`, `0xFFFFFFFFFFFFFFFF`. -/
def UINT64_MAX : Nat := 18446744073709551615

/-- The conversion `(int)x` of an `ssize_t`: the value modulo `2^32`, read as a signed
number of 32 bits. -/
def int_cast (x : Int) : Int := (x + 2147483648) % 4294967296 - 2147483648

/-- Translation of `fskit_fuse_setting_enable` (fskit_fuse.c 111-114):
`state->settings |= flag`. -/
def fskit_fuse_setting_enable (state : fskit_fuse_state) (flag : Nat) :
    Int × fskit_fuse_state :=
  (0, { state with settings := state.settings ||| flag })

/-- Translation of `fskit_fuse_setting_disable` (fskit_fuse.c 117-120):
`state->settings &= ~flag`, the complement taken in 64 bits. -/
def fskit_fuse_setting_disable (state : fskit_fuse_state) (flag : Nat) :
    Int × fskit_fuse_state :=
  (0, { state with settings := state.settings &&& (UINT64_MAX ^^^ flag) })

/-- Translation of `fskit_fuse_callback_enable` (fskit_fuse.c 123-126):
`state->callbacks |= callback_id`. -/
def fskit_fuse_callback_enable (state : fskit_fuse_state) (callback_id : Nat) :
    Int × fskit_fuse_state :=
  (0, { state with callbacks := state.callbacks ||| callback_id })

/-- Translation of `fskit_fuse_callback_disable` (fskit_fuse.c 129-132):
`state->callbacks &= ~callback_id`, the complement taken in 64 bits. -/
def fskit_fuse_callback_disable (state : fskit_fuse_state) (callback_id : Nat) :
    Int × fskit_fuse_state :=
  (0, { state with callbacks := state.callbacks &&& (UINT64_MAX ^^^ callback_id) })

/-- Translation of `fskit_fuse_init_fs` (fskit_fuse.c 938-948): the state is zeroed, the
core stored, and `callbacks` set to `0xFFFFFFFFFFFFFFFF`. -/
def fskit_fuse_init_fs (_state : fskit_fuse_state) (fs : fskit_core) :
    Int × fskit_fuse_state :=
  (0, { core := fs, settings := 0, callbacks := UINT64_MAX })

/-- Translation of `fskit_fuse_readlink` (fskit_fuse.c 189-211); `rc` is what the core call
`fskit_readlink` returns, a length or a negative status. -/
def fskit_fuse_readlink (h : fskit_fuse_h) (state : fskit_fuse_state) (rc : Int) : Int :=
  if state.callbacks &&& h.FSKIT_FUSE_READLINK = 0 then -ENOSYS else
  int_cast (if rc ≥ 0 then 0 else rc)

/-- Translation of `fskit_fuse_open` (fskit_fuse.c 423-462); `rc` is the status that the
core call `fskit_open` stores, `ffi_null` says that `fskit_fuse_make_file_handle` could not
allocate. -/
def fskit_fuse_open (h : fskit_fuse_h) (state : fskit_fuse_state) (rc : Int)
    (ffi_null : Bool) : Int :=
  if state.callbacks &&& h.FSKIT_FUSE_OPEN = 0 then -ENOSYS else
  if rc ≠ 0 then rc else
  if ffi_null then -ENOMEM else rc

/-- Translation of `fskit_fuse_read` (fskit_fuse.c 464-481); `num_read` is what the core
call `fskit_read` returns. -/
def fskit_fuse_read (h : fskit_fuse_h) (state : fskit_fuse_state) (num_read : Int) : Int :=
  if state.callbacks &&& h.FSKIT_FUSE_READ = 0 then -ENOSYS else int_cast num_read

/-- Translation of `fskit_fuse_write` (fskit_fuse.c 483-500); `num_written` is what the
core call `fskit_write` returns. -/
def fskit_fuse_write (h : fskit_fuse_h) (state : fskit_fuse_state) (num_written : Int) :
    Int :=
  if state.callbacks &&& h.FSKIT_FUSE_WRITE = 0 then -ENOSYS else int_cast num_written

/-- Translation of `fskit_fuse_statfs` (fskit_fuse.c 502-519); `rc` is the status that the
core call `fskit_statvfs` returns. -/
def fskit_fuse_statfs (h : fskit_fuse_h) (state : fskit_fuse_state) (rc : Int) : Int :=
  if state.callbacks &&& h.FSKIT_FUSE_STATFS = 0 then -ENOSYS else rc

/-- Translation of `fskit_fuse_flush` (fskit_fuse.c 521-541); `ffi_type` is the type stored
in the handle, `rc` the status that the core call `fskit_fsync` returns. -/
def fskit_fuse_flush (h : fskit_fuse_h) (state : fskit_fuse_state)
    (ffi_type : fskit_entry_type) (rc : Int) : Int :=
  if state.callbacks &&& h.FSKIT_FUSE_FLUSH = 0 then -ENOSYS else
  if ffi_type = FSKIT_ENTRY_TYPE_FILE then rc else 0

/-- Translation of `fskit_fuse_release` (fskit_fuse.c 543-562); `rc` is the status that the
core call `fskit_close` returns. -/
def fskit_fuse_release (h : fskit_fuse_h) (state : fskit_fuse_state) (rc : Int) : Int :=
  if state.callbacks &&& h.FSKIT_FUSE_RELEASE = 0 then -ENOSYS else rc

/-- Translation of `fskit_fuse_fsync` (fskit_fuse.c 564-579); `rc` is the status that the
core call `fskit_fsync` returns. -/
def fskit_fuse_fsync (h : fskit_fuse_h) (state : fskit_fuse_state) (rc : Int) : Int :=
  if state.callbacks &&& h.FSKIT_FUSE_FSYNC = 0 then -ENOSYS else rc

/-- Translation of `fskit_fuse_setxattr` (fskit_fuse.c 581-597); `rc` is the status that the
core call `fskit_setxattr` returns. -/
def fskit_fuse_setxattr (h : fskit_fuse_h) (state : fskit_fuse_state) (rc : Int) : Int :=
  if state.callbacks &&& h.FSKIT_FUSE_SETXATTR = 0 then -ENOSYS else rc

/-- Translation of `fskit_fuse_getxattr` (fskit_fuse.c 599-615); `rc` is the status that the
core call `fskit_getxattr` returns. -/
def fskit_fuse_getxattr (h : fskit_fuse_h) (state : fskit_fuse_state) (rc : Int) : Int :=
  if state.callbacks &&& h.FSKIT_FUSE_GETXATTR = 0 then -ENOSYS else rc

/-- Translation of `fskit_fuse_listxattr` (fskit_fuse.c 617-633); `rc` is the status that the
core call `fskit_listxattr` returns. -/
def fskit_fuse_listxattr (h : fskit_fuse_h) (state : fskit_fuse_state) (rc : Int) : Int :=
  if state.callbacks &&& h.FSKIT_FUSE_LISTXATTR = 0 then -ENOSYS else rc

/-- Translation of `fskit_fuse_removexattr` (fskit_fuse.c 635-651); `rc` is the status that the
core call `fskit_removexattr` returns. -/
def fskit_fuse_removexattr (h : fskit_fuse_h) (state : fskit_fuse_state) (rc : Int) : Int :=
  if state.callbacks &&& h.FSKIT_FUSE_REMOVEXATTR = 0 then -ENOSYS else rc

/-- Translation of `fskit_fuse_opendir` (fskit_fuse.c 653-688); `rc` is the status that the
core call `fskit_opendir` stores, `ffi_null` says that `fskit_fuse_make_dir_handle` could
not allocate. -/
def fskit_fuse_opendir (h : fskit_fuse_h) (state : fskit_fuse_state) (rc : Int)
    (ffi_null : Bool) : Int :=
  if state.callbacks &&& h.FSKIT_FUSE_OPENDIR = 0 then -ENOSYS else
  if rc ≠ 0 then rc else
  if ffi_null then -ENOMEM else 0

/-- The loop of `fskit_fuse_readdir` (fskit_fuse.c 715-722) over the indexes still to do:
`filler i` is the status of the filler on entry `i`; the first non-zero one ends the loop
with `-ENOMEM`. -/
def fskit_fuse_readdir_fill (filler : Nat → Int) : List Nat → Int → Int
  | [], rc => rc
  | i :: rest, _ =>
    if filler i ≠ 0 then -ENOMEM else fskit_fuse_readdir_fill filler rest (filler i)

/-- Translation of `fskit_fuse_readdir` (fskit_fuse.c 690-731); `dirents_null`, `num_read`
and `rc` are what the core call `fskit_listdir` gives. -/
def fskit_fuse_readdir (h : fskit_fuse_h) (state : fskit_fuse_state) (dirents_null : Bool)
    (num_read : Nat) (rc : Int) (filler : Nat → Int) : Int :=
  if state.callbacks &&& h.FSKIT_FUSE_READDIR = 0 then -ENOSYS else
  if dirents_null = true ∨ rc ≠ 0 then rc else
  let rc := fskit_fuse_readdir_fill filler (List.range num_read) rc
  if rc > 0 then 0 else rc

/-- Translation of `fskit_fuse_releasedir` (fskit_fuse.c 733-754); `rc` is the status that the
core call `fskit_closedir` returns. -/
def fskit_fuse_releasedir (h : fskit_fuse_h) (state : fskit_fuse_state) (rc : Int) : Int :=
  if state.callbacks &&& h.FSKIT_FUSE_RELEASEDIR = 0 then -ENOSYS else rc

/-- Translation of `fskit_fuse_fsyncdir` (fskit_fuse.c 756-770): past the guard it returns
0 ("not addressed by fskit"). -/
def fskit_fuse_fsyncdir (h : fskit_fuse_h) (state : fskit_fuse_state) : Int :=
  if state.callbacks &&& h.FSKIT_FUSE_FSYNCDIR = 0 then -ENOSYS else 0

/-- Translation of `fskit_fuse_create` (fskit_fuse.c 791-833); `rc` is the status that the
core call `fskit_create` stores, `ffi_null` says that `fskit_fuse_make_file_handle` could
not allocate. -/
def fskit_fuse_create (h : fskit_fuse_h) (state : fskit_fuse_state) (rc : Int)
    (ffi_null : Bool) : Int :=
  if state.callbacks &&& h.FSKIT_FUSE_CREATE = 0 then -ENOSYS else
  if rc ≠ 0 then rc else
  if ffi_null then -ENOMEM else rc

/-- Translation of `fskit_fuse_ftruncate` (fskit_fuse.c 835-853); `rc` is the status that the
core call `fskit_ftrunc` returns. -/
def fskit_fuse_ftruncate (h : fskit_fuse_h) (state : fskit_fuse_state) (rc : Int) : Int :=
  if state.callbacks &&& h.FSKIT_FUSE_FTRUNCATE = 0 then -ENOSYS else rc

/-- Translation of `fskit_fuse_fgetattr` (fskit_fuse.c 855-880); `rc` is the status that the
core call `fskit_fstat` returns. -/
def fskit_fuse_fgetattr (h : fskit_fuse_h) (state : fskit_fuse_state) (rc : Int) : Int :=
  if state.callbacks &&& h.FSKIT_FUSE_FGETATTR = 0 then -ENOSYS else rc

/-! The calls into the core, operation by operation: what each function above does with
`state->core`, read off the same lines of fskit_fuse.c. -/

/-- The calls into the core that `fskit_fuse_getattr` makes, in order. -/
def fskit_fuse_getattr_calls (h : fskit_fuse_h) (state : fskit_fuse_state) : List core_call :=
  if state.callbacks &&& h.FSKIT_FUSE_GETATTR = 0 then [] else [core_call.fskit_stat]

/-- The calls into the core that `fskit_fuse_readlink` makes, in order. -/
def fskit_fuse_readlink_calls (h : fskit_fuse_h) (state : fskit_fuse_state) : List core_call :=
  if state.callbacks &&& h.FSKIT_FUSE_READLINK = 0 then [] else [core_call.fskit_readlink]

/-- The calls into the core that `fskit_fuse_mknod` makes, in order. -/
def fskit_fuse_mknod_calls (h : fskit_fuse_h) (state : fskit_fuse_state) : List core_call :=
  if state.callbacks &&& h.FSKIT_FUSE_MKNOD = 0 then [] else [core_call.fskit_mknod]

/-- The calls into the core that `fskit_fuse_mkdir` makes, in order. -/
def fskit_fuse_mkdir_calls (h : fskit_fuse_h) (state : fskit_fuse_state) : List core_call :=
  if state.callbacks &&& h.FSKIT_FUSE_MKDIR = 0 then [] else [core_call.fskit_mkdir]

/-- The calls into the core that `fskit_fuse_unlink` makes, in order. -/
def fskit_fuse_unlink_calls (h : fskit_fuse_h) (state : fskit_fuse_state) : List core_call :=
  if state.callbacks &&& h.FSKIT_FUSE_UNLINK = 0 then [] else [core_call.fskit_unlink]

/-- The calls into the core that `fskit_fuse_rmdir` makes, in order. -/
def fskit_fuse_rmdir_calls (h : fskit_fuse_h) (state : fskit_fuse_state) : List core_call :=
  if state.callbacks &&& h.FSKIT_FUSE_RMDIR = 0 then [] else [core_call.fskit_rmdir]

/-- The calls into the core that `fskit_fuse_symlink` makes, in order. -/
def fskit_fuse_symlink_calls (h : fskit_fuse_h) (state : fskit_fuse_state) : List core_call :=
  if state.callbacks &&& h.FSKIT_FUSE_SYMLINK = 0 then [] else [core_call.fskit_symlink]

/-- The calls into the core that `fskit_fuse_rename` makes, in order. -/
def fskit_fuse_rename_calls (h : fskit_fuse_h) (state : fskit_fuse_state) : List core_call :=
  if state.callbacks &&& h.FSKIT_FUSE_RENAME = 0 then [] else [core_call.fskit_rename]

/-- The calls into the core that `fskit_fuse_link` makes, in order. -/
def fskit_fuse_link_calls (h : fskit_fuse_h) (state : fskit_fuse_state) : List core_call :=
  if state.callbacks &&& h.FSKIT_FUSE_LINK = 0 then [] else [core_call.fskit_link]

/-- The calls into the core that `fskit_fuse_chmod` makes, in order. -/
def fskit_fuse_chmod_calls (h : fskit_fuse_h) (state : fskit_fuse_state) : List core_call :=
  if state.callbacks &&& h.FSKIT_FUSE_CHMOD = 0 then [] else [core_call.fskit_chmod]

/-- The calls into the core that `fskit_fuse_chown` makes, in order. -/
def fskit_fuse_chown_calls (h : fskit_fuse_h) (state : fskit_fuse_state) : List core_call :=
  if state.callbacks &&& h.FSKIT_FUSE_CHOWN = 0 then [] else [core_call.fskit_chown]

/-- The calls into the core that `fskit_fuse_truncate` makes, in order. -/
def fskit_fuse_truncate_calls (h : fskit_fuse_h) (state : fskit_fuse_state) : List core_call :=
  if state.callbacks &&& h.FSKIT_FUSE_TRUNCATE = 0 then [] else [core_call.fskit_trunc]

/-- The calls into the core that `fskit_fuse_utime` makes, in order. -/
def fskit_fuse_utime_calls (h : fskit_fuse_h) (state : fskit_fuse_state) : List core_call :=
  if state.callbacks &&& h.FSKIT_FUSE_UTIME = 0 then [] else [core_call.fskit_utime]

/-- The calls into the core that `fskit_fuse_open` makes, in order: `fskit_close` follows
when the handle of the adapter could not be allocated. -/
def fskit_fuse_open_calls (h : fskit_fuse_h) (state : fskit_fuse_state) (rc : Int)
    (ffi_null : Bool) : List core_call :=
  if state.callbacks &&& h.FSKIT_FUSE_OPEN = 0 then [] else
  if rc ≠ 0 then [core_call.fskit_open] else
  if ffi_null then [core_call.fskit_open, core_call.fskit_close] else [core_call.fskit_open]

/-- The calls into the core that `fskit_fuse_read` makes, in order. -/
def fskit_fuse_read_calls (h : fskit_fuse_h) (state : fskit_fuse_state) : List core_call :=
  if state.callbacks &&& h.FSKIT_FUSE_READ = 0 then [] else [core_call.fskit_read]

/-- The calls into the core that `fskit_fuse_write` makes, in order. -/
def fskit_fuse_write_calls (h : fskit_fuse_h) (state : fskit_fuse_state) : List core_call :=
  if state.callbacks &&& h.FSKIT_FUSE_WRITE = 0 then [] else [core_call.fskit_write]

/-- The calls into the core that `fskit_fuse_statfs` makes, in order. -/
def fskit_fuse_statfs_calls (h : fskit_fuse_h) (state : fskit_fuse_state) : List core_call :=
  if state.callbacks &&& h.FSKIT_FUSE_STATFS = 0 then [] else [core_call.fskit_statvfs]

/-- The calls into the core that `fskit_fuse_flush` makes: `fskit_fsync` for the handle of
a file, none for the handle of a directory. -/
def fskit_fuse_flush_calls (h : fskit_fuse_h) (state : fskit_fuse_state)
    (ffi_type : fskit_entry_type) : List core_call :=
  if state.callbacks &&& h.FSKIT_FUSE_FLUSH = 0 then [] else
  if ffi_type = FSKIT_ENTRY_TYPE_FILE then [core_call.fskit_fsync] else []

/-- The calls into the core that `fskit_fuse_release` makes, in order. -/
def fskit_fuse_release_calls (h : fskit_fuse_h) (state : fskit_fuse_state) : List core_call :=
  if state.callbacks &&& h.FSKIT_FUSE_RELEASE = 0 then [] else [core_call.fskit_close]

/-- The calls into the core that `fskit_fuse_fsync` makes, in order. -/
def fskit_fuse_fsync_calls (h : fskit_fuse_h) (state : fskit_fuse_state) : List core_call :=
  if state.callbacks &&& h.FSKIT_FUSE_FSYNC = 0 then [] else [core_call.fskit_fsync]

/-- The calls into the core that `fskit_fuse_setxattr` makes, in order. -/
def fskit_fuse_setxattr_calls (h : fskit_fuse_h) (state : fskit_fuse_state) : List core_call :=
  if state.callbacks &&& h.FSKIT_FUSE_SETXATTR = 0 then [] else [core_call.fskit_setxattr]

/-- The calls into the core that `fskit_fuse_getxattr` makes, in order. -/
def fskit_fuse_getxattr_calls (h : fskit_fuse_h) (state : fskit_fuse_state) : List core_call :=
  if state.callbacks &&& h.FSKIT_FUSE_GETXATTR = 0 then [] else [core_call.fskit_getxattr]

/-- The calls into the core that `fskit_fuse_listxattr` makes, in order. -/
def fskit_fuse_listxattr_calls (h : fskit_fuse_h) (state : fskit_fuse_state) : List core_call :=
  if state.callbacks &&& h.FSKIT_FUSE_LISTXATTR = 0 then [] else [core_call.fskit_listxattr]

/-- The calls into the core that `fskit_fuse_removexattr` makes, in order. -/
def fskit_fuse_removexattr_calls (h : fskit_fuse_h) (state : fskit_fuse_state) : List core_call :=
  if state.callbacks &&& h.FSKIT_FUSE_REMOVEXATTR = 0 then [] else [core_call.fskit_removexattr]

/-- The calls into the core that `fskit_fuse_opendir` makes, in order: `fskit_closedir` follows
when the handle of the adapter could not be allocated. -/
def fskit_fuse_opendir_calls (h : fskit_fuse_h) (state : fskit_fuse_state) (rc : Int)
    (ffi_null : Bool) : List core_call :=
  if state.callbacks &&& h.FSKIT_FUSE_OPENDIR = 0 then [] else
  if rc ≠ 0 then [core_call.fskit_opendir] else
  if ffi_null then [core_call.fskit_opendir, core_call.fskit_closedir] else [core_call.fskit_opendir]

/-- The calls into the core that `fskit_fuse_readdir` makes, in order. -/
def fskit_fuse_readdir_calls (h : fskit_fuse_h) (state : fskit_fuse_state) : List core_call :=
  if state.callbacks &&& h.FSKIT_FUSE_READDIR = 0 then [] else [core_call.fskit_listdir]

/-- The calls into the core that `fskit_fuse_releasedir` makes, in order. -/
def fskit_fuse_releasedir_calls (h : fskit_fuse_h) (state : fskit_fuse_state) : List core_call :=
  if state.callbacks &&& h.FSKIT_FUSE_RELEASEDIR = 0 then [] else [core_call.fskit_closedir]

/-- The calls into the core that `fskit_fuse_fsyncdir` makes: none. -/
def fskit_fuse_fsyncdir_calls (_h : fskit_fuse_h) (_state : fskit_fuse_state) :
    List core_call :=
  []

/-- The calls into the core that `fskit_fuse_access` makes, in order. -/
def fskit_fuse_access_calls (h : fskit_fuse_h) (state : fskit_fuse_state) : List core_call :=
  if state.callbacks &&& h.FSKIT_FUSE_ACCESS = 0 then [] else [core_call.fskit_access]

/-- The calls into the core that `fskit_fuse_create` makes, in order: `fskit_close` follows
when the handle of the adapter could not be allocated. -/
def fskit_fuse_create_calls (h : fskit_fuse_h) (state : fskit_fuse_state) (rc : Int)
    (ffi_null : Bool) : List core_call :=
  if state.callbacks &&& h.FSKIT_FUSE_CREATE = 0 then [] else
  if rc ≠ 0 then [core_call.fskit_create] else
  if ffi_null then [core_call.fskit_create, core_call.fskit_close] else [core_call.fskit_create]

/-- The calls into the core that `fskit_fuse_ftruncate` makes, in order. -/
def fskit_fuse_ftruncate_calls (h : fskit_fuse_h) (state : fskit_fuse_state) : List core_call :=
  if state.callbacks &&& h.FSKIT_FUSE_FTRUNCATE = 0 then [] else [core_call.fskit_ftrunc]

/-- The calls into the core that `fskit_fuse_fgetattr` makes, in order. -/
def fskit_fuse_fgetattr_calls (h : fskit_fuse_h) (state : fskit_fuse_state) : List core_call :=
  if state.callbacks &&& h.FSKIT_FUSE_FGETATTR = 0 then [] else [core_call.fskit_fstat]

/-- A state in which every callback is disabled. -/
def fuse_state_disabled : fskit_fuse_state :=
  { core := tree_two_files, settings := 0, callbacks := 0 }

/-! ## The guard against loops, call after call -/

/-- The guard `fskit_entry_verify_no_loop` applied to the entries of a list in turn, each
call on the set that the call before left, as the resolver does along a path: the statuses
in order, and the set at the end. -/
def verify_no_loop_each (oom : Nat → Bool) :
    List fskit_entry → List Nat → List Int × List Nat
  | [], file_ids => ([], file_ids)
  | fent :: rest, file_ids =>
    ((fskit_entry_verify_no_loop oom fent file_ids).1 ::
        (verify_no_loop_each oom rest (fskit_entry_verify_no_loop oom fent file_ids).2).1,
      (verify_no_loop_each oom rest (fskit_entry_verify_no_loop oom fent file_ids).2).2)

/-- No two entries reachable from the root have the same `file_id`. -/
def unique_file_ids (core : fskit_core) : Prop :=
  ∀ a b, reachable core a → reachable core b →
    (core.ents a).file_id = (core.ents b).file_id → a = b

/-- A children mapping is a map: no directory holds two entries under one key. -/
def keys_unique (core : fskit_core) : Prop :=
  ∀ d k c1 c2, (k, c1) ∈ (core.ents d).children → (k, c2) ∈ (core.ents d).children → c1 = c2

@[simp] theorem rlock_ents (core : fskit_core) (p : Nat) :
    (fskit_entry_rlock core p).ents = core.ents := rfl

@[simp] theorem wlock_ents (core : fskit_core) (p : Nat) :
    (fskit_entry_wlock core p).ents = core.ents := rfl

@[simp] theorem unlock_ents (core : fskit_core) (p : Nat) :
    (fskit_entry_unlock core p).ents = core.ents := rfl

@[simp] theorem rlock_root (core : fskit_core) (p : Nat) :
    (fskit_entry_rlock core p).root = core.root := rfl

@[simp] theorem wlock_root (core : fskit_core) (p : Nat) :
    (fskit_entry_wlock core p).root = core.root := rfl

@[simp] theorem unlock_root (core : fskit_core) (p : Nat) :
    (fskit_entry_unlock core p).root = core.root := rfl

theorem maybe_free_ents (c : Prop) [Decidable c] (core : fskit_core) (p : Nat) :
    (if c then free_name core p else core).ents = core.ents := by
  split_ifs <;> rfl

theorem maybe_free_root (c : Prop) [Decidable c] (core : fskit_core) (p : Nat) :
    (if c then free_name core p else core).root = core.root := by
  split_ifs <;> rfl

theorem maybe_free_locks (c : Prop) [Decidable c] (core : fskit_core) (p : Nat) :
    (if c then free_name core p else core).locks = core.locks := by
  split_ifs <;> rfl

theorem maybe_free_log (c : Prop) [Decidable c] (core : fskit_core) (p : Nat) :
    (if c then free_name core p else core).lock_log = core.lock_log := by
  split_ifs <;> rfl

theorem rlock_locks (core : fskit_core) (p x : Nat) :
    (fskit_entry_rlock core p).locks x = core.locks x + held p x := by
  unfold fskit_entry_rlock held
  by_cases h : x = p
  · subst h; simp
  · simp [Function.update, h]

theorem wlock_locks (core : fskit_core) (p x : Nat) :
    (fskit_entry_wlock core p).locks x = core.locks x + held p x := by
  unfold fskit_entry_wlock held
  by_cases h : x = p
  · subst h; simp
  · simp [Function.update, h]

theorem unlock_locks (core : fskit_core) (p x : Nat) :
    (fskit_entry_unlock core p).locks x = core.locks x - held p x := by
  unfold fskit_entry_unlock held
  by_cases h : x = p
  · subst h; simp
  · simp [Function.update, h]

theorem rename_unlock_ents (core : fskit_core) (c o n : Option Nat) :
    (fskit_entry_rename_unlock core c o n).ents = core.ents := by
  unfold fskit_entry_rename_unlock
  cases c <;> cases o <;> cases n <;> rfl

theorem rename_unlock_root (core : fskit_core) (c o n : Option Nat) :
    (fskit_entry_rename_unlock core c o n).root = core.root := by
  unfold fskit_entry_rename_unlock
  cases c <;> cases o <;> cases n <;> rfl

theorem rename_unlock_locks (core : fskit_core) (c o n : Option Nat) (x : Nat) :
    (fskit_entry_rename_unlock core c o n).locks x
      = core.locks x - oheld o x - oheld n x - oheld c x := by
  unfold fskit_entry_rename_unlock
  cases c <;> cases o <;> cases n <;> simp [oheld, unlock_locks]

/-! ## The resolver keeps the tree and holds exactly the lock of its result -/

theorem resolve_walk_ok {σ : Type} (user group : Nat) (writelock : Bool)
    (ent_eval : Option (fskit_entry → σ → Int × σ)) (names : List String) :
    ∀ (core : fskit_core) (cur : Nat) (cls : σ),
      resolved_ok core (resolve_walk user group writelock ent_eval core cur names cls).1
        (resolve_walk user group writelock ent_eval core cur names cls).2.1
        (resolve_walk user group writelock ent_eval core cur names cls).2.2.1 := by
  induction names with
  | nil =>
    intro core cur cls
    refine ⟨?_, ?_, Or.inl ⟨cur, rfl, rfl⟩, ?_⟩
    · cases writelock <;> simp [resolve_walk]
    · cases writelock <;> simp [resolve_walk]
    · intro x
      cases writelock <;> simp [resolve_walk, oheld, rlock_locks, wlock_locks]
  | cons name rest ih =>
    intro core cur cls
    have hfail : ∀ (e : Int), e ≠ 0 →
        resolved_ok core none e (fskit_entry_unlock (fskit_entry_rlock core cur) cur) := by
      intro e he
      refine ⟨rfl, rfl, Or.inr ⟨rfl, he⟩, ?_⟩
      intro x
      simp [oheld, unlock_locks, rlock_locks]
    simp only [resolve_walk]
    split_ifs with h1 h2 h3
    · exact hfail (-ENOTDIR) (by decide)
    · exact hfail (-EACCES) (by decide)
    · exact hfail _ h3
    · split
      · exact hfail (-ENOENT) (by decide)
      · rename_i child _
        have := ih (fskit_entry_unlock (fskit_entry_rlock core cur) cur) child
          (match ent_eval with
            | some f => f ((fskit_entry_rlock core cur).ents cur) cls
            | none => (0, cls)).2
        obtain ⟨he, hr, hs, hl⟩ := this
        refine ⟨he, hr, hs, ?_⟩
        intro x
        rw [hl x]
        simp [unlock_locks, rlock_locks]

theorem resolve_path_ok (core : fskit_core) (path : List String) (user group : Nat)
    (writelock : Bool) :
    resolved_ok core (fskit_entry_resolve_path core path user group writelock).1
      (fskit_entry_resolve_path core path user group writelock).2.1
      (fskit_entry_resolve_path core path user group writelock).2.2 :=
  resolve_walk_ok user group writelock none path core core.root ()

theorem resolve_path_cls_ok {σ : Type} (core : fskit_core) (path : List String)
    (user group : Nat) (writelock : Bool) (ent_eval : fskit_entry → σ → Int × σ) (cls : σ) :
    resolved_ok core (fskit_entry_resolve_path_cls core path user group writelock ent_eval cls).1
      (fskit_entry_resolve_path_cls core path user group writelock ent_eval cls).2.1
      (fskit_entry_resolve_path_cls core path user group writelock ent_eval cls).2.2.1 :=
  resolve_walk_ok user group writelock (some ent_eval) path core core.root cls

/-! ## The parents after resolution -/

/-- Two resolutions in a row, the new parent first (rename.cpp 141-143 and 153-155). -/
theorem parents_ok_new_first (env : fskit_env) (core : fskit_core)
    (old_dir new_dir : List String) (user group : Nat) :
    parents_ok core
      { fent_old_parent := (fskit_entry_resolve_path (fskit_entry_resolve_path_cls core new_dir
            user group true (fskit_entry_verify_no_loop env.set_insert_oom) []).2.2.1
            old_dir user group true).1,
        fent_new_parent := (fskit_entry_resolve_path_cls core new_dir
            user group true (fskit_entry_verify_no_loop env.set_insert_oom) []).1,
        fent_common_parent := none,
        err_old := (fskit_entry_resolve_path (fskit_entry_resolve_path_cls core new_dir
            user group true (fskit_entry_verify_no_loop env.set_insert_oom) []).2.2.1
            old_dir user group true).2.1,
        err_new := (fskit_entry_resolve_path_cls core new_dir
            user group true (fskit_entry_verify_no_loop env.set_insert_oom) []).2.1,
        core := (fskit_entry_resolve_path (fskit_entry_resolve_path_cls core new_dir
            user group true (fskit_entry_verify_no_loop env.set_insert_oom) []).2.2.1
            old_dir user group true).2.2 } := by
  obtain ⟨he1, hr1, hs1, hl1⟩ := resolve_path_cls_ok core new_dir user group true
    (fskit_entry_verify_no_loop env.set_insert_oom) []
  obtain ⟨he2, hr2, hs2, hl2⟩ := resolve_path_ok (fskit_entry_resolve_path_cls core new_dir
    user group true (fskit_entry_verify_no_loop env.set_insert_oom) []).2.2.1
    old_dir user group true
  refine ⟨he2.trans he1, hr2.trans hr1, ?_, ?_⟩
  · intro x
    simp only [hl2 x, hl1 x, oheld]
    ring
  · intro hn ho
    simp only at hn ho
    right
    refine ⟨rfl, ?_⟩
    rcases hs1 with ⟨q, hq, _⟩ | ⟨_, hne⟩
    · rcases hs2 with ⟨p, hp, _⟩ | ⟨_, hne⟩
      · exact ⟨p, q, hp, hq⟩
      · exact absurd ho hne
    · exact absurd hn hne

theorem resolve_parents_ok (env : fskit_env) (core : fskit_core)
    (old_path new_path : List String) (user group : Nat) :
    parents_ok core (fskit_rename_resolve_parents env core old_path new_path user group) := by
  unfold fskit_rename_resolve_parents
  simp only
  split_ifs with h1 h2 h3
  · obtain ⟨he1, hr1, hs1, hl1⟩ := resolve_path_ok core (fskit_dirname old_path) user group true
    split
    · rename_i p hp
      obtain ⟨he2, hr2, hs2, hl2⟩ := resolve_path_cls_ok
        (fskit_entry_resolve_path core (fskit_dirname old_path) user group true).2.2
        (fskit_dirname new_path) user group true
        (fskit_entry_verify_no_loop env.set_insert_oom) []
      refine ⟨he2.trans he1, hr2.trans hr1, ?_, ?_⟩
      · intro x
        simp only [hl2 x, hl1 x, hp, oheld]
        ring
      · intro hn _
        simp only at hn
        right
        refine ⟨rfl, ?_⟩
        rcases hs2 with ⟨q, hq, _⟩ | ⟨_, hne⟩
        · exact ⟨p, q, rfl, hq⟩
        · exact absurd hn hne
    · rename_i hp
      refine ⟨he1, hr1, ?_, ?_⟩
      · intro x
        simp only [hl1 x, hp, oheld]
        ring
      · intro _ ho
        simp only at ho
        rcases hs1 with ⟨p, hp2, _⟩ | ⟨_, hne⟩
        · rw [hp] at hp2; cases hp2
        · exact absurd ho hne
  · exact parents_ok_new_first env core _ _ user group
  · obtain ⟨he1, hr1, hs1, hl1⟩ := resolve_path_ok core (fskit_dirname old_path) user group true
    refine ⟨he1, hr1, ?_, ?_⟩
    · intro x
      simp only [hl1 x, oheld]
      ring
    · intro _ ho
      simp only at ho
      left
      rcases hs1 with ⟨c, hc, _⟩ | ⟨_, hne⟩
      · exact ⟨c, hc, rfl, rfl⟩
      · exact absurd ho hne
  · exact parents_ok_new_first env core _ _ user group

/-- Releasing the parents after resolution gives the lock state before the call. -/
theorem unlock_parents_locks (core : fskit_core) (r : rename_parents) (h : parents_ok core r)
    (x : Nat) :
    (fskit_entry_rename_unlock r.core r.fent_common_parent r.fent_old_parent
      r.fent_new_parent).locks x = core.locks x := by
  rw [rename_unlock_locks, h.2.2.1 x]
  ring

theorem unlock_parents_ents (core : fskit_core) (r : rename_parents) (h : parents_ok core r) :
    (fskit_entry_rename_unlock r.core r.fent_common_parent r.fent_old_parent
      r.fent_new_parent).ents = core.ents := by
  rw [rename_unlock_ents, h.1]

/-! ## Entry set lemmas -/

theorem find_filter_none (p : String × Nat → Bool) (l : fskit_entry_set) (k : String)
    (h : fskit_entry_set_find_name l k = none) :
    fskit_entry_set_find_name (l.filter p) k = none := by
  induction l with
  | nil => rfl
  | cons a rest ih =>
    obtain ⟨k1, v1⟩ := a
    simp only [fskit_entry_set_find_name] at h
    split_ifs at h with hk
    simp only [List.filter_cons]
    split_ifs
    · simp only [fskit_entry_set_find_name, hk, if_false]
      exact ih h
    · exact ih h

theorem find_remove_self (l : fskit_entry_set) (k : String) :
    fskit_entry_set_find_name (fskit_entry_set_remove l k) k = none := by
  unfold fskit_entry_set_remove
  induction l with
  | nil => rfl
  | cons a rest ih =>
    obtain ⟨k1, v1⟩ := a
    simp only [List.filter_cons]
    split_ifs with hk
    · have hk1 : k1 ≠ k := by simpa using hk
      simp only [fskit_entry_set_find_name, hk1, if_false]
      exact ih
    · exact ih

theorem find_remove_none (l : fskit_entry_set) (k k1 : String)
    (h : fskit_entry_set_find_name l k = none) :
    fskit_entry_set_find_name (fskit_entry_set_remove l k1) k = none :=
  find_filter_none _ l k h

theorem find_append_single (l : fskit_entry_set) (k k1 : String) (v : Nat)
    (h : fskit_entry_set_find_name l k = none) :
    fskit_entry_set_find_name (l ++ [(k1, v)]) k = if k1 = k then some v else none := by
  induction l with
  | nil => simp [fskit_entry_set_find_name]
  | cons a rest ih =>
    obtain ⟨k2, v2⟩ := a
    simp only [fskit_entry_set_find_name] at h
    split_ifs at h with hk
    simp only [List.cons_append, fskit_entry_set_find_name, hk, if_false]
    exact ih h

theorem find_filter_val (l : fskit_entry_set) (k : String) (v n : Nat)
    (h : fskit_entry_set_find_name l k = some v) (hv : v ≠ n) :
    fskit_entry_set_find_name (l.filter (fun kv => decide (kv.2 ≠ n))) k = some v := by
  induction l with
  | nil => simp [fskit_entry_set_find_name] at h
  | cons a rest ih =>
    obtain ⟨k1, v1⟩ := a
    simp only [fskit_entry_set_find_name] at h
    simp only [List.filter_cons]
    split_ifs at h with hk
    · have hv1 : v1 = v := by simpa using h
      subst hv1
      simp [hv, fskit_entry_set_find_name, hk]
    · split_ifs
      · simp only [fskit_entry_set_find_name, hk, if_false]
        exact ih h
      · exact ih h

theorem find_some_mem (l : fskit_entry_set) (k : String) (v : Nat)
    (h : fskit_entry_set_find_name l k = some v) : (k, v) ∈ l := by
  induction l with
  | nil => simp [fskit_entry_set_find_name] at h
  | cons a rest ih =>
    obtain ⟨k1, v1⟩ := a
    simp only [fskit_entry_set_find_name] at h
    split_ifs at h with hk
    · have hv1 : v1 = v := by simpa using h
      subst hv1; subst hk
      exact List.mem_cons_self _ _
    · exact List.mem_cons_of_mem _ (ih h)

theorem mem_remove (l : fskit_entry_set) (k k1 : String) (v : Nat) :
    (k, v) ∈ fskit_entry_set_remove l k1 ↔ (k, v) ∈ l ∧ k ≠ k1 := by
  simp [fskit_entry_set_remove, List.mem_filter]

/-- Inserting under a name that is absent puts the entry there. -/
theorem find_insert_absent (l : fskit_entry_set) (k : String) (v : Nat)
    (h : fskit_entry_set_find_name l k = none) :
    fskit_entry_set_find_name (fskit_entry_set_insert l k v).2 k = some v := by
  simp [fskit_entry_set_insert, h, find_append_single l k k v h]

/-- Inserting under one name leaves an absent other name absent. -/
theorem find_insert_other (l : fskit_entry_set) (k k1 : String) (v : Nat) (hk : k1 ≠ k)
    (h : fskit_entry_set_find_name l k = none) :
    fskit_entry_set_find_name (fskit_entry_set_insert l k1 v).2 k = none := by
  unfold fskit_entry_set_insert
  cases h1 : fskit_entry_set_find_name l k1 with
  | some x => simpa using h
  | none => simp [find_append_single l k k1 v h, hk]

theorem mem_insert (l : fskit_entry_set) (k k1 : String) (v v1 : Nat)
    (h : (k, v) ∈ (fskit_entry_set_insert l k1 v1).2) : (k, v) ∈ l ∨ (k = k1 ∧ v = v1) := by
  unfold fskit_entry_set_insert at h
  cases h1 : fskit_entry_set_find_name l k1 with
  | some x => rw [h1] at h; exact Or.inl h
  | none =>
    rw [h1] at h
    simp only [List.mem_append, List.mem_singleton, Prod.mk.injEq] at h
    exact h

/-! ## The move and the cleanup, entry by entry -/

theorem set_children_children (core : fskit_core) (p : Nat) (cs : fskit_entry_set) (x : Nat) :
    ((set_children core p cs).ents x).children = if x = p then cs else (core.ents x).children := by
  unfold set_children
  by_cases h : x = p
  · subst h; rw [if_pos rfl]; show (Function.update core.ents x _ x).children = cs
    rw [Function.update_same]
  · rw [if_neg h]; show (Function.update core.ents p _ x).children = _
    rw [Function.update_noteq h]

theorem set_children_name (core : fskit_core) (p : Nat) (cs : fskit_entry_set) (x : Nat) :
    ((set_children core p cs).ents x).name = (core.ents x).name := by
  unfold set_children
  by_cases h : x = p
  · subst h; show (Function.update core.ents x _ x).name = _
    rw [Function.update_same]
  · show (Function.update core.ents p _ x).name = _
    rw [Function.update_noteq h]

theorem set_name_children (core : fskit_core) (p : Nat) (n : String) (x : Nat) :
    ((set_name core p n).ents x).children = (core.ents x).children := by
  unfold set_name
  by_cases h : x = p
  · subst h; show (Function.update core.ents x _ x).children = _
    rw [Function.update_same]
  · show (Function.update core.ents p _ x).children = _
    rw [Function.update_noteq h]

theorem set_name_name (core : fskit_core) (p : Nat) (n : String) (x : Nat) :
    ((set_name core p n).ents x).name = if x = p then n else (core.ents x).name := by
  unfold set_name
  by_cases h : x = p
  · subst h; rw [if_pos rfl]; show (Function.update core.ents x _ x).name = n
    rw [Function.update_same]
  · rw [if_neg h]; show (Function.update core.ents p _ x).name = _
    rw [Function.update_noteq h]

theorem set_children_congr (c1 c2 : fskit_core) (h : c1.ents = c2.ents) (p : Nat)
    (cs : fskit_entry_set) : (set_children c1 p cs).ents = (set_children c2 p cs).ents := by
  unfold set_children
  show Function.update c1.ents p _ = Function.update c2.ents p _
  rw [h]

theorem set_name_congr (c1 c2 : fskit_core) (h : c1.ents = c2.ents) (p : Nat)
    (n : String) : (set_name c1 p n).ents = (set_name c2 p n).ents := by
  unfold set_name
  show Function.update c1.ents p _ = Function.update c2.ents p _
  rw [h]

theorem move_ents_congr (c1 c2 : fskit_core) (h : c1.ents = c2.ents) (src dst fent_old : Nat)
    (fent_new : Option Nat) (bn : String) :
    (fskit_rename_move c1 src dst fent_old fent_new bn).ents
      = (fskit_rename_move c2 src dst fent_old fent_new bn).ents := by
  unfold fskit_rename_move
  have h1 := set_children_congr c1 c2 h src
    (fskit_entry_set_remove (c2.ents src).children (c2.ents fent_old).name)
  have h2 := set_name_congr _ _ h1 fent_old bn
  cases fent_new with
  | none =>
    simp only [h]
    rw [h2]
    exact set_children_congr _ _ h2 dst _
  | some n =>
    simp only [h]
    rw [h2]
    have h3 := set_children_congr _ _ h2 dst (fskit_entry_set_remove
      (((set_name (set_children c2 src (fskit_entry_set_remove (c2.ents src).children
        (c2.ents fent_old).name)) fent_old bn).ents dst).children)
      (((set_name (set_children c2 src (fskit_entry_set_remove (c2.ents src).children
        (c2.ents fent_old).name)) fent_old bn).ents n).name))
    rw [h3]
    exact set_children_congr _ _ h3 dst _

theorem move_locks (core : fskit_core) (src dst fent_old : Nat)
    (fent_new : Option Nat) (bn : String) :
    (fskit_rename_move core src dst fent_old fent_new bn).locks = core.locks := by
  unfold fskit_rename_move set_children set_name
  cases fent_new <;> rfl

theorem move_root (core : fskit_core) (src dst fent_old : Nat)
    (fent_new : Option Nat) (bn : String) :
    (fskit_rename_move core src dst fent_old fent_new bn).root = core.root := by
  unfold fskit_rename_move set_children set_name
  cases fent_new <;> rfl

theorem move_name (core : fskit_core) (src dst fent_old : Nat)
    (fent_new : Option Nat) (bn : String) (x : Nat) :
    ((fskit_rename_move core src dst fent_old fent_new bn).ents x).name
      = if x = fent_old then bn else (core.ents x).name := by
  unfold fskit_rename_move
  cases fent_new
  · simp only [set_children_name, set_name_name]
  · simp only [set_children_name, set_name_name]

theorem move_children (core : fskit_core) (src dst fent_old : Nat)
    (fent_new : Option Nat) (bn : String) (x : Nat) :
    ((fskit_rename_move core src dst fent_old fent_new bn).ents x).children
      = if x = dst then
          (fskit_entry_set_insert
            (move_rm core fent_old fent_new bn (move_src core src fent_old dst)) bn fent_old).2
        else move_src core src fent_old x := by
  unfold fskit_rename_move move_rm move_src
  cases fent_new
  · simp only [set_children_children, set_children_name, set_name_children, set_name_name,
      if_true]
  · simp only [set_children_children, set_children_name, set_name_children, set_name_name,
      if_true]
    split_ifs <;> rfl

theorem detach_status (rc : Int) (core : fskit_core) (parent child : Nat) :
    (fskit_entry_detach_lowlevel rc core parent child).1 = rc := by
  unfold fskit_entry_detach_lowlevel
  split_ifs with h
  · rfl
  · simp only [not_not] at h
    exact h.symm

theorem detach_failed (rc : Int) (h : rc ≠ 0) (core : fskit_core) (parent child : Nat) :
    (fskit_entry_detach_lowlevel rc core parent child).2 = core := by
  unfold fskit_entry_detach_lowlevel
  rw [if_pos h]

theorem detach_ents_congr (rc : Int) (c1 c2 : fskit_core) (h : c1.ents = c2.ents)
    (parent child : Nat) :
    (fskit_entry_detach_lowlevel rc c1 parent child).2.ents
      = (fskit_entry_detach_lowlevel rc c2 parent child).2.ents := by
  unfold fskit_entry_detach_lowlevel
  split_ifs
  · exact h
  · have h1 := set_children_congr c1 c2 h parent
      ((c2.ents parent).children.filter (fun kv => decide (kv.2 ≠ child)))
    simp only [h]
    show Function.update _ child _ = Function.update _ child _
    rw [h1]

theorem detach_locks (rc : Int) (core : fskit_core) (parent child : Nat) :
    (fskit_entry_detach_lowlevel rc core parent child).2.locks = core.locks := by
  unfold fskit_entry_detach_lowlevel set_children
  split_ifs <;> rfl

theorem detach_root (rc : Int) (core : fskit_core) (parent child : Nat) :
    (fskit_entry_detach_lowlevel rc core parent child).2.root = core.root := by
  unfold fskit_entry_detach_lowlevel set_children
  split_ifs <;> rfl

theorem detach_name (rc : Int) (core : fskit_core) (parent child x : Nat) :
    ((fskit_entry_detach_lowlevel rc core parent child).2.ents x).name = (core.ents x).name := by
  unfold fskit_entry_detach_lowlevel
  split_ifs
  · rfl
  · dsimp only
    by_cases hx : x = child
    · subst hx
      rw [Function.update_same]
      exact set_children_name _ _ _ _
    · rw [Function.update_noteq hx]
      exact set_children_name _ _ _ _

theorem detach_children (core : fskit_core) (parent child x : Nat) :
    ((fskit_entry_detach_lowlevel 0 core parent child).2.ents x).children
      = if x = parent then (core.ents parent).children.filter (fun kv => decide (kv.2 ≠ child))
        else (core.ents x).children := by
  unfold fskit_entry_detach_lowlevel
  rw [if_neg (by decide)]
  dsimp only
  by_cases hx : x = child
  · subst hx
    rw [Function.update_same]
    exact set_children_children _ _ _ _
  · rw [Function.update_noteq hx]
    exact set_children_children _ _ _ _

theorem check_types_congr (c1 c2 : fskit_core) (h : c1.ents = c2.ents) (fent_old : Nat)
    (fent_new : Option Nat) :
    fskit_rename_check_types c1 fent_old fent_new = fskit_rename_check_types c2 fent_old fent_new := by
  unfold fskit_rename_check_types
  rw [h]

/-! ## The paths through `fskit_rename` -/

/-- When both dirname copies are allocated, the parents resolve and the caller may search
and write them, `fskit_rename` goes on to look up the children. -/
theorem rename_past_checks (env : fskit_env) (core : fskit_core)
    (old_path new_path : List String) (user group : Nat)
    (hoom : env.dirname_old_oom = false ∧ env.dirname_new_oom = false)
    (hn : (fskit_rename_resolve_parents env core old_path new_path user group).err_new = 0)
    (ho : (fskit_rename_resolve_parents env core old_path new_path user group).err_old = 0)
    (hacc : fskit_rename_access_denied
      (fskit_rename_resolve_parents env core old_path new_path user group) user group = false) :
    fskit_rename env core old_path new_path user group
      = fskit_rename_children env
          (fskit_rename_resolve_parents env core old_path new_path user group)
          old_path new_path := by
  unfold fskit_rename
  simp [hoom.1, hoom.2, hn, ho, hacc]

theorem children_source_missing (env : fskit_env) (r : rename_parents)
    (old_path new_path : List String) (h : fskit_rename_fent_old r old_path = none) :
    fskit_rename_children env r old_path new_path
      = (-ENOENT, fskit_entry_rename_unlock r.core r.fent_common_parent r.fent_old_parent
          r.fent_new_parent) := by
  unfold fskit_rename_children
  simp only [h]

theorem children_same_entry (env : fskit_env) (r : rename_parents)
    (old_path new_path : List String) (fent : Nat)
    (h1 : fskit_rename_fent_old r old_path = some fent)
    (h2 : fskit_rename_fent_new r new_path = some fent) :
    fskit_rename_children env r old_path new_path
      = (0, fskit_entry_rename_unlock r.core r.fent_common_parent r.fent_old_parent
          r.fent_new_parent) := by
  unfold fskit_rename_children
  simp only [h1, h2, if_true]

theorem children_kind_mismatch (env : fskit_env) (r : rename_parents)
    (old_path new_path : List String) (fent_old fent_new : Nat)
    (h1 : fskit_rename_fent_old r old_path = some fent_old)
    (h2 : fskit_rename_fent_new r new_path = some fent_new)
    (hne : fent_old ≠ fent_new)
    (hk : fskit_rename_check_types r.core fent_old (some fent_new) ≠ 0) :
    fskit_rename_children env r old_path new_path
      = (fskit_rename_check_types r.core fent_old (some fent_new),
          fskit_entry_rename_unlock (fskit_entry_wlock (fskit_entry_wlock r.core fent_old) fent_new)
            r.fent_common_parent r.fent_old_parent r.fent_new_parent) := by
  have hc : fskit_rename_check_types
      (fskit_entry_wlock (fskit_entry_wlock r.core fent_old) fent_new) fent_old (some fent_new)
      = fskit_rename_check_types r.core fent_old (some fent_new) :=
    check_types_congr _ _ rfl _ _
  unfold fskit_rename_children
  simp only [h1, h2]
  rw [if_neg (by simpa using hne)]
  simp only [hc]
  rw [if_pos hk]

/-- The same-entry return, seen from `fskit_rename`: status 0, tree and locks as before. -/
theorem same_entry_noop (env : fskit_env) (core : fskit_core)
    (old_path new_path : List String) (user group : Nat) (fent : Nat)
    (hoom : env.dirname_old_oom = false ∧ env.dirname_new_oom = false)
    (hn : (fskit_rename_resolve_parents env core old_path new_path user group).err_new = 0)
    (ho : (fskit_rename_resolve_parents env core old_path new_path user group).err_old = 0)
    (hacc : fskit_rename_access_denied
      (fskit_rename_resolve_parents env core old_path new_path user group) user group = false)
    (hsrc : fskit_rename_fent_old
      (fskit_rename_resolve_parents env core old_path new_path user group) old_path = some fent)
    (hdst : fskit_rename_fent_new
      (fskit_rename_resolve_parents env core old_path new_path user group) new_path = some fent) :
    (fskit_rename env core old_path new_path user group).1 = 0 ∧
    (fskit_rename env core old_path new_path user group).2.ents = core.ents ∧
    (fskit_rename env core old_path new_path user group).2.root = core.root ∧
    ∀ x, (fskit_rename env core old_path new_path user group).2.locks x = core.locks x := by
  have hp := resolve_parents_ok env core old_path new_path user group
  rw [rename_past_checks env core old_path new_path user group hoom hn ho hacc,
    children_same_entry env _ old_path new_path fent hsrc hdst]
  refine ⟨rfl, unlock_parents_ents core _ hp, ?_, unlock_parents_locks core _ hp⟩
  rw [rename_unlock_root]; exact hp.2.1

/-- For one and the same path, only the common parent is resolved. -/
theorem resolve_parents_same_path (env : fskit_env) (core : fskit_core) (path : List String)
    (user group : Nat) :
    fskit_rename_resolve_parents env core path path user group
      = { fent_old_parent := none, fent_new_parent := none,
          fent_common_parent := (fskit_entry_resolve_path core (fskit_dirname path) user group true).1,
          err_old := (fskit_entry_resolve_path core (fskit_dirname path) user group true).2.1,
          err_new := 0,
          core := (fskit_entry_resolve_path core (fskit_dirname path) user group true).2.2 } := by
  unfold fskit_rename_resolve_parents
  simp

theorem dirname_concat (dir : List String) (name : String) :
    fskit_dirname (dir ++ [name]) = dir := by
  simp [fskit_dirname]

theorem basename_concat (dir : List String) (name : String) :
    fskit_basename (dir ++ [name]) = name := by
  simp [fskit_basename, List.getLastD_concat]

/-- Renaming an existing path onto itself, in a parent that the caller may search and write:
status 0, tree and locks as before. -/
theorem same_path_noop (env : fskit_env) (core : fskit_core) (user group : Nat)
    (hoom : env.dirname_old_oom = false ∧ env.dirname_new_oom = false)
    (dir : List String) (name : String) (parent fent : Nat)
    (hP : (fskit_entry_resolve_path core dir user group true).1 = some parent)
    (hs : FSKIT_ENTRY_IS_DIR_SEARCHABLE (core.ents parent).mode (core.ents parent).owner
      (core.ents parent).group user group = true)
    (hw : FSKIT_ENTRY_IS_WRITEABLE (core.ents parent).mode (core.ents parent).owner
      (core.ents parent).group user group = true)
    (hf : fskit_entry_set_find_name (core.ents parent).children name = some fent) :
    (fskit_rename env core (dir ++ [name]) (dir ++ [name]) user group).1 = 0 ∧
    (fskit_rename env core (dir ++ [name]) (dir ++ [name]) user group).2.ents = core.ents ∧
    (fskit_rename env core (dir ++ [name]) (dir ++ [name]) user group).2.root = core.root ∧
    ∀ x, (fskit_rename env core (dir ++ [name]) (dir ++ [name]) user group).2.locks x
      = core.locks x := by
  obtain ⟨he, _, hsh, _⟩ := resolve_path_ok core dir user group true
  have herr : (fskit_entry_resolve_path core dir user group true).2.1 = 0 := by
    rcases hsh with ⟨_, _, h0⟩ | ⟨hnone, _⟩
    · exact h0
    · rw [hP] at hnone; cases hnone
  have hrp := resolve_parents_same_path env core (dir ++ [name]) user group
  rw [dirname_concat] at hrp
  apply same_entry_noop env core _ _ user group fent hoom
  · rw [hrp]
  · rw [hrp]; exact herr
  · rw [hrp]
    simp [fskit_rename_access_denied, parent_denied, hP, he, hs, hw]
  · rw [hrp]
    simp [fskit_rename_fent_old, rename_parents.src_parent, hP, he, basename_concat, hf]
  · rw [hrp]
    simp [fskit_rename_fent_new, rename_parents.dest_parent, hP, he, basename_concat, hf]

/-- The return after a failed route hook: its status, the entries and the root as the
parents phase left them, and the locks of the children released again. -/
theorem children_hook_failed (env : fskit_env) (r : rename_parents)
    (old_path new_path : List String) (fent_old src dst : Nat) (st : Int)
    (h1 : fskit_rename_fent_old r old_path = some fent_old)
    (hne : fskit_rename_fent_new r new_path ≠ some fent_old)
    (hk : fskit_rename_check_types r.core fent_old (fskit_rename_fent_new r new_path) = 0)
    (hs : r.src_parent = some src) (hd : r.dest_parent = some dst)
    (hh : fskit_run_user_rename env old_path src fent_old new_path dst
      (fskit_rename_fent_new r new_path) = st)
    (hst : st ≠ 0) :
    (fskit_rename_children env r old_path new_path).1 = st ∧
    (fskit_rename_children env r old_path new_path).2.ents = r.core.ents ∧
    (fskit_rename_children env r old_path new_path).2.root = r.core.root ∧
    ∀ x, (fskit_rename_children env r old_path new_path).2.locks x
      = r.core.locks x - oheld r.fent_old_parent x - oheld r.fent_new_parent x
        - oheld r.fent_common_parent x := by
  unfold fskit_rename_children
  simp only [h1]
  rw [if_neg (fun h => hne h.symm)]
  cases hfn : fskit_rename_fent_new r new_path with
  | none =>
    rw [hfn] at hk hh
    have hk2 : fskit_rename_check_types (fskit_entry_wlock r.core fent_old) fent_old none = 0 :=
      (check_types_congr _ _ rfl _ _).trans hk
    simp only [hk2, ne_eq, not_true_eq_false, if_false, hs, hd, hh, hst, not_false_eq_true,
      if_true]
    refine ⟨trivial, ?_, ?_, ?_⟩
    · rw [rename_unlock_ents]; rfl
    · rw [rename_unlock_root]; rfl
    · intro x
      rw [rename_unlock_locks, unlock_locks, wlock_locks]
      ring
  | some n =>
    rw [hfn] at hk hh
    have hk2 : fskit_rename_check_types (fskit_entry_wlock (fskit_entry_wlock r.core fent_old) n)
        fent_old (some n) = 0 :=
      (check_types_congr _ _ rfl _ _).trans hk
    simp only [hk2, ne_eq, not_true_eq_false, if_false, hs, hd, hh, hst, not_false_eq_true,
      if_true]
    refine ⟨trivial, ?_, ?_, ?_⟩
    · rw [rename_unlock_ents]; rfl
    · rw [rename_unlock_root]; rfl
    · intro x
      rw [rename_unlock_locks, unlock_locks, unlock_locks, wlock_locks, wlock_locks]
      ring

/-- The return after the move, when no destination entry existed: status 0, the entries
moved, the locks of the source released again. -/
theorem children_moved_fresh (env : fskit_env) (r : rename_parents)
    (old_path new_path : List String) (fent_old src dst : Nat)
    (h1 : fskit_rename_fent_old r old_path = some fent_old)
    (hfn : fskit_rename_fent_new r new_path = none)
    (hs : r.src_parent = some src) (hd : r.dest_parent = some dst)
    (hh : fskit_run_user_rename env old_path src fent_old new_path dst none = 0) :
    (fskit_rename_children env r old_path new_path).1 = 0 ∧
    (fskit_rename_children env r old_path new_path).2.ents
      = (fskit_rename_move r.core src dst fent_old none (fskit_basename new_path)).ents ∧
    (fskit_rename_children env r old_path new_path).2.root = r.core.root ∧
    ∀ x, (fskit_rename_children env r old_path new_path).2.locks x
      = r.core.locks x - oheld r.fent_old_parent x - oheld r.fent_new_parent x
        - oheld r.fent_common_parent x := by
  unfold fskit_rename_children
  simp only [h1, hfn]
  rw [if_neg (by simp)]
  have hk2 : fskit_rename_check_types (fskit_entry_wlock r.core fent_old) fent_old none = 0 := rfl
  simp only [hk2, ne_eq, not_true_eq_false, if_false, hs, hd, hh]
  refine ⟨trivial, ?_, ?_, ?_⟩
  · rw [unlock_ents, rename_unlock_ents]
    exact move_ents_congr _ _ rfl _ _ _ _ _
  · rw [unlock_root, rename_unlock_root, move_root]; rfl
  · intro x
    rw [unlock_locks, rename_unlock_locks, move_locks, wlock_locks]
    ring

/-- The return after the move, when the destination entry `n` was replaced: the status of
the cleanup, the entries moved and cleaned up, the locks of both children released
again. -/
theorem children_moved_over (env : fskit_env) (r : rename_parents)
    (old_path new_path : List String) (fent_old n src dst : Nat)
    (h1 : fskit_rename_fent_old r old_path = some fent_old)
    (hfn : fskit_rename_fent_new r new_path = some n)
    (hne : n ≠ fent_old)
    (hk : fskit_rename_check_types r.core fent_old (some n) = 0)
    (hs : r.src_parent = some src) (hd : r.dest_parent = some dst)
    (hh : fskit_run_user_rename env old_path src fent_old new_path dst (some n) = 0) :
    (fskit_rename_children env r old_path new_path).1 = env.detach_rc ∧
    (fskit_rename_children env r old_path new_path).2.ents
      = (fskit_entry_detach_lowlevel env.detach_rc
          (fskit_rename_move r.core src dst fent_old (some n) (fskit_basename new_path))
          dst n).2.ents ∧
    (fskit_rename_children env r old_path new_path).2.root = r.core.root ∧
    ∀ x, (fskit_rename_children env r old_path new_path).2.locks x
      = r.core.locks x - oheld r.fent_old_parent x - oheld r.fent_new_parent x
        - oheld r.fent_common_parent x := by
  unfold fskit_rename_children
  simp only [h1, hfn]
  rw [if_neg (by simpa using hne.symm)]
  have hk2 : fskit_rename_check_types (fskit_entry_wlock (fskit_entry_wlock r.core fent_old) n)
      fent_old (some n) = 0 :=
    (check_types_congr _ _ rfl _ _).trans hk
  simp only [hk2, ne_eq, not_true_eq_false, if_false, hs, hd, hh]
  refine ⟨detach_status _ _ _ _, ?_, ?_, ?_⟩
  · rw [maybe_free_ents, unlock_ents, rename_unlock_ents]
    apply detach_ents_congr
    rw [unlock_ents]
    exact move_ents_congr _ _ rfl _ _ _ _ _
  · rw [maybe_free_root, unlock_root, rename_unlock_root, detach_root, unlock_root, move_root]
    rfl
  · intro x
    rw [maybe_free_locks, unlock_locks, rename_unlock_locks, detach_locks, unlock_locks,
      move_locks, wlock_locks, wlock_locks]
    ring

/-! ## What the move does to the children mappings -/

/-- After the move the source parent holds nothing under the old name. -/
theorem moved_src_gone (core : fskit_core) (src dst fent_old : Nat) (fent_new : Option Nat)
    (bo bn : String) (hname : (core.ents fent_old).name = bo) (hdiff : src = dst → bn ≠ bo) :
    fskit_entry_set_find_name
      ((fskit_rename_move core src dst fent_old fent_new bn).ents src).children bo = none := by
  rw [move_children]
  have hsrc : fskit_entry_set_find_name (move_src core src fent_old src) bo = none := by
    unfold move_src
    rw [if_pos rfl, hname]
    exact find_remove_self _ _
  split_ifs with h
  · apply find_insert_other _ _ _ _ (hdiff h)
    rw [← h]
    unfold move_rm
    cases fent_new with
    | none => exact hsrc
    | some n => exact find_remove_none _ _ _ hsrc
  · exact hsrc

/-- After the move the destination parent holds the source entry under the new name. -/
theorem moved_dst_has (core : fskit_core) (src dst fent_old : Nat) (fent_new : Option Nat)
    (bn : String)
    (hnew : ∀ n, fent_new = some n → n ≠ fent_old ∧ (core.ents n).name = bn)
    (hnone : fent_new = none → fskit_entry_set_find_name (core.ents dst).children bn = none) :
    fskit_entry_set_find_name
      ((fskit_rename_move core src dst fent_old fent_new bn).ents dst).children bn
        = some fent_old := by
  rw [move_children, if_pos rfl]
  apply find_insert_absent
  unfold move_rm
  cases fent_new with
  | none =>
    simp only
    unfold move_src
    split_ifs with h
    · rw [← h]; exact find_remove_none _ _ _ (hnone rfl)
    · exact hnone rfl
  | some n =>
    simp only
    rw [if_neg (hnew n rfl).1, (hnew n rfl).2]
    exact find_remove_self _ _

/-- What a children mapping holds after the move, it held before, unless it is the source
entry under its new name in the destination parent. -/
theorem moved_mem (core : fskit_core) (src dst fent_old : Nat) (fent_new : Option Nat)
    (bn : String) (d : Nat) (k : String) (c : Nat)
    (h : (k, c) ∈ ((fskit_rename_move core src dst fent_old fent_new bn).ents d).children) :
    (k, c) ∈ (core.ents d).children ∨ (d = dst ∧ k = bn ∧ c = fent_old) := by
  rw [move_children] at h
  have hsub : ∀ x, (k, c) ∈ move_src core src fent_old x → (k, c) ∈ (core.ents x).children := by
    intro x hx
    unfold move_src at hx
    split_ifs at hx with h1
    · rw [h1]; exact ((mem_remove _ _ _ _).1 hx).1
    · exact hx
  split_ifs at h with hd
  · rcases mem_insert _ _ _ _ _ h with h2 | ⟨h2, h3⟩
    · left
      rw [hd]
      apply hsub
      unfold move_rm at h2
      cases fent_new with
      | none => exact h2
      | some n => exact ((mem_remove _ _ _ _).1 h2).1
    · exact Or.inr ⟨hd, h2, h3⟩
  · exact Or.inl (hsub d h)

/-- After the move a replaced destination entry, whose stored name was the new name, is
held by the destination parent under no name but possibly a different one. -/
theorem moved_new_gone (core : fskit_core) (src dst fent_old n : Nat) (bn : String)
    (hne : n ≠ fent_old) (hname : (core.ents n).name = bn) (k : String)
    (h : (k, n) ∈ ((fskit_rename_move core src dst fent_old (some n) bn).ents dst).children) :
    (k, n) ∈ (core.ents dst).children ∧ k ≠ bn := by
  rw [move_children, if_pos rfl] at h
  rcases mem_insert _ _ _ _ _ h with h2 | ⟨_, h3⟩
  · unfold move_rm at h2
    simp only at h2
    rw [if_neg hne, hname] at h2
    obtain ⟨h4, h5⟩ := (mem_remove _ _ _ _).1 h2
    refine ⟨?_, h5⟩
    unfold move_src at h4
    split_ifs at h4 with h1
    · rw [h1]; exact ((mem_remove _ _ _ _).1 h4).1
    · exact h4
  · exact absurd h3 hne

/-- The lookups of rename.cpp 193-200, read in the tree before the call. -/
theorem fent_old_eq (core : fskit_core) (r : rename_parents) (hp : parents_ok core r)
    (old_path : List String) (src : Nat) (hs : r.src_parent = some src) :
    fskit_rename_fent_old r old_path
      = fskit_entry_set_find_name (core.ents src).children (fskit_basename old_path) := by
  unfold fskit_rename_fent_old
  rw [hs, hp.1]

theorem fent_new_eq (core : fskit_core) (r : rename_parents) (hp : parents_ok core r)
    (new_path : List String) (dst : Nat) (hd : r.dest_parent = some dst) :
    fskit_rename_fent_new r new_path
      = fskit_entry_set_find_name (core.ents dst).children (fskit_basename new_path) := by
  unfold fskit_rename_fent_new
  rw [hd, hp.1]

/-- Past the permission check there is a directory for each lookup. -/
theorem parents_exist (core : fskit_core) (r : rename_parents) (hp : parents_ok core r)
    (hn : r.err_new = 0) (ho : r.err_old = 0) :
    ∃ src dst, r.src_parent = some src ∧ r.dest_parent = some dst := by
  rcases hp.2.2.2 hn ho with ⟨c, hc, _, _⟩ | ⟨hc, p, q, hp1, hq1⟩
  · exact ⟨c, c, by simp [rename_parents.src_parent, hc], by simp [rename_parents.dest_parent, hc]⟩
  · exact ⟨p, q, by simp [rename_parents.src_parent, hc, hp1],
      by simp [rename_parents.dest_parent, hc, hq1]⟩

/-- A call that returns 0 got past the allocation, the resolution and the permission
check. -/
theorem rename_zero_past_checks (env : fskit_env) (core : fskit_core)
    (old_path new_path : List String) (user group : Nat)
    (h0 : (fskit_rename env core old_path new_path user group).1 = 0) :
    (env.dirname_old_oom = false ∧ env.dirname_new_oom = false) ∧
    (fskit_rename_resolve_parents env core old_path new_path user group).err_new = 0 ∧
    (fskit_rename_resolve_parents env core old_path new_path user group).err_old = 0 ∧
    fskit_rename_access_denied
      (fskit_rename_resolve_parents env core old_path new_path user group) user group = false := by
  unfold fskit_rename at h0
  by_cases a : (env.dirname_old_oom || env.dirname_new_oom) = true
  · rw [if_pos a] at h0
    exact absurd h0 (show (-ENOMEM : Int) ≠ 0 by decide)
  · rw [if_neg a] at h0
    simp only at h0
    by_cases b : (fskit_rename_resolve_parents env core old_path new_path user group).err_new ≠ 0
    · rw [if_pos b] at h0
      exact absurd h0 b
    · rw [if_neg b] at h0
      by_cases c : (fskit_rename_resolve_parents env core old_path new_path user group).err_old ≠ 0
      · rw [if_pos c] at h0
        exact absurd h0 c
      · rw [if_neg c] at h0
        by_cases d : fskit_rename_access_denied
            (fskit_rename_resolve_parents env core old_path new_path user group) user group = true
        · rw [if_pos d] at h0
          exact absurd h0 (show (-EACCES : Int) ≠ 0 by decide)
        · refine ⟨?_, ?_, ?_, ?_⟩
          · simpa using a
          · simpa using b
          · simpa using c
          · simpa using d

/-! ## What the cleanup keeps -/

theorem detach_mem (rc : Int) (core : fskit_core) (parent child d : Nat) (k : String) (c : Nat)
    (h : (k, c) ∈ ((fskit_entry_detach_lowlevel rc core parent child).2.ents d).children) :
    (k, c) ∈ (core.ents d).children := by
  by_cases hrc : rc = 0
  · subst hrc
    rw [detach_children] at h
    split_ifs at h with hd
    · rw [hd]; exact (List.mem_filter.1 h).1
    · exact h
  · rw [detach_failed rc hrc] at h
    exact h

theorem detach_find_none (rc : Int) (core : fskit_core) (parent child d : Nat) (k : String)
    (h : fskit_entry_set_find_name (core.ents d).children k = none) :
    fskit_entry_set_find_name
      ((fskit_entry_detach_lowlevel rc core parent child).2.ents d).children k = none := by
  by_cases hrc : rc = 0
  · subst hrc
    rw [detach_children]
    split_ifs with hd
    · apply find_filter_none; rw [← hd]; exact h
    · exact h
  · rw [detach_failed rc hrc]
    exact h

theorem detach_find_val (rc : Int) (core : fskit_core) (parent child d : Nat) (k : String)
    (v : Nat) (h : fskit_entry_set_find_name (core.ents d).children k = some v)
    (hv : v ≠ child) :
    fskit_entry_set_find_name
      ((fskit_entry_detach_lowlevel rc core parent child).2.ents d).children k = some v := by
  by_cases hrc : rc = 0
  · subst hrc
    rw [detach_children]
    split_ifs with hd
    · apply find_filter_val _ _ _ _ _ hv; rw [← hd]; exact h
    · exact h
  · rw [detach_failed rc hrc]
    exact h

/-! ## The committed move -/

/-- Everything past the route hook, in a tree with consistent names: the status is 0 when
no destination existed and the status of the cleanup otherwise; whatever that status, the
source parent holds nothing under the old name, the destination parent holds the source
entry under the new name, the source entry carries the new name, a replaced entry that had
one parent is held nowhere, and the locks of the call are released. -/
theorem move_committed (env : fskit_env) (core : fskit_core) (r : rename_parents)
    (old_path new_path : List String) (fent_old src dst : Nat)
    (hp : parents_ok core r) (hwf : name_key_consistent core)
    (hs : r.src_parent = some src) (hd : r.dest_parent = some dst)
    (h1 : fskit_rename_fent_old r old_path = some fent_old)
    (hne : fskit_rename_fent_new r new_path ≠ some fent_old)
    (hk : fskit_rename_check_types core fent_old (fskit_rename_fent_new r new_path) = 0)
    (hh : fskit_run_user_rename env old_path src fent_old new_path dst
      (fskit_rename_fent_new r new_path) = 0) :
    (fskit_rename_fent_new r new_path = none →
      (fskit_rename_children env r old_path new_path).1 = 0) ∧
    (fskit_rename_fent_new r new_path ≠ none →
      (fskit_rename_children env r old_path new_path).1 = env.detach_rc) ∧
    fskit_entry_set_find_name
      ((fskit_rename_children env r old_path new_path).2.ents src).children
      (fskit_basename old_path) = none ∧
    fskit_entry_set_find_name
      ((fskit_rename_children env r old_path new_path).2.ents dst).children
      (fskit_basename new_path) = some fent_old ∧
    ((fskit_rename_children env r old_path new_path).2.ents fent_old).name
      = fskit_basename new_path ∧
    (single_parent core → ∀ n, fskit_rename_fent_new r new_path = some n →
      ∀ d k, (k, n) ∉ ((fskit_rename_children env r old_path new_path).2.ents d).children) ∧
    (fskit_rename_children env r old_path new_path).2.root = core.root ∧
    ∀ x, (fskit_rename_children env r old_path new_path).2.locks x = core.locks x := by
  have hfo := fent_old_eq core r hp old_path src hs
  have hfn := fent_new_eq core r hp new_path dst hd
  have hmem_old : (fskit_basename old_path, fent_old) ∈ (core.ents src).children :=
    find_some_mem _ _ _ (hfo ▸ h1)
  have hname_old : (r.core.ents fent_old).name = fskit_basename old_path := by
    rw [hp.1]; exact hwf _ _ _ hmem_old
  have hdiff : src = dst → fskit_basename new_path ≠ fskit_basename old_path := by
    intro hsd hb
    apply hne
    rw [hfn, ← hsd, hb, ← hfo]
    exact h1
  have hlocks : ∀ x, r.core.locks x - oheld r.fent_old_parent x - oheld r.fent_new_parent x
      - oheld r.fent_common_parent x = core.locks x := by
    intro x; rw [hp.2.2.1 x]; ring
  have hk2 : fskit_rename_check_types r.core fent_old (fskit_rename_fent_new r new_path) = 0 :=
    (check_types_congr _ _ hp.1 _ _).trans hk
  cases hcase : fskit_rename_fent_new r new_path with
  | none =>
    rw [hcase] at hh
    obtain ⟨e1, e2, e3, e4⟩ := children_moved_fresh env r old_path new_path fent_old src dst
      h1 hcase hs hd hh
    refine ⟨fun _ => e1, fun h => absurd rfl h, ?_, ?_, ?_, ?_, ?_, ?_⟩
    · rw [e2]; exact moved_src_gone _ _ _ _ _ _ _ hname_old hdiff
    · rw [e2]
      apply moved_dst_has
      · intro n hn; cases hn
      · intro _; rw [hp.1, ← hfn]; exact hcase
    · rw [e2, move_name, if_pos rfl]
    · intro _ n hn; cases hn
    · rw [e3]; exact hp.2.1
    · intro x; rw [e4 x]; exact hlocks x
  | some n =>
    rw [hcase] at hh hk2
    have hn_ne : n ≠ fent_old := by
      intro h; apply hne; rw [hcase, h]
    have hmem_new : (fskit_basename new_path, n) ∈ (core.ents dst).children :=
      find_some_mem _ _ _ (hfn ▸ hcase)
    have hname_new : (r.core.ents n).name = fskit_basename new_path := by
      rw [hp.1]; exact hwf _ _ _ hmem_new
    obtain ⟨e1, e2, e3, e4⟩ := children_moved_over env r old_path new_path fent_old n src dst
      h1 hcase hn_ne hk2 hs hd hh
    refine ⟨fun h => Option.noConfusion h, fun _ => e1, ?_, ?_, ?_, ?_, ?_, ?_⟩
    · rw [e2]
      apply detach_find_none
      exact moved_src_gone _ _ _ _ _ _ _ hname_old hdiff
    · rw [e2]
      apply detach_find_val _ _ _ _ _ _ _ _ (Ne.symm hn_ne)
      apply moved_dst_has
      · intro m hm
        cases hm
        exact ⟨hn_ne, hname_new⟩
      · intro h; cases h
    · rw [e2, detach_name, move_name, if_pos rfl]
    · intro hsp m hm d k hmem
      cases hm
      rw [e2] at hmem
      have h2 := detach_mem _ _ _ _ _ _ _ hmem
      by_cases hdd : d = dst
      · subst hdd
        obtain ⟨h3, h4⟩ := moved_new_gone _ _ _ _ _ _ hn_ne hname_new _ h2
        rw [hp.1] at h3
        exact h4 (hsp _ _ _ _ _ h3 hmem_new).2
      · rcases moved_mem _ _ _ _ _ _ _ _ _ h2 with h3 | ⟨h3, _⟩
        · rw [hp.1] at h3
          exact hdd (hsp _ _ _ _ _ h3 hmem_new).1
        · exact hdd h3
    · rw [e3]; exact hp.2.1
    · intro x; rw [e4 x]; exact hlocks x

/-- A call that gets past the lookups with distinct entries and returns 0 passed the kind
check and the route hook. -/
theorem children_zero_reaches (env : fskit_env) (core : fskit_core) (r : rename_parents)
    (old_path new_path : List String) (fent_old src dst : Nat)
    (hp : parents_ok core r)
    (hs : r.src_parent = some src) (hd : r.dest_parent = some dst)
    (h1 : fskit_rename_fent_old r old_path = some fent_old)
    (hne : fskit_rename_fent_new r new_path ≠ some fent_old)
    (h0 : (fskit_rename_children env r old_path new_path).1 = 0) :
    fskit_rename_check_types core fent_old (fskit_rename_fent_new r new_path) = 0 ∧
    fskit_run_user_rename env old_path src fent_old new_path dst
      (fskit_rename_fent_new r new_path) = 0 := by
  have hk : fskit_rename_check_types r.core fent_old (fskit_rename_fent_new r new_path) = 0 := by
    by_contra hk
    cases hcase : fskit_rename_fent_new r new_path with
    | none => rw [hcase] at hk; exact hk rfl
    | some n =>
      rw [hcase] at hk
      have hn : fent_old ≠ n := by
        intro h; apply hne; rw [hcase, h]
      rw [children_kind_mismatch env r old_path new_path fent_old n h1 hcase hn hk] at h0
      exact hk h0
  refine ⟨(check_types_congr _ _ hp.1 _ _).symm.trans hk, ?_⟩
  by_contra hh
  have := (children_hook_failed env r old_path new_path fent_old src dst _ h1 hne hk hs hd rfl
    hh).1
  rw [h0] at this
  exact hh this.symm

theorem tree_two_files_consistent : name_key_consistent tree_two_files := by
  intro d k c h
  rcases d with _ | _ | _ | d
  · simp [tree_two_files, mk_core, mk_dir] at h
    rcases h with ⟨rfl, rfl⟩ | ⟨rfl, rfl⟩ <;> rfl
  · simp [tree_two_files, mk_core, mk_file] at h
  · simp [tree_two_files, mk_core, mk_file] at h
  · simp [tree_two_files, mk_core, mk_file] at h

theorem tree_two_files_children (d : Nat) (k : String) (c : Nat)
    (h : (k, c) ∈ (tree_two_files.ents d).children) :
    d = 0 ∧ ((k = "a" ∧ c = 1) ∨ (k = "b" ∧ c = 2)) := by
  rcases d with _ | _ | _ | d
  · simp [tree_two_files, mk_core, mk_dir] at h
    exact ⟨rfl, h⟩
  · simp [tree_two_files, mk_core, mk_file] at h
  · simp [tree_two_files, mk_core, mk_file] at h
  · simp [tree_two_files, mk_core, mk_file] at h

theorem tree_two_files_single_parent : single_parent tree_two_files := by
  intro d1 k1 d2 k2 c h1 h2
  obtain ⟨e1, f1⟩ := tree_two_files_children d1 k1 c h1
  obtain ⟨e2, f2⟩ := tree_two_files_children d2 k2 c h2
  refine ⟨e1.trans e2.symm, ?_⟩
  rcases f1 with ⟨a1, b1⟩ | ⟨a1, b1⟩ <;> rcases f2 with ⟨a2, b2⟩ | ⟨a2, b2⟩ <;>
    first
      | exact a1.trans a2.symm
      | omega

/-! ## Renaming inside one directory -/

theorem set_children_other (core : fskit_core) (p : Nat) (cs : fskit_entry_set) (x : Nat)
    (h : x ≠ p) : (set_children core p cs).ents x = core.ents x := by
  unfold set_children
  exact Function.update_noteq h _ _

theorem set_name_other (core : fskit_core) (p : Nat) (n : String) (x : Nat)
    (h : x ≠ p) : (set_name core p n).ents x = core.ents x := by
  unfold set_name
  exact Function.update_noteq h _ _

theorem set_children_ids (core : fskit_core) (p : Nat) (cs : fskit_entry_set) (x : Nat) :
    ((set_children core p cs).ents x).file_id = (core.ents x).file_id ∧
    ((set_children core p cs).ents x).type = (core.ents x).type := by
  by_cases h : x = p
  · subst h
    unfold set_children
    dsimp only
    rw [Function.update_same]
    exact ⟨rfl, rfl⟩
  · rw [set_children_other core p cs x h]
    exact ⟨rfl, rfl⟩

theorem set_name_ids (core : fskit_core) (p : Nat) (n : String) (x : Nat) :
    ((set_name core p n).ents x).file_id = (core.ents x).file_id ∧
    ((set_name core p n).ents x).type = (core.ents x).type := by
  by_cases h : x = p
  · subst h
    unfold set_name
    dsimp only
    rw [Function.update_same]
    exact ⟨rfl, rfl⟩
  · rw [set_name_other core p n x h]
    exact ⟨rfl, rfl⟩

theorem move_ids (core : fskit_core) (src dst fent_old : Nat) (fent_new : Option Nat)
    (bn : String) (x : Nat) :
    ((fskit_rename_move core src dst fent_old fent_new bn).ents x).file_id
      = (core.ents x).file_id ∧
    ((fskit_rename_move core src dst fent_old fent_new bn).ents x).type = (core.ents x).type := by
  unfold fskit_rename_move
  cases fent_new with
  | none =>
    dsimp only
    rw [(set_children_ids _ _ _ _).1, (set_children_ids _ _ _ _).2, (set_name_ids _ _ _ _).1,
      (set_name_ids _ _ _ _).2, (set_children_ids _ _ _ _).1, (set_children_ids _ _ _ _).2]
    exact ⟨rfl, rfl⟩
  | some n =>
    dsimp only
    rw [(set_children_ids _ _ _ _).1, (set_children_ids _ _ _ _).2, (set_children_ids _ _ _ _).1,
      (set_children_ids _ _ _ _).2, (set_name_ids _ _ _ _).1, (set_name_ids _ _ _ _).2,
      (set_children_ids _ _ _ _).1, (set_children_ids _ _ _ _).2]
    exact ⟨rfl, rfl⟩

theorem move_other (core : fskit_core) (src dst fent_old : Nat) (fent_new : Option Nat)
    (bn : String) (x : Nat) (h1 : x ≠ src) (h2 : x ≠ dst) (h3 : x ≠ fent_old) :
    (fskit_rename_move core src dst fent_old fent_new bn).ents x = core.ents x := by
  unfold fskit_rename_move
  cases fent_new with
  | none =>
    dsimp only
    rw [set_children_other _ _ _ _ h2, set_name_other _ _ _ _ h3, set_children_other _ _ _ _ h1]
  | some n =>
    dsimp only
    rw [set_children_other _ _ _ _ h2, set_children_other _ _ _ _ h2, set_name_other _ _ _ _ h3,
      set_children_other _ _ _ _ h1]

theorem detach_ids (rc : Int) (core : fskit_core) (parent child x : Nat) :
    ((fskit_entry_detach_lowlevel rc core parent child).2.ents x).file_id
      = (core.ents x).file_id ∧
    ((fskit_entry_detach_lowlevel rc core parent child).2.ents x).type = (core.ents x).type := by
  unfold fskit_entry_detach_lowlevel
  split_ifs
  · exact ⟨rfl, rfl⟩
  · dsimp only
    by_cases hx : x = child
    · subst hx
      rw [Function.update_same]
      exact set_children_ids _ _ _ _
    · rw [Function.update_noteq hx]
      exact set_children_ids _ _ _ _

theorem detach_other (rc : Int) (core : fskit_core) (parent child x : Nat)
    (h1 : x ≠ parent) (h2 : x ≠ child) :
    (fskit_entry_detach_lowlevel rc core parent child).2.ents x = core.ents x := by
  unfold fskit_entry_detach_lowlevel
  split_ifs
  · rfl
  · dsimp only
    rw [Function.update_noteq h2]
    exact set_children_other _ _ _ _ h1

theorem detach_children_other (rc : Int) (core : fskit_core) (parent child x : Nat)
    (h1 : x ≠ parent) :
    ((fskit_entry_detach_lowlevel rc core parent child).2.ents x).children
      = (core.ents x).children := by
  by_cases hrc : rc = 0
  · subst hrc
    rw [detach_children, if_neg h1]
  · rw [detach_failed rc hrc]

theorem move_children_other (core : fskit_core) (src dst fent_old : Nat)
    (fent_new : Option Nat) (bn : String) (x : Nat) (h1 : x ≠ src) (h2 : x ≠ dst) :
    ((fskit_rename_move core src dst fent_old fent_new bn).ents x).children
      = (core.ents x).children := by
  rw [move_children, if_neg h2]
  unfold move_src
  rw [if_neg h1]

/-! ## The lock history of a call -/

theorem wlocks_append (l1 l2 : List lock_event) :
    wlocks (l1 ++ l2) = wlocks l1 ++ wlocks l2 := by
  induction l1 with
  | nil => rfl
  | cons e rest ih =>
    cases e <;> simp [wlocks, ih]

theorem wlocks_rlock (core : fskit_core) (p : Nat) :
    wlocks (fskit_entry_rlock core p).lock_log = wlocks core.lock_log := by
  unfold fskit_entry_rlock
  simp [wlocks_append, wlocks]

theorem wlocks_unlock (core : fskit_core) (p : Nat) :
    wlocks (fskit_entry_unlock core p).lock_log = wlocks core.lock_log := by
  unfold fskit_entry_unlock
  simp [wlocks_append, wlocks]

theorem wlocks_wlock (core : fskit_core) (p : Nat) :
    wlocks (fskit_entry_wlock core p).lock_log = wlocks core.lock_log ++ [p] := by
  unfold fskit_entry_wlock
  simp [wlocks_append, wlocks]

/-- A resolution for writing adds to the write locks of the history exactly the lock on
its result, and none when it fails. -/
theorem resolve_walk_wlocks {σ : Type} (user group : Nat)
    (ent_eval : Option (fskit_entry → σ → Int × σ)) (names : List String) :
    ∀ (core : fskit_core) (cur : Nat) (cls : σ),
      wlocks (resolve_walk user group true ent_eval core cur names cls).2.2.1.lock_log
        = wlocks core.lock_log
          ++ olist (resolve_walk user group true ent_eval core cur names cls).1 := by
  induction names with
  | nil =>
    intro core cur cls
    simp [resolve_walk, olist, wlocks_wlock]
  | cons name rest ih =>
    intro core cur cls
    have hfail : wlocks (fskit_entry_unlock (fskit_entry_rlock core cur) cur).lock_log
        = wlocks core.lock_log ++ olist none := by
      rw [wlocks_unlock, wlocks_rlock]
      simp [olist]
    simp only [resolve_walk]
    split_ifs with h1 h2 h3
    · exact hfail
    · exact hfail
    · exact hfail
    · split
      · exact hfail
      · rename_i child _
        rw [ih, wlocks_unlock, wlocks_rlock]

theorem resolve_path_wlocks (core : fskit_core) (path : List String) (user group : Nat) :
    wlocks (fskit_entry_resolve_path core path user group true).2.2.lock_log
      = wlocks core.lock_log ++ olist (fskit_entry_resolve_path core path user group true).1 :=
  resolve_walk_wlocks user group none path core core.root ()

theorem resolve_path_cls_wlocks {σ : Type} (core : fskit_core) (path : List String)
    (user group : Nat) (ent_eval : fskit_entry → σ → Int × σ) (cls : σ) :
    wlocks (fskit_entry_resolve_path_cls core path user group true ent_eval cls).2.2.1.lock_log
      = wlocks core.lock_log
        ++ olist (fskit_entry_resolve_path_cls core path user group true ent_eval cls).1 :=
  resolve_walk_wlocks user group (some ent_eval) path core core.root cls

/-- The write locks that rename.cpp 129-157 takes, in their order: the old parent first
when the old path is deeper, the new parent first in every other case with two parents. -/
theorem resolve_parents_wlocks (env : fskit_env) (core : fskit_core)
    (old_path new_path : List String) (user group : Nat) :
    wlocks (fskit_rename_resolve_parents env core old_path new_path user group).core.lock_log
      = wlocks core.lock_log ++
        (if fskit_depth old_path > fskit_depth new_path then
          olist (fskit_rename_resolve_parents env core old_path new_path user group).fent_old_parent
          ++ olist
            (fskit_rename_resolve_parents env core old_path new_path user group).fent_new_parent
        else
          olist (fskit_rename_resolve_parents env core old_path new_path user group).fent_new_parent
          ++ olist
            (fskit_rename_resolve_parents env core old_path new_path user group).fent_old_parent
          ++ olist
            (fskit_rename_resolve_parents env core old_path new_path user group).fent_common_parent)
        := by
  unfold fskit_rename_resolve_parents
  simp only
  split_ifs with h1 h2 h3
  · split
    · rename_i p hp
      simp only
      rw [resolve_path_cls_wlocks, resolve_path_wlocks, hp]
      simp [olist]
    · rename_i hp
      simp only
      rw [resolve_path_wlocks, hp]
      simp [olist]
  · simp only
    rw [resolve_path_wlocks, resolve_path_cls_wlocks]
    simp [olist]
  · simp only
    rw [resolve_path_wlocks]
    simp [olist]
  · simp only
    rw [resolve_path_wlocks, resolve_path_cls_wlocks]
    simp [olist]

theorem log_ext_refl (a : fskit_core) : log_ext a a := ⟨[], by simp⟩

theorem log_ext_unlock (a b : fskit_core) (p : Nat) (h : log_ext a b) :
    log_ext a (fskit_entry_unlock b p) := by
  obtain ⟨rest, hr⟩ := h
  exact ⟨rest ++ [lock_event.unlock p], by simp [fskit_entry_unlock, hr]⟩

theorem log_ext_wlock (a b : fskit_core) (p : Nat) (h : log_ext a b) :
    log_ext a (fskit_entry_wlock b p) := by
  obtain ⟨rest, hr⟩ := h
  exact ⟨rest ++ [lock_event.wlock p], by simp [fskit_entry_wlock, hr]⟩

theorem log_ext_rename_unlock (a b : fskit_core) (c o n : Option Nat) (h : log_ext a b) :
    log_ext a (fskit_entry_rename_unlock b c o n) := by
  unfold fskit_entry_rename_unlock
  cases c <;> cases o <;> cases n <;>
    first
      | exact h
      | exact log_ext_unlock _ _ _ h
      | exact log_ext_unlock _ _ _ (log_ext_unlock _ _ _ h)
      | exact log_ext_unlock _ _ _ (log_ext_unlock _ _ _ (log_ext_unlock _ _ _ h))

theorem move_log (core : fskit_core) (src dst fent_old : Nat)
    (fent_new : Option Nat) (bn : String) :
    (fskit_rename_move core src dst fent_old fent_new bn).lock_log = core.lock_log := by
  unfold fskit_rename_move set_children set_name
  cases fent_new <;> rfl

theorem detach_log (rc : Int) (core : fskit_core) (parent child : Nat) :
    (fskit_entry_detach_lowlevel rc core parent child).2.lock_log = core.lock_log := by
  unfold fskit_entry_detach_lowlevel set_children
  split_ifs <;> rfl

theorem log_ext_move (a b : fskit_core) (src dst fent_old : Nat) (fent_new : Option Nat)
    (bn : String) (h : log_ext a b) :
    log_ext a (fskit_rename_move b src dst fent_old fent_new bn) := by
  obtain ⟨rest, hr⟩ := h
  exact ⟨rest, by rw [move_log, hr]⟩

theorem log_ext_detach (a b : fskit_core) (rc : Int) (parent child : Nat) (h : log_ext a b) :
    log_ext a (fskit_entry_detach_lowlevel rc b parent child).2 := by
  obtain ⟨rest, hr⟩ := h
  exact ⟨rest, by rw [detach_log, hr]⟩

theorem log_ext_free (a b : fskit_core) (p : Nat) (h : log_ext a b) :
    log_ext a (free_name b p) := by
  obtain ⟨rest, hr⟩ := h
  exact ⟨rest, hr⟩

/-- Everything after the permission check only adds to the lock history. -/
theorem children_log_ext (env : fskit_env) (r : rename_parents)
    (old_path new_path : List String) :
    log_ext r.core (fskit_rename_children env r old_path new_path).2 := by
  unfold fskit_rename_children
  cases fskit_rename_fent_old r old_path with
  | none => exact log_ext_rename_unlock _ _ _ _ _ (log_ext_refl _)
  | some fent_old =>
    dsimp only
    split_ifs with h1 h2
    · exact log_ext_rename_unlock _ _ _ _ _ (log_ext_refl _)
    · apply log_ext_rename_unlock
      cases fskit_rename_fent_new r new_path with
      | none => exact log_ext_wlock _ _ _ (log_ext_refl _)
      | some n => exact log_ext_wlock _ _ _ (log_ext_wlock _ _ _ (log_ext_refl _))
    · cases r.src_parent with
      | none =>
        cases fskit_rename_fent_new r new_path with
        | none => exact log_ext_wlock _ _ _ (log_ext_refl _)
        | some n => exact log_ext_wlock _ _ _ (log_ext_wlock _ _ _ (log_ext_refl _))
      | some src =>
        cases r.dest_parent with
        | none =>
          cases fskit_rename_fent_new r new_path with
          | none => exact log_ext_wlock _ _ _ (log_ext_refl _)
          | some n => exact log_ext_wlock _ _ _ (log_ext_wlock _ _ _ (log_ext_refl _))
        | some dst =>
          dsimp only
          cases fskit_rename_fent_new r new_path with
          | none =>
            dsimp only
            split_ifs <;> dsimp only <;>
              repeat first
                | with_reducible exact log_ext_refl _
                | with_reducible apply log_ext_free
                | with_reducible apply log_ext_unlock
                | with_reducible apply log_ext_wlock
                | with_reducible apply log_ext_rename_unlock
                | with_reducible apply log_ext_move
                | with_reducible apply log_ext_detach
          | some n =>
            dsimp only
            split_ifs <;> dsimp only <;>
              repeat first
                | with_reducible exact log_ext_refl _
                | with_reducible apply log_ext_free
                | with_reducible apply log_ext_unlock
                | with_reducible apply log_ext_wlock
                | with_reducible apply log_ext_rename_unlock
                | with_reducible apply log_ext_move
                | with_reducible apply log_ext_detach

/-- Past the allocation of the dirname copies, the history after the call continues the
history after the resolution of the parents. -/
theorem rename_log_ext (env : fskit_env) (core : fskit_core)
    (old_path new_path : List String) (user group : Nat)
    (hoom : env.dirname_old_oom = false ∧ env.dirname_new_oom = false) :
    log_ext (fskit_rename_resolve_parents env core old_path new_path user group).core
      (fskit_rename env core old_path new_path user group).2 := by
  unfold fskit_rename
  simp only [hoom.1, hoom.2, Bool.or_self, Bool.false_eq_true, if_false]
  split_ifs
  · exact log_ext_rename_unlock _ _ _ _ _ (log_ext_refl _)
  · exact log_ext_rename_unlock _ _ _ _ _ (log_ext_refl _)
  · exact log_ext_rename_unlock _ _ _ _ _ (log_ext_refl _)
  · exact children_log_ext env _ old_path new_path

/-- The write locks of a whole call begin with those on the parents, in the order in which
rename.cpp 129-157 takes them. -/
theorem rename_wlocks (env : fskit_env) (core : fskit_core)
    (old_path new_path : List String) (user group : Nat)
    (hoom : env.dirname_old_oom = false ∧ env.dirname_new_oom = false) :
    ∃ rest, wlocks (fskit_rename env core old_path new_path user group).2.lock_log
      = wlocks core.lock_log ++
        (if fskit_depth old_path > fskit_depth new_path then
          olist (fskit_rename_resolve_parents env core old_path new_path user group).fent_old_parent
          ++ olist
            (fskit_rename_resolve_parents env core old_path new_path user group).fent_new_parent
        else
          olist (fskit_rename_resolve_parents env core old_path new_path user group).fent_new_parent
          ++ olist
            (fskit_rename_resolve_parents env core old_path new_path user group).fent_old_parent
          ++ olist
            (fskit_rename_resolve_parents env core old_path new_path user group).fent_common_parent)
        ++ rest := by
  obtain ⟨rest, hrest⟩ := rename_log_ext env core old_path new_path user group hoom
  refine ⟨wlocks rest, ?_⟩
  rw [hrest, wlocks_append, resolve_parents_wlocks]

/-! ## Trees -/

theorem reachable_congr (a b : fskit_core) (he : a.ents = b.ents) (hr : a.root = b.root)
    (x : Nat) (h : reachable a x) : reachable b x := by
  induction h with
  | root => rw [hr]; exact reachable.root
  | child d k c _ hm ih => exact reachable.child d k c ih (he ▸ hm)

theorem descends_trans (core : fskit_core) (a b c : Nat) (h1 : descends core a b)
    (h2 : descends core b c) : descends core a c := by
  induction h2 with
  | child k c hm => exact descends.more _ k c h1 hm
  | more b1 k c _ hm ih => exact descends.more b1 k c ih hm

theorem reachable_descends (core : fskit_core) (a b : Nat) (ha : reachable core a)
    (h : descends core a b) : reachable core b := by
  induction h with
  | child k c hm => exact reachable.child _ k c ha hm
  | more b1 k c _ hm ih => exact reachable.child b1 k c ih hm

/-- The last step of a descent. -/
theorem descends_last (core : fskit_core) (a b : Nat) (h : descends core a b) :
    ∃ d k, (d = a ∨ descends core a d) ∧ (k, b) ∈ (core.ents d).children := by
  cases h with
  | child k _ hm => exact ⟨a, k, Or.inl rfl, hm⟩
  | more b1 k _ h1 hm => exact ⟨b1, k, Or.inr h1, hm⟩

/-- Below a root without parent, one parent per entry leaves no room for a cycle. -/
theorem one_parent_no_cycle (core : fskit_core) (h1 : one_parent_below_root core)
    (h2 : root_has_no_parent core) : no_cycle_below_root core := by
  intro x hx
  induction hx with
  | root =>
    intro hd
    obtain ⟨d, k, hda, hm⟩ := descends_last core _ _ hd
    have hr : reachable core d := by
      rcases hda with h | h
      · rw [h]; exact reachable.root
      · exact reachable_descends core _ _ reachable.root h
    exact h2 d k hr hm
  | child d k c hd hm ih =>
    intro hcyc
    have hc : reachable core c := reachable.child d k c hd hm
    obtain ⟨d1, k1, hda, hm1⟩ := descends_last core _ _ hcyc
    have hr1 : reachable core d1 := by
      rcases hda with h | h
      · rw [h]; exact hc
      · exact reachable_descends core _ _ hc h
    obtain ⟨hdd, _⟩ := h1 d1 k1 d k c hr1 hd hm1 hm
    rw [hdd] at hda
    apply ih
    rcases hda with h | h
    · have hm2 := hm
      rw [← h] at hm2
      exact descends.child k d hm2
    · exact descends_trans core d c d (descends.child k c hm) h

/-- What the resolver returns is reachable from where it starts. -/
theorem resolve_walk_reachable {σ : Type} (user group : Nat) (writelock : Bool)
    (ent_eval : Option (fskit_entry → σ → Int × σ)) (base : fskit_core) (names : List String) :
    ∀ (core : fskit_core) (cur : Nat) (cls : σ) (p : Nat),
      core.ents = base.ents → reachable base cur →
      (resolve_walk user group writelock ent_eval core cur names cls).1 = some p →
      reachable base p := by
  induction names with
  | nil =>
    intro core cur cls p _ hc hp
    simp only [resolve_walk, Option.some.injEq] at hp
    rw [← hp]; exact hc
  | cons name rest ih =>
    intro core cur cls p he hc hp
    simp only [resolve_walk] at hp
    split_ifs at hp with h1 h2 h3
    split at hp
    · cases hp
    · rename_i child hfind
      apply ih _ child _ p _ _ hp
      · exact he
      · apply reachable.child cur name child hc
        have := find_some_mem _ _ _ hfind
        rw [rlock_ents, he] at this
        exact this

theorem resolve_path_reachable (base core : fskit_core) (he : core.ents = base.ents)
    (hr : core.root = base.root) (path : List String) (user group : Nat) (writelock : Bool)
    (p : Nat) (h : (fskit_entry_resolve_path core path user group writelock).1 = some p) :
    reachable base p :=
  resolve_walk_reachable user group writelock none base path core core.root () p he
    (hr ▸ reachable.root) h

theorem resolve_path_cls_reachable {σ : Type} (base core : fskit_core)
    (he : core.ents = base.ents) (hr : core.root = base.root) (path : List String)
    (user group : Nat) (writelock : Bool) (ent_eval : fskit_entry → σ → Int × σ) (cls : σ)
    (p : Nat)
    (h : (fskit_entry_resolve_path_cls core path user group writelock ent_eval cls).1 = some p) :
    reachable base p :=
  resolve_walk_reachable user group writelock (some ent_eval) base path core core.root cls p he
    (hr ▸ reachable.root) h

/-- The parents that `fskit_rename` resolves are reachable from the root. -/
theorem resolve_parents_reachable (env : fskit_env) (core : fskit_core)
    (old_path new_path : List String) (user group : Nat) (p : Nat)
    (h : (fskit_rename_resolve_parents env core old_path new_path user group).fent_old_parent
        = some p ∨
      (fskit_rename_resolve_parents env core old_path new_path user group).fent_new_parent
        = some p ∨
      (fskit_rename_resolve_parents env core old_path new_path user group).fent_common_parent
        = some p) :
    reachable core p := by
  unfold fskit_rename_resolve_parents at h
  simp only at h
  split_ifs at h with h1 h2 h3
  · obtain ⟨he1, hr1, _, _⟩ := resolve_path_ok core (fskit_dirname old_path) user group true
    split at h
    · rename_i q hq
      simp only at h
      rcases h with h | h | h
      · cases h
        exact resolve_path_reachable core core rfl rfl _ _ _ _ _ hq
      · exact resolve_path_cls_reachable core _ he1 hr1 _ _ _ _ _ _ _ h
      · cases h
    · simp only at h
      rcases h with h | h | h <;> cases h
  · obtain ⟨he1, hr1, _, _⟩ := resolve_path_cls_ok core (fskit_dirname new_path) user group true
      (fskit_entry_verify_no_loop env.set_insert_oom) []
    simp only at h
    rcases h with h | h | h
    · exact resolve_path_reachable core _ he1 hr1 _ _ _ _ _ h
    · exact resolve_path_cls_reachable core core rfl rfl _ _ _ _ _ _ _ h
    · cases h
  · simp only at h
    rcases h with h | h | h
    · cases h
    · cases h
    · exact resolve_path_reachable core core rfl rfl _ _ _ _ _ h
  · obtain ⟨he1, hr1, _, _⟩ := resolve_path_cls_ok core (fskit_dirname new_path) user group true
      (fskit_entry_verify_no_loop env.set_insert_oom) []
    simp only at h
    rcases h with h | h | h
    · exact resolve_path_reachable core _ he1 hr1 _ _ _ _ _ h
    · exact resolve_path_cls_reachable core core rfl rfl _ _ _ _ _ _ _ h
    · cases h

theorem src_parent_reachable (env : fskit_env) (core : fskit_core)
    (old_path new_path : List String) (user group : Nat) (src : Nat)
    (h : (fskit_rename_resolve_parents env core old_path new_path user group).src_parent
      = some src) : reachable core src := by
  apply resolve_parents_reachable env core old_path new_path user group
  unfold rename_parents.src_parent at h
  split at h
  · rename_i c hc
    right; right
    rw [hc, ← h]
  · exact Or.inl h

theorem tree_two_files_tree : tree_inv tree_two_files := by
  have hone : one_parent_below_root tree_two_files :=
    fun d1 k1 d2 k2 c _ _ m1 m2 => tree_two_files_single_parent d1 k1 d2 k2 c m1 m2
  refine ⟨hone, one_parent_no_cycle _ hone ?_⟩
  intro d k _ hm
  rcases (tree_two_files_children d k _ hm).2 with ⟨_, h⟩ | ⟨_, h⟩ <;>
    exact absurd h (by decide)

/-! ## The adapter -/

/-- With its callback enabled, each of these operations of the adapter returns the status
of its core call as it is. -/
theorem fuse_passes_status (h : fskit_fuse_h) (state : fskit_fuse_state) (rc : Int) :
    (state.callbacks &&& h.FSKIT_FUSE_GETATTR ≠ 0 → fskit_fuse_getattr h state rc = rc) ∧
    (state.callbacks &&& h.FSKIT_FUSE_MKNOD ≠ 0 → fskit_fuse_mknod h state rc = rc) ∧
    (state.callbacks &&& h.FSKIT_FUSE_MKDIR ≠ 0 → fskit_fuse_mkdir h state rc = rc) ∧
    (state.callbacks &&& h.FSKIT_FUSE_UNLINK ≠ 0 → fskit_fuse_unlink h state rc = rc) ∧
    (state.callbacks &&& h.FSKIT_FUSE_RMDIR ≠ 0 → fskit_fuse_rmdir h state rc = rc) ∧
    (state.callbacks &&& h.FSKIT_FUSE_SYMLINK ≠ 0 → fskit_fuse_symlink h state rc = rc) ∧
    (state.callbacks &&& h.FSKIT_FUSE_CHMOD ≠ 0 → fskit_fuse_chmod h state rc = rc) ∧
    (state.callbacks &&& h.FSKIT_FUSE_CHOWN ≠ 0 → fskit_fuse_chown h state rc = rc) ∧
    (state.callbacks &&& h.FSKIT_FUSE_TRUNCATE ≠ 0 → fskit_fuse_truncate h state rc = rc) ∧
    (state.callbacks &&& h.FSKIT_FUSE_UTIME ≠ 0 → fskit_fuse_utime h state rc = rc) ∧
    (state.callbacks &&& h.FSKIT_FUSE_ACCESS ≠ 0 → fskit_fuse_access h state rc = rc) := by
  refine ⟨?_, ?_, ?_, ?_, ?_, ?_, ?_, ?_, ?_, ?_, ?_⟩ <;>
    · intro hbit
      simp only [fskit_fuse_getattr, fskit_fuse_mknod, fskit_fuse_mkdir, fskit_fuse_unlink, fskit_fuse_rmdir, fskit_fuse_symlink, fskit_fuse_chmod, fskit_fuse_chown, fskit_fuse_truncate, fskit_fuse_utime, fskit_fuse_access, if_neg hbit]

/-- With its callback enabled, `fskit_fuse_rename` returns the status of `fskit_rename`,
called for the caller that `fskit_fuse_get_uid` and `fskit_fuse_get_gid` give. -/
theorem fuse_rename_passes_status (h : fskit_fuse_h) (env : fskit_env) (getpid : Nat)
    (ctx : fuse_context) (state : fskit_fuse_state) (path newpath : List String)
    (hbit : state.callbacks &&& h.FSKIT_FUSE_RENAME ≠ 0) :
    (fskit_fuse_rename h env getpid ctx state path newpath).1
      = (fskit_rename env state.core path newpath (fskit_fuse_get_uid h getpid ctx state)
          (fskit_fuse_get_gid h getpid ctx state)).1 := by
  unfold fskit_fuse_rename
  rw [if_neg hbit]

/-- With its callback enabled, `fskit_fuse_link` returns 0 whatever `fskit_link`
returned. -/
theorem fuse_link_returns_zero (h : fskit_fuse_h) (state : fskit_fuse_state) (rc : Int)
    (hbit : state.callbacks &&& h.FSKIT_FUSE_LINK ≠ 0) : fskit_fuse_link h state rc = 0 := by
  unfold fskit_fuse_link
  rw [if_neg hbit]

/-- When a dirname copy cannot be allocated, `fskit_rename` returns `-ENOMEM` and leaves
the core as it was (rename.cpp 118-123). -/
theorem rename_dirname_oom (env : fskit_env) (core : fskit_core)
    (old_path new_path : List String) (user group : Nat)
    (h : env.dirname_old_oom = true ∨ env.dirname_new_oom = true) :
    (fskit_rename env core old_path new_path user group).1 = -ENOMEM ∧
    (fskit_rename env core old_path new_path user group).2.ents = core.ents ∧
    (fskit_rename env core old_path new_path user group).2.locks = core.locks := by
  unfold fskit_rename
  rw [if_pos (by rcases h with h | h <;> simp [h])]
  exact ⟨rfl, rfl, rfl⟩

/-! ## The callback mask: bits -/

theorem testBit_uint64_max (i : Nat) : UINT64_MAX.testBit i = decide (i < 64) := by
  have e : UINT64_MAX = 2 ^ 64 - 1 := by decide
  rw [e, Nat.testBit_two_pow_sub_one]

theorem testBit_of_lt_uint64 (c i : Nat) (hc : c < 2 ^ 64) (hi : 64 ≤ i) :
    c.testBit i = false :=
  Nat.testBit_lt_two_pow (lt_of_lt_of_le hc (Nat.pow_le_pow_right (by decide) hi))

/-- The bits of `c | id`. -/
theorem or_bits (c id i : Nat) :
    (id.testBit i = true → (c ||| id).testBit i = true) ∧
    (id.testBit i = false → (c ||| id).testBit i = c.testBit i) := by
  rw [Nat.testBit_or]
  constructor
  · intro hb
    rw [hb, Bool.or_true]
  · intro hb
    rw [hb, Bool.or_false]

/-- The bits of `c & ~id`, the complement taken in 64 bits, for a `c` of 64 bits. -/
theorem and_not_bits (c id i : Nat) (hc : c < 2 ^ 64) :
    (id.testBit i = true → (c &&& (UINT64_MAX ^^^ id)).testBit i = false) ∧
    (id.testBit i = false → (c &&& (UINT64_MAX ^^^ id)).testBit i = c.testBit i) := by
  rw [Nat.testBit_and, Nat.testBit_xor, testBit_uint64_max]
  by_cases hi : i < 64
  · constructor
    · intro hb
      rw [hb]
      simp [hi]
    · intro hb
      rw [hb]
      simp [hi]
  · rw [testBit_of_lt_uint64 c i hc (Nat.le_of_not_lt hi)]
    constructor
    · intro _
      rfl
    · intro _
      rfl

theorem or_and_self (c id : Nat) : (c ||| id) &&& id = id := by
  apply Nat.eq_of_testBit_eq
  intro i
  rw [Nat.testBit_and, Nat.testBit_or]
  cases c.testBit i <;> cases id.testBit i <;> rfl

theorem and_not_and_self (c id : Nat) (hc : c < 2 ^ 64) :
    (c &&& (UINT64_MAX ^^^ id)) &&& id = 0 := by
  apply Nat.eq_of_testBit_eq
  intro i
  rw [Nat.testBit_and, Nat.zero_testBit]
  cases hb : id.testBit i
  · rw [Bool.and_false]
  · rw [(and_not_bits c id i hc).1 hb]
    rfl

theorem uint64_max_and (id : Nat) (hid : id < 2 ^ 64) : UINT64_MAX &&& id = id := by
  apply Nat.eq_of_testBit_eq
  intro i
  rw [Nat.testBit_and, testBit_uint64_max]
  by_cases hi : i < 64
  · simp [hi]
  · rw [testBit_of_lt_uint64 id i hid (Nat.le_of_not_lt hi), Bool.and_false]

/-! ## The callback guard of the adapter -/

/-- Every guarded operation of the adapter, with its callback bits clear in
`state.callbacks`: the status is `-ENOSYS` whatever the core would have returned, and no
call into the core is made. -/
theorem fuse_guard_clear (h : fskit_fuse_h) (state : fskit_fuse_state) :
    (state.callbacks &&& h.FSKIT_FUSE_GETATTR = 0 →
      (∀ (rc : Int), fskit_fuse_getattr h state rc = -ENOSYS) ∧
      (fskit_fuse_getattr_calls h state = [])) ∧
    (state.callbacks &&& h.FSKIT_FUSE_READLINK = 0 →
      (∀ (rc : Int), fskit_fuse_readlink h state rc = -ENOSYS) ∧
      (fskit_fuse_readlink_calls h state = [])) ∧
    (state.callbacks &&& h.FSKIT_FUSE_MKNOD = 0 →
      (∀ (rc : Int), fskit_fuse_mknod h state rc = -ENOSYS) ∧
      (fskit_fuse_mknod_calls h state = [])) ∧
    (state.callbacks &&& h.FSKIT_FUSE_MKDIR = 0 →
      (∀ (rc : Int), fskit_fuse_mkdir h state rc = -ENOSYS) ∧
      (fskit_fuse_mkdir_calls h state = [])) ∧
    (state.callbacks &&& h.FSKIT_FUSE_UNLINK = 0 →
      (∀ (rc : Int), fskit_fuse_unlink h state rc = -ENOSYS) ∧
      (fskit_fuse_unlink_calls h state = [])) ∧
    (state.callbacks &&& h.FSKIT_FUSE_RMDIR = 0 →
      (∀ (rc : Int), fskit_fuse_rmdir h state rc = -ENOSYS) ∧
      (fskit_fuse_rmdir_calls h state = [])) ∧
    (state.callbacks &&& h.FSKIT_FUSE_SYMLINK = 0 →
      (∀ (rc : Int), fskit_fuse_symlink h state rc = -ENOSYS) ∧
      (fskit_fuse_symlink_calls h state = [])) ∧
    (state.callbacks &&& h.FSKIT_FUSE_RENAME = 0 →
      (∀ (env : fskit_env) (getpid : Nat) (ctx : fuse_context) (path newpath : List String),
        fskit_fuse_rename h env getpid ctx state path newpath = (-ENOSYS, state)) ∧
      fskit_fuse_rename_calls h state = []) ∧
    (state.callbacks &&& h.FSKIT_FUSE_LINK = 0 →
      (∀ (rc : Int), fskit_fuse_link h state rc = -ENOSYS) ∧
      (fskit_fuse_link_calls h state = [])) ∧
    (state.callbacks &&& h.FSKIT_FUSE_CHMOD = 0 →
      (∀ (rc : Int), fskit_fuse_chmod h state rc = -ENOSYS) ∧
      (fskit_fuse_chmod_calls h state = [])) ∧
    (state.callbacks &&& h.FSKIT_FUSE_CHOWN = 0 →
      (∀ (rc : Int), fskit_fuse_chown h state rc = -ENOSYS) ∧
      (fskit_fuse_chown_calls h state = [])) ∧
    (state.callbacks &&& h.FSKIT_FUSE_TRUNCATE = 0 →
      (∀ (rc : Int), fskit_fuse_truncate h state rc = -ENOSYS) ∧
      (fskit_fuse_truncate_calls h state = [])) ∧
    (state.callbacks &&& h.FSKIT_FUSE_UTIME = 0 →
      (∀ (rc : Int), fskit_fuse_utime h state rc = -ENOSYS) ∧
      (fskit_fuse_utime_calls h state = [])) ∧
    (state.callbacks &&& h.FSKIT_FUSE_OPEN = 0 →
      (∀ (rc : Int) (ffi_null : Bool), fskit_fuse_open h state rc ffi_null = -ENOSYS) ∧
      (∀ (rc : Int) (ffi_null : Bool), fskit_fuse_open_calls h state rc ffi_null = [])) ∧
    (state.callbacks &&& h.FSKIT_FUSE_READ = 0 →
      (∀ (rc : Int), fskit_fuse_read h state rc = -ENOSYS) ∧
      (fskit_fuse_read_calls h state = [])) ∧
    (state.callbacks &&& h.FSKIT_FUSE_WRITE = 0 →
      (∀ (rc : Int), fskit_fuse_write h state rc = -ENOSYS) ∧
      (fskit_fuse_write_calls h state = [])) ∧
    (state.callbacks &&& h.FSKIT_FUSE_STATFS = 0 →
      (∀ (rc : Int), fskit_fuse_statfs h state rc = -ENOSYS) ∧
      (fskit_fuse_statfs_calls h state = [])) ∧
    (state.callbacks &&& h.FSKIT_FUSE_FLUSH = 0 →
      (∀ (ty : fskit_entry_type) (rc : Int), fskit_fuse_flush h state ty rc = -ENOSYS) ∧
      (∀ (ty : fskit_entry_type), fskit_fuse_flush_calls h state ty = [])) ∧
    (state.callbacks &&& h.FSKIT_FUSE_RELEASE = 0 →
      (∀ (rc : Int), fskit_fuse_release h state rc = -ENOSYS) ∧
      (fskit_fuse_release_calls h state = [])) ∧
    (state.callbacks &&& h.FSKIT_FUSE_FSYNC = 0 →
      (∀ (rc : Int), fskit_fuse_fsync h state rc = -ENOSYS) ∧
      (fskit_fuse_fsync_calls h state = [])) ∧
    (state.callbacks &&& h.FSKIT_FUSE_SETXATTR = 0 →
      (∀ (rc : Int), fskit_fuse_setxattr h state rc = -ENOSYS) ∧
      (fskit_fuse_setxattr_calls h state = [])) ∧
    (state.callbacks &&& h.FSKIT_FUSE_GETXATTR = 0 →
      (∀ (rc : Int), fskit_fuse_getxattr h state rc = -ENOSYS) ∧
      (fskit_fuse_getxattr_calls h state = [])) ∧
    (state.callbacks &&& h.FSKIT_FUSE_LISTXATTR = 0 →
      (∀ (rc : Int), fskit_fuse_listxattr h state rc = -ENOSYS) ∧
      (fskit_fuse_listxattr_calls h state = [])) ∧
    (state.callbacks &&& h.FSKIT_FUSE_REMOVEXATTR = 0 →
      (∀ (rc : Int), fskit_fuse_removexattr h state rc = -ENOSYS) ∧
      (fskit_fuse_removexattr_calls h state = [])) ∧
    (state.callbacks &&& h.FSKIT_FUSE_OPENDIR = 0 →
      (∀ (rc : Int) (ffi_null : Bool), fskit_fuse_opendir h state rc ffi_null = -ENOSYS) ∧
      (∀ (rc : Int) (ffi_null : Bool), fskit_fuse_opendir_calls h state rc ffi_null = [])) ∧
    (state.callbacks &&& h.FSKIT_FUSE_READDIR = 0 →
      (∀ (dirents_null : Bool) (n : Nat) (rc : Int) (filler : Nat → Int), fskit_fuse_readdir h state dirents_null n rc filler = -ENOSYS) ∧
      (fskit_fuse_readdir_calls h state = [])) ∧
    (state.callbacks &&& h.FSKIT_FUSE_RELEASEDIR = 0 →
      (∀ (rc : Int), fskit_fuse_releasedir h state rc = -ENOSYS) ∧
      (fskit_fuse_releasedir_calls h state = [])) ∧
    (state.callbacks &&& h.FSKIT_FUSE_FSYNCDIR = 0 →
      (fskit_fuse_fsyncdir h state = -ENOSYS) ∧
      (fskit_fuse_fsyncdir_calls h state = [])) ∧
    (state.callbacks &&& h.FSKIT_FUSE_ACCESS = 0 →
      (∀ (rc : Int), fskit_fuse_access h state rc = -ENOSYS) ∧
      (fskit_fuse_access_calls h state = [])) ∧
    (state.callbacks &&& h.FSKIT_FUSE_CREATE = 0 →
      (∀ (rc : Int) (ffi_null : Bool), fskit_fuse_create h state rc ffi_null = -ENOSYS) ∧
      (∀ (rc : Int) (ffi_null : Bool), fskit_fuse_create_calls h state rc ffi_null = [])) ∧
    (state.callbacks &&& h.FSKIT_FUSE_FTRUNCATE = 0 →
      (∀ (rc : Int), fskit_fuse_ftruncate h state rc = -ENOSYS) ∧
      (fskit_fuse_ftruncate_calls h state = [])) ∧
    (state.callbacks &&& h.FSKIT_FUSE_FGETATTR = 0 →
      (∀ (rc : Int), fskit_fuse_fgetattr h state rc = -ENOSYS) ∧
      (fskit_fuse_fgetattr_calls h state = [])) :=
  ⟨fun hb => ⟨fun _ => by unfold fskit_fuse_getattr; rw [if_pos hb],
      by unfold fskit_fuse_getattr_calls; rw [if_pos hb]⟩,
    fun hb => ⟨fun _ => by unfold fskit_fuse_readlink; rw [if_pos hb],
      by unfold fskit_fuse_readlink_calls; rw [if_pos hb]⟩,
    fun hb => ⟨fun _ => by unfold fskit_fuse_mknod; rw [if_pos hb],
      by unfold fskit_fuse_mknod_calls; rw [if_pos hb]⟩,
    fun hb => ⟨fun _ => by unfold fskit_fuse_mkdir; rw [if_pos hb],
      by unfold fskit_fuse_mkdir_calls; rw [if_pos hb]⟩,
    fun hb => ⟨fun _ => by unfold fskit_fuse_unlink; rw [if_pos hb],
      by unfold fskit_fuse_unlink_calls; rw [if_pos hb]⟩,
    fun hb => ⟨fun _ => by unfold fskit_fuse_rmdir; rw [if_pos hb],
      by unfold fskit_fuse_rmdir_calls; rw [if_pos hb]⟩,
    fun hb => ⟨fun _ => by unfold fskit_fuse_symlink; rw [if_pos hb],
      by unfold fskit_fuse_symlink_calls; rw [if_pos hb]⟩,
    fun hb => ⟨fun _ _ _ _ _ => by unfold fskit_fuse_rename; rw [if_pos hb],
      by unfold fskit_fuse_rename_calls; rw [if_pos hb]⟩,
    fun hb => ⟨fun _ => by unfold fskit_fuse_link; rw [if_pos hb],
      by unfold fskit_fuse_link_calls; rw [if_pos hb]⟩,
    fun hb => ⟨fun _ => by unfold fskit_fuse_chmod; rw [if_pos hb],
      by unfold fskit_fuse_chmod_calls; rw [if_pos hb]⟩,
    fun hb => ⟨fun _ => by unfold fskit_fuse_chown; rw [if_pos hb],
      by unfold fskit_fuse_chown_calls; rw [if_pos hb]⟩,
    fun hb => ⟨fun _ => by unfold fskit_fuse_truncate; rw [if_pos hb],
      by unfold fskit_fuse_truncate_calls; rw [if_pos hb]⟩,
    fun hb => ⟨fun _ => by unfold fskit_fuse_utime; rw [if_pos hb],
      by unfold fskit_fuse_utime_calls; rw [if_pos hb]⟩,
    fun hb => ⟨fun _ _ => by unfold fskit_fuse_open; rw [if_pos hb],
      fun _ _ => by unfold fskit_fuse_open_calls; rw [if_pos hb]⟩,
    fun hb => ⟨fun _ => by unfold fskit_fuse_read; rw [if_pos hb],
      by unfold fskit_fuse_read_calls; rw [if_pos hb]⟩,
    fun hb => ⟨fun _ => by unfold fskit_fuse_write; rw [if_pos hb],
      by unfold fskit_fuse_write_calls; rw [if_pos hb]⟩,
    fun hb => ⟨fun _ => by unfold fskit_fuse_statfs; rw [if_pos hb],
      by unfold fskit_fuse_statfs_calls; rw [if_pos hb]⟩,
    fun hb => ⟨fun _ _ => by unfold fskit_fuse_flush; rw [if_pos hb],
      fun _ => by unfold fskit_fuse_flush_calls; rw [if_pos hb]⟩,
    fun hb => ⟨fun _ => by unfold fskit_fuse_release; rw [if_pos hb],
      by unfold fskit_fuse_release_calls; rw [if_pos hb]⟩,
    fun hb => ⟨fun _ => by unfold fskit_fuse_fsync; rw [if_pos hb],
      by unfold fskit_fuse_fsync_calls; rw [if_pos hb]⟩,
    fun hb => ⟨fun _ => by unfold fskit_fuse_setxattr; rw [if_pos hb],
      by unfold fskit_fuse_setxattr_calls; rw [if_pos hb]⟩,
    fun hb => ⟨fun _ => by unfold fskit_fuse_getxattr; rw [if_pos hb],
      by unfold fskit_fuse_getxattr_calls; rw [if_pos hb]⟩,
    fun hb => ⟨fun _ => by unfold fskit_fuse_listxattr; rw [if_pos hb],
      by unfold fskit_fuse_listxattr_calls; rw [if_pos hb]⟩,
    fun hb => ⟨fun _ => by unfold fskit_fuse_removexattr; rw [if_pos hb],
      by unfold fskit_fuse_removexattr_calls; rw [if_pos hb]⟩,
    fun hb => ⟨fun _ _ => by unfold fskit_fuse_opendir; rw [if_pos hb],
      fun _ _ => by unfold fskit_fuse_opendir_calls; rw [if_pos hb]⟩,
    fun hb => ⟨fun _ _ _ _ => by unfold fskit_fuse_readdir; rw [if_pos hb],
      by unfold fskit_fuse_readdir_calls; rw [if_pos hb]⟩,
    fun hb => ⟨fun _ => by unfold fskit_fuse_releasedir; rw [if_pos hb],
      by unfold fskit_fuse_releasedir_calls; rw [if_pos hb]⟩,
    fun hb => ⟨by unfold fskit_fuse_fsyncdir; rw [if_pos hb],
      rfl⟩,
    fun hb => ⟨fun _ => by unfold fskit_fuse_access; rw [if_pos hb],
      by unfold fskit_fuse_access_calls; rw [if_pos hb]⟩,
    fun hb => ⟨fun _ _ => by unfold fskit_fuse_create; rw [if_pos hb],
      fun _ _ => by unfold fskit_fuse_create_calls; rw [if_pos hb]⟩,
    fun hb => ⟨fun _ => by unfold fskit_fuse_ftruncate; rw [if_pos hb],
      by unfold fskit_fuse_ftruncate_calls; rw [if_pos hb]⟩,
    fun hb => ⟨fun _ => by unfold fskit_fuse_fgetattr; rw [if_pos hb],
      by unfold fskit_fuse_fgetattr_calls; rw [if_pos hb]⟩⟩

/-! ## The guard against loops -/

theorem zero_ne_einval : (0 : Int) ≠ -EINVAL := by decide

theorem enomem_ne_einval : -ENOMEM ≠ -EINVAL := by decide

theorem enotdir_ne_einval : -ENOTDIR ≠ -EINVAL := by decide

theorem eacces_ne_einval : -EACCES ≠ -EINVAL := by decide

theorem enoent_ne_einval : -ENOENT ≠ -EINVAL := by decide

/-- The three returns of `fskit_entry_verify_no_loop`. -/
theorem verify_no_loop_cases (oom : Nat → Bool) (fent : fskit_entry) (file_ids : List Nat) :
    (fent.file_id ∈ file_ids ∧
      fskit_entry_verify_no_loop oom fent file_ids = (-EINVAL, file_ids)) ∨
    (fent.file_id ∉ file_ids ∧ oom fent.file_id = true ∧
      fskit_entry_verify_no_loop oom fent file_ids = (-ENOMEM, file_ids)) ∨
    (fent.file_id ∉ file_ids ∧ oom fent.file_id = false ∧
      fskit_entry_verify_no_loop oom fent file_ids = (0, fent.file_id :: file_ids)) := by
  unfold fskit_entry_verify_no_loop
  by_cases h1 : fent.file_id ∈ file_ids
  · exact Or.inl ⟨h1, by rw [if_pos h1]⟩
  · cases h2 : oom fent.file_id
    · refine Or.inr (Or.inr ⟨h1, rfl, ?_⟩)
      rw [if_neg h1, if_neg (by decide)]
    · refine Or.inr (Or.inl ⟨h1, rfl, ?_⟩)
      rw [if_neg h1, if_pos rfl]

/-- The guard returns `-EINVAL` exactly on an id that is in the set. -/
theorem verify_no_loop_einval (oom : Nat → Bool) (fent : fskit_entry) (file_ids : List Nat) :
    (fskit_entry_verify_no_loop oom fent file_ids).1 = -EINVAL ↔ fent.file_id ∈ file_ids := by
  rcases verify_no_loop_cases oom fent file_ids with ⟨h, e⟩ | ⟨h, _, e⟩ | ⟨h, _, e⟩
  · rw [e]; exact ⟨fun _ => h, fun _ => rfl⟩
  · rw [e]; exact ⟨fun c => absurd c enomem_ne_einval, fun c => absurd c h⟩
  · rw [e]; exact ⟨fun c => absurd c zero_ne_einval, fun c => absurd c h⟩

/-- The guard over a list of entries with distinct ids, none of them in the set at the
start, and no failure of allocation. -/
theorem verify_no_loop_each_fresh (oom : Nat → Bool) (l : List fskit_entry) :
    ∀ (file_ids : List Nat), (∀ e ∈ l, e.file_id ∉ file_ids) →
      (∀ e ∈ l, oom e.file_id = false) →
      (l.map (fun e => e.file_id)).Nodup →
      (verify_no_loop_each oom l file_ids).1 = l.map (fun _ => 0) ∧
      ∀ x, x ∈ (verify_no_loop_each oom l file_ids).2 ↔
        x ∈ file_ids ∨ x ∈ l.map (fun e => e.file_id) := by
  induction l with
  | nil =>
    intro file_ids _ _ _
    refine ⟨rfl, fun x => ?_⟩
    simp [verify_no_loop_each]
  | cons fent rest ih =>
    intro file_ids hfresh hoom hnd
    rw [List.map_cons, List.nodup_cons] at hnd
    have hf : fent.file_id ∉ file_ids := hfresh fent (List.mem_cons_self _ _)
    have ho : oom fent.file_id = false := hoom fent (List.mem_cons_self _ _)
    have e : fskit_entry_verify_no_loop oom fent file_ids = (0, fent.file_id :: file_ids) := by
      rcases verify_no_loop_cases oom fent file_ids with ⟨h, _⟩ | ⟨_, h, _⟩ | ⟨_, _, e⟩
      · exact absurd h hf
      · rw [ho] at h; cases h
      · exact e
    have hrest := ih (fent.file_id :: file_ids)
      (fun e1 he1 hin => by
        rcases List.mem_cons.1 hin with h | h
        · exact hnd.1 (List.mem_map.2 ⟨e1, he1, h⟩)
        · exact hfresh e1 (List.mem_cons_of_mem _ he1) h)
      (fun e1 he1 => hoom e1 (List.mem_cons_of_mem _ he1)) hnd.2
    simp only [verify_no_loop_each, e]
    refine ⟨?_, fun x => ?_⟩
    · rw [hrest.1]; rfl
    · rw [hrest.2 x, List.map_cons, List.mem_cons, List.mem_cons]
      constructor
      · rintro ((h | h) | h)
        · exact Or.inr (Or.inl h)
        · exact Or.inl h
        · exact Or.inr (Or.inr h)
      · rintro (h | h | h)
        · exact Or.inl (Or.inr h)
        · exact Or.inl (Or.inl h)
        · exact Or.inr h

/-- Along a walk of the resolver in a tree with unique ids, the guard finds no id twice:
the set holds ids of entries above the current one only. -/
theorem resolve_walk_guard (user group : Nat) (writelock : Bool) (oom : Nat → Bool)
    (base : fskit_core) (hcyc : no_cycle_below_root base) (hu : unique_file_ids base)
    (names : List String) :
    ∀ (core : fskit_core) (cur : Nat) (cls : List Nat),
      core.ents = base.ents → reachable base cur →
      (∀ id ∈ cls, ∃ a, reachable base a ∧ descends base a cur ∧
        (base.ents a).file_id = id) →
      (resolve_walk user group writelock (some (fskit_entry_verify_no_loop oom)) core cur
        names cls).2.1 ≠ -EINVAL := by
  induction names with
  | nil =>
    intro core cur cls _ _ _
    exact zero_ne_einval
  | cons name rest ih =>
    intro core cur cls he hc hinv
    have hnot : (base.ents cur).file_id ∉ cls := by
      intro hin
      obtain ⟨a, ha, hd, hid⟩ := hinv _ hin
      have : a = cur := hu a cur ha hc hid
      rw [this] at hd
      exact hcyc cur hc hd
    simp only [resolve_walk, rlock_ents, he]
    split_ifs with h1 h2 h3
    · exact enotdir_ne_einval
    · exact eacces_ne_einval
    · rcases verify_no_loop_cases oom (base.ents cur) cls with ⟨h, _⟩ | ⟨_, _, e⟩ | ⟨_, _, e⟩
      · exact absurd h hnot
      · rw [e]; exact enomem_ne_einval
      · rw [e]; exact zero_ne_einval
    · have e : fskit_entry_verify_no_loop oom (base.ents cur) cls
          = (0, (base.ents cur).file_id :: cls) := by
        rcases verify_no_loop_cases oom (base.ents cur) cls with ⟨h, _⟩ | ⟨_, _, e⟩ | ⟨_, _, e⟩
        · exact absurd h hnot
        · rw [e] at h3; exact absurd (show (-ENOMEM : Int) ≠ 0 by decide) h3
        · exact e
      split
      · exact enoent_ne_einval
      · rename_i child hfind
        have hm : (name, child) ∈ (base.ents cur).children := find_some_mem _ _ _ hfind
        rw [e]
        apply ih _ child _ (by rw [unlock_ents, rlock_ents, he])
          (reachable.child cur name child hc hm)
        intro id hid
        rcases List.mem_cons.1 hid with h | h
        · exact ⟨cur, hc, descends.child name child hm, h.symm⟩
        · obtain ⟨a, ha, hd, hida⟩ := hinv id h
          exact ⟨a, ha, descends.more cur name child hd hm, hida⟩

/-- The resolver without a visitor has no return of `-EINVAL`. -/
theorem resolve_walk_plain (user group : Nat) (writelock : Bool) (names : List String) :
    ∀ (core : fskit_core) (cur : Nat),
      (resolve_walk user group writelock (none : Option (fskit_entry → Unit → Int × Unit))
        core cur names ()).2.1 ≠ -EINVAL := by
  induction names with
  | nil =>
    intro core cur
    exact zero_ne_einval
  | cons name rest ih =>
    intro core cur
    simp only [resolve_walk]
    split_ifs with h1 h2 h3
    · exact enotdir_ne_einval
    · exact eacces_ne_einval
    · exact absurd rfl h3
    · split
      · exact enoent_ne_einval
      · exact ih _ _

/-- In a tree with unique ids the resolution of the parent of `new_path` never ends with
the `-EINVAL` of the guard, and the resolution of the parent of `old_path`, which has no
guard, never ends with `-EINVAL` at all. -/
theorem resolve_parents_guard (env : fskit_env) (core : fskit_core)
    (old_path new_path : List String) (user group : Nat) :
    (no_cycle_below_root core → unique_file_ids core →
      (fskit_rename_resolve_parents env core old_path new_path user group).err_new
        ≠ -EINVAL) ∧
    (fskit_rename_resolve_parents env core old_path new_path user group).err_old
      ≠ -EINVAL := by
  have hnew : ∀ c : fskit_core, c.ents = core.ents → c.root = core.root →
      no_cycle_below_root core → unique_file_ids core →
      (fskit_entry_resolve_path_cls c (fskit_dirname new_path) user group true
        (fskit_entry_verify_no_loop env.set_insert_oom) []).2.1 ≠ -EINVAL := by
    intro c he hr hcyc hu
    unfold fskit_entry_resolve_path_cls
    apply resolve_walk_guard user group true env.set_insert_oom core hcyc hu _ c c.root [] he
    · rw [hr]; exact reachable.root
    · intro id hid
      cases hid
  have hold : ∀ c : fskit_core,
      (fskit_entry_resolve_path c (fskit_dirname old_path) user group true).2.1 ≠ -EINVAL :=
    fun c => resolve_walk_plain user group true _ c c.root
  unfold fskit_rename_resolve_parents
  simp only
  split_ifs with h1 h2 h3
  · obtain ⟨he1, hr1, _, _⟩ := resolve_path_ok core (fskit_dirname old_path) user group true
    split
    · exact ⟨fun hcyc hu => hnew _ he1 hr1 hcyc hu, hold core⟩
    · exact ⟨fun _ _ => zero_ne_einval, hold core⟩
  · exact ⟨fun hcyc hu => hnew core rfl rfl hcyc hu, hold _⟩
  · exact ⟨fun _ _ => zero_ne_einval, hold core⟩
  · exact ⟨fun hcyc hu => hnew core rfl rfl hcyc hu, hold _⟩

/-! ## The sample tree `/d/c` -/

theorem tree_nested_children (d : Nat) (k : String) (c : Nat)
    (h : (k, c) ∈ (tree_nested.ents d).children) :
    (d = 0 ∧ k = "d" ∧ c = 1) ∨ (d = 1 ∧ k = "c" ∧ c = 2) := by
  rcases d with _ | _ | _ | d
  · simp [tree_nested, mk_core, mk_dir] at h
    exact Or.inl ⟨rfl, h⟩
  · simp [tree_nested, mk_core, mk_dir] at h
    exact Or.inr ⟨rfl, h⟩
  · simp [tree_nested, mk_core, mk_dir] at h
  · simp [tree_nested, mk_core, mk_file] at h

theorem tree_nested_reachable (x : Nat) (h : reachable tree_nested x) :
    x = 0 ∨ x = 1 ∨ x = 2 := by
  induction h with
  | root => exact Or.inl rfl
  | child d k c _ hm _ =>
    rcases tree_nested_children d k c hm with ⟨_, _, e⟩ | ⟨_, _, e⟩
    · exact Or.inr (Or.inl e)
    · exact Or.inr (Or.inr e)

theorem tree_nested_tree : tree_inv tree_nested := by
  have hone : one_parent_below_root tree_nested := by
    intro d1 k1 d2 k2 c _ _ m1 m2
    rcases tree_nested_children d1 k1 c m1 with ⟨a1, b1, c1⟩ | ⟨a1, b1, c1⟩ <;>
      rcases tree_nested_children d2 k2 c m2 with ⟨a2, b2, c2⟩ | ⟨a2, b2, c2⟩ <;>
      first
        | exact ⟨a1.trans a2.symm, b1.trans b2.symm⟩
        | omega
  refine ⟨hone, one_parent_no_cycle _ hone ?_⟩
  intro d k _ hm
  rcases tree_nested_children d k _ hm with ⟨_, _, h⟩ | ⟨_, _, h⟩ <;>
    exact absurd h (by decide)

theorem tree_nested_unique : unique_file_ids tree_nested := by
  intro a b ha hb h
  rcases tree_nested_reachable a ha with e1 | e1 | e1 <;>
    rcases tree_nested_reachable b hb with e2 | e2 | e2 <;>
    first
      | exact e1.trans e2.symm
      | (rw [e1, e2] at h; exact absurd h (by decide))

/-! ## Entries out of reach -/

/-- When the root holds no child, nothing but the root is reachable. -/
theorem reachable_childless_root (core : fskit_core)
    (h : (core.ents core.root).children = []) (x : Nat) (hx : reachable core x) :
    x = core.root := by
  induction hx with
  | root => rfl
  | child d k c _ hm ih =>
    rw [ih, h] at hm
    cases hm

/-! ## What stays reachable -/

theorem mem_insert_of_mem (l : fskit_entry_set) (k k1 : String) (v v1 : Nat)
    (h : (k, v) ∈ l) : (k, v) ∈ (fskit_entry_set_insert l k1 v1).2 := by
  unfold fskit_entry_set_insert
  cases fskit_entry_set_find_name l k1 with
  | some x => exact h
  | none => exact List.mem_append_left _ h

/-- What a children mapping held before the move, it holds after, unless it was held by
the source parent under the stored name of the moved entry, or by the destination parent
under the name that is cleared for the moved entry. -/
theorem moved_mem_keeps (core : fskit_core) (src dst fent_old : Nat) (fent_new : Option Nat)
    (bn : String) (d : Nat) (k : String) (c : Nat)
    (h : (k, c) ∈ (core.ents d).children)
    (h1 : d = src → k ≠ (core.ents fent_old).name)
    (h2 : ∀ n, fent_new = some n → d = dst →
      k ≠ (if n = fent_old then bn else (core.ents n).name)) :
    (k, c) ∈ ((fskit_rename_move core src dst fent_old fent_new bn).ents d).children := by
  rw [move_children]
  have hsrc : (k, c) ∈ move_src core src fent_old d := by
    unfold move_src
    by_cases hs : d = src
    · rw [if_pos hs]
      refine (mem_remove _ _ _ _).2 ⟨?_, h1 hs⟩
      rw [← hs]; exact h
    · rw [if_neg hs]; exact h
  by_cases hd : d = dst
  · rw [if_pos hd]
    apply mem_insert_of_mem
    rw [← hd]
    unfold move_rm
    cases fent_new with
    | none => exact hsrc
    | some n => exact (mem_remove _ _ _ _).2 ⟨hsrc, h2 n rfl hd⟩
  · rw [if_neg hd]; exact hsrc

/-- The cleanup takes nothing but the detached child out of a children mapping. -/
theorem detach_mem_keeps (rc : Int) (core : fskit_core) (parent child d : Nat) (k : String)
    (c : Nat) (h : (k, c) ∈ (core.ents d).children) (hc : c ≠ child) :
    (k, c) ∈ ((fskit_entry_detach_lowlevel rc core parent child).2.ents d).children := by
  by_cases hrc : rc = 0
  · subst hrc
    rw [detach_children]
    by_cases hd : d = parent
    · rw [if_pos hd]
      refine List.mem_filter.2 ⟨?_, by simpa using hc⟩
      rw [← hd]; exact h
    · rw [if_neg hd]; exact h
  · rw [detach_failed rc hrc]
    exact h

/-- Every entry stays reachable when the entry `po` is moved into the reachable directory
`dst`, which is neither `po` nor below it, and the edges to other entries are kept, apart
from those to an entry `gone` held by `dst`: all but `gone` and what lies below it. -/
theorem reachable_after_move (core core1 : fskit_core) (dst po : Nat) (bn : String)
    (gone : Option Nat)
    (hroot : core1.root = core.root)
    (hkeep : ∀ d k c, (k, c) ∈ (core.ents d).children → c ≠ po →
      (∀ n, gone = some n → c ≠ n) → (k, c) ∈ (core1.ents d).children)
    (hnew : (bn, po) ∈ (core1.ents dst).children)
    (hdst : reachable core dst) (hpo : reachable core po)
    (hdpo : dst ≠ po) (hnd : ¬ descends core po dst)
    (hgone : ∀ n, gone = some n → ∃ k, (k, n) ∈ (core.ents dst).children)
    (hcyc : no_cycle_below_root core) :
    ∀ x, reachable core x → (∀ n, gone = some n → x ≠ n ∧ ¬ descends core n x) →
      reachable core1 x := by
  -- outside the moved subtree
  have hA : ∀ x, reachable core x → (x ≠ po ∧ ¬ descends core po x) →
      (∀ n, gone = some n → x ≠ n ∧ ¬ descends core n x) → reachable core1 x := by
    intro x hx
    induction hx with
    | root =>
      intro _ _
      rw [← hroot]; exact reachable.root
    | child d k c _ hm ih =>
      intro hc hg
      have hd1 : d ≠ po ∧ ¬ descends core po d := by
        constructor
        · intro e
          rw [e] at hm
          exact hc.2 (descends.child k c hm)
        · intro e
          exact hc.2 (descends.more d k c e hm)
      have hd2 : ∀ n, gone = some n → d ≠ n ∧ ¬ descends core n d := by
        intro n hn
        constructor
        · intro e
          rw [e] at hm
          exact (hg n hn).2 (descends.child k c hm)
        · intro e
          exact (hg n hn).2 (descends.more d k c e hm)
      exact reachable.child d k c (ih hd1 hd2)
        (hkeep d k c hm hc.1 (fun n hn => (hg n hn).1))
  -- the destination parent, and with it the moved entry
  have hdst1 : reachable core1 dst := by
    apply hA dst hdst ⟨hdpo, hnd⟩
    intro n hn
    obtain ⟨k, hk⟩ := hgone n hn
    have hn_reach : reachable core n := reachable.child dst k n hdst hk
    constructor
    · intro e
      rw [e] at hk
      exact hcyc n hn_reach (descends.child k n hk)
    · intro e
      exact hcyc n hn_reach (descends.more dst k n e hk)
  have hpo1 : reachable core1 po := reachable.child dst bn po hdst1 hnew
  -- below the moved entry
  have hC : ∀ x, descends core po x →
      (∀ n, gone = some n → x ≠ n ∧ ¬ descends core n x) → reachable core1 x := by
    intro x hx
    induction hx with
    | child k c hm =>
      intro hg
      have hcpo : c ≠ po := by
        intro e
        rw [e] at hm
        exact hcyc po hpo (descends.child k po hm)
      exact reachable.child po k c hpo1 (hkeep po k c hm hcpo (fun n hn => (hg n hn).1))
    | more b k c hb hm ih =>
      intro hg
      have hb2 : ∀ n, gone = some n → b ≠ n ∧ ¬ descends core n b := by
        intro n hn
        constructor
        · intro e
          rw [e] at hm
          exact (hg n hn).2 (descends.child k c hm)
        · intro e
          exact (hg n hn).2 (descends.more b k c e hm)
      have hcpo : c ≠ po := by
        intro e
        rw [e] at hm
        exact hcyc po hpo (descends.more b k po hb hm)
      exact reachable.child b k c (ih hb2) (hkeep b k c hm hcpo (fun n hn => (hg n hn).1))
  intro x hx hg
  by_cases h1 : x = po
  · rw [h1]; exact hpo1
  · by_cases h2 : descends core po x
    · exact hC x h2 hg
    · exact hA x hx ⟨h1, h2⟩ hg

theorem dest_parent_reachable (env : fskit_env) (core : fskit_core)
    (old_path new_path : List String) (user group : Nat) (dst : Nat)
    (h : (fskit_rename_resolve_parents env core old_path new_path user group).dest_parent
      = some dst) : reachable core dst := by
  apply resolve_parents_reachable env core old_path new_path user group
  unfold rename_parents.dest_parent at h
  split at h
  · rename_i c hc
    right; right
    rw [hc, ← h]
  · exact Or.inr (Or.inl h)

/-- Past the lookups: in a tree with consistent names and one entry per key, a move that
returns 0 into a directory that is neither the moved entry nor below it keeps every entry
reachable, apart from a replaced destination entry and what lay below it. -/
theorem children_keep_reachable (env : fskit_env) (core : fskit_core) (r : rename_parents)
    (old_path new_path : List String) (fent_old src dst : Nat)
    (hp : parents_ok core r) (hwf : name_key_consistent core) (hku : keys_unique core)
    (hcyc : no_cycle_below_root core)
    (hs : r.src_parent = some src) (hd : r.dest_parent = some dst)
    (hsr : reachable core src) (hdr : reachable core dst)
    (hfo : fskit_rename_fent_old r old_path = some fent_old)
    (h0 : (fskit_rename_children env r old_path new_path).1 = 0)
    (hdpo : dst ≠ fent_old) (hnd : ¬ descends core fent_old dst)
    (x : Nat) (hx : reachable core x)
    (hgone : ∀ n, fskit_rename_fent_new r new_path = some n → n ≠ fent_old →
      x ≠ n ∧ ¬ descends core n x) :
    reachable (fskit_rename_children env r old_path new_path).2 x := by
  have hmem_old : (fskit_basename old_path, fent_old) ∈ (core.ents src).children :=
    find_some_mem _ _ _ ((fent_old_eq core r hp old_path src hs) ▸ hfo)
  have hname : (r.core.ents fent_old).name = fskit_basename old_path := by
    rw [hp.1]; exact hwf _ _ _ hmem_old
  have hpo : reachable core fent_old :=
    reachable.child src (fskit_basename old_path) fent_old hsr hmem_old
  have hsrc_key : ∀ d k c, (k, c) ∈ (core.ents d).children → c ≠ fent_old →
      d = src → k ≠ (r.core.ents fent_old).name := by
    intro d k c hm hc hds hk
    rw [hname] at hk
    rw [hds, hk] at hm
    exact hc (hku src _ c fent_old hm hmem_old)
  by_cases hsame : fskit_rename_fent_new r new_path = some fent_old
  · rw [children_same_entry env r old_path new_path fent_old hfo hsame]
    apply reachable_congr core _ _ _ x hx
    · rw [rename_unlock_ents]; exact hp.1.symm
    · rw [rename_unlock_root]; exact hp.2.1.symm
  · obtain ⟨hk, hh⟩ := children_zero_reaches env core r old_path new_path fent_old src dst
      hp hs hd hfo hsame h0
    cases hcase : fskit_rename_fent_new r new_path with
    | none =>
      rw [hcase] at hh
      obtain ⟨_, e2, e3, _⟩ := children_moved_fresh env r old_path new_path fent_old src
        dst hfo hcase hs hd hh
      have habsent : fskit_entry_set_find_name (r.core.ents dst).children
          (fskit_basename new_path) = none := by
        have h := hcase
        unfold fskit_rename_fent_new at h
        rw [hd] at h
        exact h
      apply reachable_after_move core _ dst fent_old (fskit_basename new_path) none
        (e3.trans hp.2.1) _ _ hdr hpo hdpo hnd (fun n hn => by cases hn) hcyc x hx
        (fun n hn => by cases hn)
      · intro d k c hm hc _
        rw [e2]
        apply moved_mem_keeps
        · rw [hp.1]; exact hm
        · exact hsrc_key d k c hm hc
        · intro n hn
          cases hn
      · rw [e2]
        apply find_some_mem
        apply moved_dst_has
        · intro n hn
          cases hn
        · intro _
          exact habsent
    | some n =>
      rw [hcase] at hh hk
      have hn_ne : n ≠ fent_old := by
        intro h; apply hsame; rw [hcase, h]
      have hmem_new : (fskit_basename new_path, n) ∈ (core.ents dst).children :=
        find_some_mem _ _ _ ((fent_new_eq core r hp new_path dst hd) ▸ hcase)
      have hname_new : (r.core.ents n).name = fskit_basename new_path := by
        rw [hp.1]; exact hwf _ _ _ hmem_new
      obtain ⟨_, e2, e3, _⟩ := children_moved_over env r old_path new_path fent_old n src
        dst hfo hcase hn_ne ((check_types_congr _ _ hp.1 _ _).trans hk) hs hd hh
      apply reachable_after_move core _ dst fent_old (fskit_basename new_path) (some n)
        (e3.trans hp.2.1) _ _ hdr hpo hdpo hnd
        (fun m hm => by cases hm; exact ⟨_, hmem_new⟩) hcyc x hx
        (fun m hm => by cases hm; exact hgone n hcase hn_ne)
      · intro d k c hm hc hcn
        rw [e2]
        apply detach_mem_keeps _ _ _ _ _ _ _ _ (hcn n rfl)
        apply moved_mem_keeps
        · rw [hp.1]; exact hm
        · exact hsrc_key d k c hm hc
        · intro m hm hdd hkk
          cases hm
          rw [if_neg hn_ne, hname_new] at hkk
          rw [hdd, hkk] at hm
          exact hcn n rfl (hku dst _ c n hm hmem_new)
      · rw [e2]
        apply detach_mem_keeps _ _ _ _ _ _ _ _ (Ne.symm hn_ne)
        apply find_some_mem
        apply moved_dst_has
        · intro m hm
          cases hm
          exact ⟨hn_ne, hname_new⟩
        · intro hm
          cases hm

/-- What `fskit_rename` keeps reachable: in a tree with consistent names and one entry per
key, after a call that returns 0 and whose destination parent is neither the source entry
nor below it, every entry that was reachable from the root is still reachable, apart from
a replaced destination entry and what lay below it. -/
theorem rename_keeps_reachable (env : fskit_env) (core : fskit_core)
    (old_path new_path : List String) (user group : Nat)
    (hwf : name_key_consistent core) (hku : keys_unique core) (ht : tree_inv core)
    (h0 : (fskit_rename env core old_path new_path user group).1 = 0)
    (hdst : ∀ dst fent_old,
      (fskit_rename_resolve_parents env core old_path new_path user group).dest_parent
        = some dst →
      fskit_rename_fent_old
        (fskit_rename_resolve_parents env core old_path new_path user group) old_path
        = some fent_old →
      dst ≠ fent_old ∧ ¬ descends core fent_old dst)
    (x : Nat) (hx : reachable core x)
    (hgone : ∀ n fent_old,
      fskit_rename_fent_new
        (fskit_rename_resolve_parents env core old_path new_path user group) new_path
        = some n →
      fskit_rename_fent_old
        (fskit_rename_resolve_parents env core old_path new_path user group) old_path
        = some fent_old →
      n ≠ fent_old → x ≠ n ∧ ¬ descends core n x) :
    reachable (fskit_rename env core old_path new_path user group).2 x := by
  have hp := resolve_parents_ok env core old_path new_path user group
  obtain ⟨hoom, hn, ho, hacc⟩ :=
    rename_zero_past_checks env core old_path new_path user group h0
  rw [rename_past_checks env core old_path new_path user group hoom hn ho hacc] at h0 ⊢
  obtain ⟨src, dst, hs, hd⟩ := parents_exist core _ hp hn ho
  cases hfo : fskit_rename_fent_old
      (fskit_rename_resolve_parents env core old_path new_path user group) old_path with
  | none =>
    rw [children_source_missing env _ old_path new_path hfo] at h0
    exact absurd h0 (show (-ENOENT : Int) ≠ 0 by decide)
  | some fent_old =>
    exact children_keep_reachable env core _ old_path new_path fent_old src dst hp hwf hku
      ht.2 hs hd (src_parent_reachable env core old_path new_path user group src hs)
      (dest_parent_reachable env core old_path new_path user group dst hd) hfo h0
      (hdst dst fent_old hd hfo).1 (hdst dst fent_old hd hfo).2 x hx
      (fun n h1 h2 => hgone n fent_old h1 hfo h2)

theorem descends_first (core : fskit_core) (a b : Nat) (h : descends core a b) :
    ∃ k c, (k, c) ∈ (core.ents a).children := by
  induction h with
  | child k c hm => exact ⟨k, c, hm⟩
  | more _ _ _ _ _ ih => exact ih

theorem tree_two_files_keys : keys_unique tree_two_files := by
  intro d k c1 c2 h1 h2
  rcases (tree_two_files_children d k c1 h1).2 with ⟨a1, b1⟩ | ⟨a1, b1⟩ <;>
    rcases (tree_two_files_children d k c2 h2).2 with ⟨a2, b2⟩ | ⟨a2, b2⟩ <;>
    first
      | exact b1.trans b2.symm
      | (rw [a1] at a2; exact absurd a2 (by decide))

/-- An instance of `rename_keeps_reachable`: after `/a` is renamed over `/b` in the tree
with these two files, the moved entry is reachable from the root. -/
theorem rename_keeps_reachable_sample :
    reachable (fskit_rename env_plain tree_two_files ["a"] ["b"] 1000 1000).2 1 := by
  have hnone : ∀ a b, a ≠ 0 → ¬ descends tree_two_files a b := by
    intro a b ha hd
    obtain ⟨k, c, hm⟩ := descends_first _ _ _ hd
    exact ha (tree_two_files_children a k c hm).1
  apply rename_keeps_reachable env_plain tree_two_files ["a"] ["b"] 1000 1000
    tree_two_files_consistent tree_two_files_keys tree_two_files_tree (by decide) _ 1
    (reachable.child 0 "a" 1 reachable.root (by decide))
  · intro n fent_old h1 _ _
    have e1 : fskit_rename_fent_new
        (fskit_rename_resolve_parents env_plain tree_two_files ["a"] ["b"] 1000 1000) ["b"]
        = some 2 := by decide
    rw [e1] at h1
    cases h1
    exact ⟨by decide, hnone 2 1 (by decide)⟩
  · intro dst fent_old h1 h2
    have e1 : (fskit_rename_resolve_parents env_plain tree_two_files ["a"] ["b"] 1000
        1000).dest_parent = some 0 := by decide
    have e2 : fskit_rename_fent_old
        (fskit_rename_resolve_parents env_plain tree_two_files ["a"] ["b"] 1000 1000) ["a"]
        = some 1 := by decide
    rw [e1] at h1
    rw [e2] at h2
    cases h1
    cases h2
    exact ⟨by decide, hnone 1 0 (by decide)⟩

theorem tree_nested_consistent : name_key_consistent tree_nested := by
  intro d k c h
  rcases tree_nested_children d k c h with ⟨_, rfl, rfl⟩ | ⟨_, rfl, rfl⟩ <;> rfl

theorem tree_nested_keys : keys_unique tree_nested := by
  intro d k c1 c2 h1 h2
  rcases tree_nested_children d k c1 h1 with ⟨a1, _, c1e⟩ | ⟨a1, _, c1e⟩ <;>
    rcases tree_nested_children d k c2 h2 with ⟨a2, _, c2e⟩ | ⟨a2, _, c2e⟩ <;>
    first
      | exact c1e.trans c2e.symm
      | (rw [a1] at a2; exact absurd a2 (by decide))

/-! ## The sample tree with a misnamed file -/

/-- C3: when both parents resolve and pass the permission check and both the source and a
destination entry exist, a destination that is a directory under a source that is not makes
`fskit_rename` return `-EISDIR`, a source that is a directory over a destination that is
not makes it return `-ENOTDIR`, and in both cases every entry of the tree (its children
mapping and its name included) and the root are as before the call. -/
theorem rename_kind_mismatch_rejected (env : fskit_env) (core : fskit_core)
    (old_path new_path : List String) (user group : Nat) (r : rename_parents)
    (fent_old fent_new : Nat)
    (hr : fskit_rename_resolve_parents env core old_path new_path user group = r)
    (hoom : env.dirname_old_oom = false ∧ env.dirname_new_oom = false)
    (hres : r.err_new = 0 ∧ r.err_old = 0)
    (hacc : fskit_rename_access_denied r user group = false)
    (hsrc : fskit_rename_fent_old r old_path = some fent_old)
    (hdst : fskit_rename_fent_new r new_path = some fent_new) :
    ((core.ents fent_new).type = FSKIT_ENTRY_TYPE_DIR ∧
        (core.ents fent_old).type ≠ FSKIT_ENTRY_TYPE_DIR →
      (fskit_rename env core old_path new_path user group).1 = -EISDIR ∧
      (fskit_rename env core old_path new_path user group).2.ents = core.ents ∧
      (fskit_rename env core old_path new_path user group).2.root = core.root) ∧
    ((core.ents fent_old).type = FSKIT_ENTRY_TYPE_DIR ∧
        (core.ents fent_new).type ≠ FSKIT_ENTRY_TYPE_DIR →
      (fskit_rename env core old_path new_path user group).1 = -ENOTDIR ∧
      (fskit_rename env core old_path new_path user group).2.ents = core.ents ∧
      (fskit_rename env core old_path new_path user group).2.root = core.root) := by
  subst hr
  have hp := resolve_parents_ok env core old_path new_path user group
  rw [rename_past_checks env core old_path new_path user group hoom hres.1 hres.2 hacc]
  constructor
  · rintro ⟨h1, h2⟩
    have hne : fent_old ≠ fent_new := by
      intro h; subst h; exact h2 h1
    have hk : fskit_rename_check_types
        (fskit_rename_resolve_parents env core old_path new_path user group).core
        fent_old (some fent_new) = -EISDIR := by
      unfold fskit_rename_check_types
      rw [hp.1]
      simp only [h1]
      rw [if_pos (fun h => h2 h.symm), if_pos trivial]
    rw [children_kind_mismatch env _ old_path new_path fent_old fent_new hsrc hdst hne
      (by rw [hk]; decide)]
    refine ⟨hk, ?_, ?_⟩
    · rw [rename_unlock_ents]; exact hp.1
    · rw [rename_unlock_root]; exact hp.2.1
  · rintro ⟨h1, h2⟩
    have hne : fent_old ≠ fent_new := by
      intro h; subst h; exact h2 h1
    have hk : fskit_rename_check_types
        (fskit_rename_resolve_parents env core old_path new_path user group).core
        fent_old (some fent_new) = -ENOTDIR := by
      unfold fskit_rename_check_types
      rw [hp.1]
      simp only [h1]
      rw [if_pos h2, if_neg h2]
    rw [children_kind_mismatch env _ old_path new_path fent_old fent_new hsrc hdst hne
      (by rw [hk]; decide)]
    refine ⟨hk, ?_, ?_⟩
    · rw [rename_unlock_ents]; exact hp.1
    · rw [rename_unlock_root]; exact hp.2.1

/-- Witness for C3: renaming the file `/f` onto the directory `/d` is answered `-EISDIR`,
renaming the directory `/d` onto the file `/f` is answered `-ENOTDIR`, and both leave the
tree as it was. -/
theorem rename_kind_mismatch_rejected_witness :
    ((fskit_rename env_plain tree_file_dir ["f"] ["d"] 1000 1000).1 = -EISDIR ∧
      (fskit_rename env_plain tree_file_dir ["f"] ["d"] 1000 1000).2.ents = tree_file_dir.ents ∧
      (fskit_rename env_plain tree_file_dir ["f"] ["d"] 1000 1000).2.root
        = tree_file_dir.root) ∧
    ((fskit_rename env_plain tree_file_dir ["d"] ["f"] 1000 1000).1 = -ENOTDIR ∧
      (fskit_rename env_plain tree_file_dir ["d"] ["f"] 1000 1000).2.ents = tree_file_dir.ents ∧
      (fskit_rename env_plain tree_file_dir ["d"] ["f"] 1000 1000).2.root
        = tree_file_dir.root) :=
  ⟨(rename_kind_mismatch_rejected env_plain tree_file_dir ["f"] ["d"] 1000 1000 _ 1 2 rfl
      ⟨rfl, rfl⟩ (by decide) (by decide) (by decide) (by decide)).1 ⟨by decide, by decide⟩,
    (rename_kind_mismatch_rejected env_plain tree_file_dir ["d"] ["f"] 1000 1000 _ 2 1 rfl
      ⟨rfl, rfl⟩ (by decide) (by decide) (by decide) (by decide)).2 ⟨by decide, by decide⟩⟩

/-- C4, as the code has it: a caller whose parent directory is not writable gets `-EACCES`
for `fskit_rename(p, p)` although `p` resolves to an existing entry for that caller. -/
theorem rename_same_path_not_always_ok :
    (fskit_entry_resolve_path tree_readonly ["f"] 1000 1000 false).1 = some 1 ∧
    (fskit_entry_resolve_path tree_readonly ["f"] 1000 1000 false).2.1 = 0 ∧
    (fskit_rename env_plain tree_readonly ["f"] ["f"] 1000 1000).1 = -EACCES ∧
    (fskit_rename env_plain tree_readonly ["f"] ["f"] 1000 1000).1 ≠ 0 := by
  decide

/-- C4, amended: for every tree and caller, when no dirname copy fails to allocate:
(1) for every path `dir/name` whose parent `dir` resolves for the caller to a directory
that the caller may search and write and that holds `name`, `fskit_rename(p, p)` returns 0
and leaves the entries (children mappings, names, file ids), the root and the locks as they
were; (2) more generally, whenever the parents resolve and pass the permission check and
the source and destination lookups yield the identical entry, the call returns 0 and leaves
the entries, the root and the locks as they were. -/
theorem rename_same_entry_is_noop (env : fskit_env) (core : fskit_core) (user group : Nat)
    (hoom : env.dirname_old_oom = false ∧ env.dirname_new_oom = false) :
    (∀ (dir : List String) (name : String) (parent fent : Nat),
      (fskit_entry_resolve_path core dir user group true).1 = some parent →
      FSKIT_ENTRY_IS_DIR_SEARCHABLE (core.ents parent).mode (core.ents parent).owner
        (core.ents parent).group user group = true →
      FSKIT_ENTRY_IS_WRITEABLE (core.ents parent).mode (core.ents parent).owner
        (core.ents parent).group user group = true →
      fskit_entry_set_find_name (core.ents parent).children name = some fent →
      (fskit_rename env core (dir ++ [name]) (dir ++ [name]) user group).1 = 0 ∧
      (fskit_rename env core (dir ++ [name]) (dir ++ [name]) user group).2.ents = core.ents ∧
      (fskit_rename env core (dir ++ [name]) (dir ++ [name]) user group).2.root = core.root ∧
      ∀ x, (fskit_rename env core (dir ++ [name]) (dir ++ [name]) user group).2.locks x
        = core.locks x) ∧
    (∀ (old_path new_path : List String) (r : rename_parents) (fent : Nat),
      fskit_rename_resolve_parents env core old_path new_path user group = r →
      r.err_new = 0 ∧ r.err_old = 0 →
      fskit_rename_access_denied r user group = false →
      fskit_rename_fent_old r old_path = some fent →
      fskit_rename_fent_new r new_path = some fent →
      (fskit_rename env core old_path new_path user group).1 = 0 ∧
      (fskit_rename env core old_path new_path user group).2.ents = core.ents ∧
      (fskit_rename env core old_path new_path user group).2.root = core.root ∧
      ∀ x, (fskit_rename env core old_path new_path user group).2.locks x = core.locks x) := by
  constructor
  · intro dir name parent fent hP hs hw hf
    exact same_path_noop env core user group hoom dir name parent fent hP hs hw hf
  · intro old_path new_path r fent hr hres hacc hsrc hdst
    subst hr
    exact same_entry_noop env core old_path new_path user group fent hoom hres.1 hres.2 hacc
      hsrc hdst

/-- Witness for C4, amended: the owner of the tree renames `/f` onto itself; and in a tree
where one file is linked as `/a` and `/b`, renaming `/a` to `/b` finds the identical entry
on both sides. -/
theorem rename_same_entry_is_noop_witness :
    ((fskit_rename env_plain tree_file_dir ([] ++ ["f"]) ([] ++ ["f"]) 1000 1000).1 = 0 ∧
      (fskit_rename env_plain tree_file_dir ([] ++ ["f"]) ([] ++ ["f"]) 1000 1000).2.ents
        = tree_file_dir.ents ∧
      (fskit_rename env_plain tree_file_dir ([] ++ ["f"]) ([] ++ ["f"]) 1000 1000).2.root
        = tree_file_dir.root ∧
      ∀ x, (fskit_rename env_plain tree_file_dir ([] ++ ["f"]) ([] ++ ["f"]) 1000 1000).2.locks x
        = tree_file_dir.locks x) ∧
    ((fskit_rename env_plain tree_hard_link ["a"] ["b"] 1000 1000).1 = 0 ∧
      (fskit_rename env_plain tree_hard_link ["a"] ["b"] 1000 1000).2.ents
        = tree_hard_link.ents ∧
      (fskit_rename env_plain tree_hard_link ["a"] ["b"] 1000 1000).2.root
        = tree_hard_link.root ∧
      ∀ x, (fskit_rename env_plain tree_hard_link ["a"] ["b"] 1000 1000).2.locks x
        = tree_hard_link.locks x) :=
  ⟨(rename_same_entry_is_noop env_plain tree_file_dir 1000 1000 ⟨rfl, rfl⟩).1 [] "f" 0 1
      (by decide) (by decide) (by decide) (by decide),
    (rename_same_entry_is_noop env_plain tree_hard_link 1000 1000 ⟨rfl, rfl⟩).2 ["a"] ["b"] _ 1
      rfl (by decide) (by decide) (by decide) (by decide)⟩

/-- C6: when both parents resolve and pass the permission check but the old parent holds no
entry named `basename(old_path)`, `fskit_rename` returns `-ENOENT`, whether or not a
destination entry exists, and every entry (children mappings and names included), the root
and the locks are as before the call. -/
theorem rename_source_missing (env : fskit_env) (core : fskit_core)
    (old_path new_path : List String) (user group : Nat) (r : rename_parents)
    (hr : fskit_rename_resolve_parents env core old_path new_path user group = r)
    (hoom : env.dirname_old_oom = false ∧ env.dirname_new_oom = false)
    (hres : r.err_new = 0 ∧ r.err_old = 0)
    (hacc : fskit_rename_access_denied r user group = false)
    (hsrc : fskit_rename_fent_old r old_path = none) :
    (fskit_rename env core old_path new_path user group).1 = -ENOENT ∧
    (fskit_rename env core old_path new_path user group).2.ents = core.ents ∧
    (fskit_rename env core old_path new_path user group).2.root = core.root ∧
    ∀ x, (fskit_rename env core old_path new_path user group).2.locks x = core.locks x := by
  subst hr
  have hp := resolve_parents_ok env core old_path new_path user group
  rw [rename_past_checks env core old_path new_path user group hoom hres.1 hres.2 hacc,
    children_source_missing env _ old_path new_path hsrc]
  refine ⟨rfl, unlock_parents_ents core _ hp, ?_, unlock_parents_locks core _ hp⟩
  rw [rename_unlock_root]; exact hp.2.1

/-- Witness for C6: `/nope` does not exist, the destination `/d` does. -/
theorem rename_source_missing_witness :
    (fskit_rename env_plain tree_file_dir ["nope"] ["d"] 1000 1000).1 = -ENOENT ∧
    (fskit_rename env_plain tree_file_dir ["nope"] ["d"] 1000 1000).2.ents
      = tree_file_dir.ents ∧
    (fskit_rename env_plain tree_file_dir ["nope"] ["d"] 1000 1000).2.root
      = tree_file_dir.root ∧
    ∀ x, (fskit_rename env_plain tree_file_dir ["nope"] ["d"] 1000 1000).2.locks x
      = tree_file_dir.locks x :=
  rename_source_missing env_plain tree_file_dir ["nope"] ["d"] 1000 1000 _ rfl ⟨rfl, rfl⟩
    (by decide) (by decide) (by decide)

/-- C7: when the parents resolve without error and one of the resolved parents (the old
parent, the new parent or the common parent) is not searchable or not writable for
`(user, group)`, `fskit_rename` returns `-EACCES` and every entry, the root and the locks
are as before the call; nothing is asked about the source entry, so this holds also when
the source does not exist. -/
theorem rename_parent_not_accessible (env : fskit_env) (core : fskit_core)
    (old_path new_path : List String) (user group : Nat) (r : rename_parents) (parent : Nat)
    (hr : fskit_rename_resolve_parents env core old_path new_path user group = r)
    (hoom : env.dirname_old_oom = false ∧ env.dirname_new_oom = false)
    (hres : r.err_new = 0 ∧ r.err_old = 0)
    (hpar : r.fent_old_parent = some parent ∨ r.fent_new_parent = some parent ∨
      r.fent_common_parent = some parent)
    (hden : FSKIT_ENTRY_IS_DIR_SEARCHABLE (core.ents parent).mode (core.ents parent).owner
        (core.ents parent).group user group = false ∨
      FSKIT_ENTRY_IS_WRITEABLE (core.ents parent).mode (core.ents parent).owner
        (core.ents parent).group user group = false) :
    (fskit_rename env core old_path new_path user group).1 = -EACCES ∧
    (fskit_rename env core old_path new_path user group).2.ents = core.ents ∧
    (fskit_rename env core old_path new_path user group).2.root = core.root ∧
    ∀ x, (fskit_rename env core old_path new_path user group).2.locks x = core.locks x := by
  subst hr
  have hp := resolve_parents_ok env core old_path new_path user group
  have hd : parent_denied (fskit_rename_resolve_parents env core old_path new_path user group).core
      (some parent) user group = true := by
    unfold parent_denied
    rw [hp.1]
    rcases hden with h | h <;> simp [h]
  have hacc : fskit_rename_access_denied
      (fskit_rename_resolve_parents env core old_path new_path user group) user group = true := by
    unfold fskit_rename_access_denied
    rcases hpar with h | h | h <;> rw [h, hd] <;> simp
  unfold fskit_rename
  simp only [hoom.1, hoom.2, Bool.or_self, Bool.false_eq_true, if_false, hres.1, hres.2,
    ne_eq, not_true_eq_false, hacc, if_true]
  refine ⟨trivial, unlock_parents_ents core _ hp, ?_, unlock_parents_locks core _ hp⟩
  rw [rename_unlock_root]; exact hp.2.1

/-- Witness for C7: the root is not writable for user 1000 and `/nope` does not exist. -/
theorem rename_parent_not_accessible_witness :
    (fskit_rename env_plain tree_readonly ["nope"] ["x"] 1000 1000).1 = -EACCES ∧
    (fskit_rename env_plain tree_readonly ["nope"] ["x"] 1000 1000).2.ents
      = tree_readonly.ents ∧
    (fskit_rename env_plain tree_readonly ["nope"] ["x"] 1000 1000).2.root
      = tree_readonly.root ∧
    ∀ x, (fskit_rename env_plain tree_readonly ["nope"] ["x"] 1000 1000).2.locks x
      = tree_readonly.locks x :=
  rename_parent_not_accessible env_plain tree_readonly ["nope"] ["x"] 1000 1000 _ 0 rfl
    ⟨rfl, rfl⟩ (by decide) (by decide) (by decide)

/-- C9: `fskit_run_user_rename` returns 0 whenever the route dispatch returns `-EPERM` or
`-ENOSYS` (no routes installed), whatever the handler status `cbrc` is; for every other
dispatch result it returns exactly `cbrc`, so that a handler's rejection (a non-zero
`cbrc`) comes back as a non-zero status. -/
theorem run_user_rename_status (env : fskit_env) (path : List String)
    (old_parent old_fent : Nat) (new_path : List String) (new_parent : Nat)
    (dest : Option Nat) :
    ((env.fskit_route_call_rename path old_fent new_path new_parent dest).1 = -EPERM ∨
        (env.fskit_route_call_rename path old_fent new_path new_parent dest).1 = -ENOSYS →
      fskit_run_user_rename env path old_parent old_fent new_path new_parent dest = 0) ∧
    ((env.fskit_route_call_rename path old_fent new_path new_parent dest).1 ≠ -EPERM ∧
        (env.fskit_route_call_rename path old_fent new_path new_parent dest).1 ≠ -ENOSYS →
      fskit_run_user_rename env path old_parent old_fent new_path new_parent dest
        = (env.fskit_route_call_rename path old_fent new_path new_parent dest).2) ∧
    ((env.fskit_route_call_rename path old_fent new_path new_parent dest).1 ≠ -EPERM ∧
        (env.fskit_route_call_rename path old_fent new_path new_parent dest).1 ≠ -ENOSYS →
      (env.fskit_route_call_rename path old_fent new_path new_parent dest).2 ≠ 0 →
      fskit_run_user_rename env path old_parent old_fent new_path new_parent dest ≠ 0) := by
  unfold fskit_run_user_rename
  refine ⟨?_, ?_, ?_⟩
  · intro h
    simp only [if_pos h]
  · intro h
    have hn : ¬ ((env.fskit_route_call_rename path old_fent new_path new_parent dest).1 = -EPERM ∨
        (env.fskit_route_call_rename path old_fent new_path new_parent dest).1 = -ENOSYS) := by
      rintro (h1 | h1)
      · exact h.1 h1
      · exact h.2 h1
    simp only [if_neg hn]
  · intro h hc
    have hn : ¬ ((env.fskit_route_call_rename path old_fent new_path new_parent dest).1 = -EPERM ∨
        (env.fskit_route_call_rename path old_fent new_path new_parent dest).1 = -ENOSYS) := by
      rintro (h1 | h1)
      · exact h.1 h1
      · exact h.2 h1
    simp only [if_neg hn]
    exact hc

/-- Witness for C9: with no route installed the status is 0; a handler that rejects with
`-EACCES` gets its status through. -/
theorem run_user_rename_status_witness :
    fskit_run_user_rename env_plain ["a"] 0 1 ["b"] 0 none = 0 ∧
    fskit_run_user_rename env_rejecting ["a"] 0 1 ["b"] 0 none = -EACCES ∧
    fskit_run_user_rename env_rejecting ["a"] 0 1 ["b"] 0 none ≠ 0 :=
  ⟨(run_user_rename_status env_plain ["a"] 0 1 ["b"] 0 none).1 (Or.inl rfl),
    (run_user_rename_status env_rejecting ["a"] 0 1 ["b"] 0 none).2.1 ⟨by decide, by decide⟩,
    (run_user_rename_status env_rejecting ["a"] 0 1 ["b"] 0 none).2.2 ⟨by decide, by decide⟩
      (by decide)⟩

/-- C1, the code at a failing input: in the tree `/d/c`, `fskit_rename("/d", "/d/c/x")`
does not return `-EINVAL`; it returns 0, takes `d` out of the root and puts it into its
own descendant `c` under the name `x`. -/
theorem rename_into_descendant_goes_through :
    (tree_nested.ents 1).type = FSKIT_ENTRY_TYPE_DIR ∧
    (tree_nested.ents 2).type = FSKIT_ENTRY_TYPE_DIR ∧
    (fskit_entry_resolve_path tree_nested ["d"] 1000 1000 false).1 = some 1 ∧
    (fskit_entry_resolve_path tree_nested ["d", "c"] 1000 1000 false).1 = some 2 ∧
    (fskit_rename env_plain tree_nested ["d"] ["d", "c", "x"] 1000 1000).1 = 0 ∧
    ((fskit_rename env_plain tree_nested ["d"] ["d", "c", "x"] 1000 1000).2.ents 0).children
      = [] ∧
    ((fskit_rename env_plain tree_nested ["d"] ["d", "c", "x"] 1000 1000).2.ents 1).children
      = [("c", 2)] ∧
    ((fskit_rename env_plain tree_nested ["d"] ["d", "c", "x"] 1000 1000).2.ents 2).children
      = [("x", 1)] ∧
    ((fskit_rename env_plain tree_nested ["d"] ["d", "c", "x"] 1000 1000).2.ents 1).name
      = "x" := by
  decide

/-- C5, the code at a failing input: renaming the file `/f` onto the directory `/d` returns
`-EISDIR` with the write locks on `f` and on `d` still held, although no lock was held
before the call; only the lock of the parent is released. -/
theorem rename_kind_mismatch_keeps_locks :
    (fskit_rename env_plain tree_file_dir ["f"] ["d"] 1000 1000).1 = -EISDIR ∧
    tree_file_dir.locks 0 = 0 ∧ tree_file_dir.locks 1 = 0 ∧ tree_file_dir.locks 2 = 0 ∧
    (fskit_rename env_plain tree_file_dir ["f"] ["d"] 1000 1000).2.locks 0 = 0 ∧
    (fskit_rename env_plain tree_file_dir ["f"] ["d"] 1000 1000).2.locks 1 = 1 ∧
    (fskit_rename env_plain tree_file_dir ["f"] ["d"] 1000 1000).2.locks 2 = 1 := by
  decide

/-- C8: when the call reaches the route hook (the parents resolve and pass the permission
check, the source exists, is not the destination entry and has the destination's kind) and
the hook reports a non-zero status, `fskit_rename` returns that status, every entry
(children mappings and names included) and the root are as before the call, and the locks
are as before the call: those on the source, on the destination and on the parents are
released. -/
theorem rename_hook_failure (env : fskit_env) (core : fskit_core)
    (old_path new_path : List String) (user group : Nat) (r : rename_parents)
    (fent_old src dst : Nat) (st : Int)
    (hr : fskit_rename_resolve_parents env core old_path new_path user group = r)
    (hoom : env.dirname_old_oom = false ∧ env.dirname_new_oom = false)
    (hres : r.err_new = 0 ∧ r.err_old = 0)
    (hacc : fskit_rename_access_denied r user group = false)
    (hsrc : fskit_rename_fent_old r old_path = some fent_old)
    (hne : fskit_rename_fent_new r new_path ≠ some fent_old)
    (hkind : fskit_rename_check_types core fent_old (fskit_rename_fent_new r new_path) = 0)
    (hs : r.src_parent = some src) (hd : r.dest_parent = some dst)
    (hhook : fskit_run_user_rename env old_path src fent_old new_path dst
      (fskit_rename_fent_new r new_path) = st)
    (hst : st ≠ 0) :
    (fskit_rename env core old_path new_path user group).1 = st ∧
    (fskit_rename env core old_path new_path user group).2.ents = core.ents ∧
    (fskit_rename env core old_path new_path user group).2.root = core.root ∧
    ∀ x, (fskit_rename env core old_path new_path user group).2.locks x = core.locks x := by
  subst hr
  have hp := resolve_parents_ok env core old_path new_path user group
  rw [rename_past_checks env core old_path new_path user group hoom hres.1 hres.2 hacc]
  obtain ⟨e1, e2, e3, e4⟩ := children_hook_failed env _ old_path new_path fent_old src dst st
    hsrc hne ((check_types_congr _ _ hp.1 _ _).trans hkind) hs hd hhook hst
  refine ⟨e1, e2.trans hp.1, e3.trans hp.2.1, ?_⟩
  intro x
  rw [e4 x, hp.2.2.1 x]
  ring

/-- Witness for C8: a handler rejects the rename of `/a` over `/b` with `-EACCES`. -/
theorem rename_hook_failure_witness :
    (fskit_rename env_rejecting tree_two_files ["a"] ["b"] 1000 1000).1 = -EACCES ∧
    (fskit_rename env_rejecting tree_two_files ["a"] ["b"] 1000 1000).2.ents
      = tree_two_files.ents ∧
    (fskit_rename env_rejecting tree_two_files ["a"] ["b"] 1000 1000).2.root
      = tree_two_files.root ∧
    ∀ x, (fskit_rename env_rejecting tree_two_files ["a"] ["b"] 1000 1000).2.locks x
      = tree_two_files.locks x :=
  rename_hook_failure env_rejecting tree_two_files ["a"] ["b"] 1000 1000 _ 1 0 0 (-EACCES) rfl
    ⟨rfl, rfl⟩ (by decide) (by decide) (by decide) (by decide) (by decide) (by decide)
    (by decide) (by decide) (by decide)

/-- C11, the code at a failing input: in the tree with the files `/a` and `/b`, where every
key maps to an entry that stores that key as its name and no name is freed, `/a` is renamed
over `/b` and the cleanup of `b` fails with -16.  The call returns -16; afterwards the root
maps `b` to the former `/a`, whose `name` points to a string that has been freed. -/
theorem rename_failed_cleanup_frees_name :
    name_key_consistent tree_two_files ∧
    (∀ p, tree_two_files.name_freed p = false) ∧
    (fskit_rename env_cleanup_fails tree_two_files ["a"] ["b"] 1000 1000).1 = -16 ∧
    fskit_entry_set_find_name
      ((fskit_rename env_cleanup_fails tree_two_files ["a"] ["b"] 1000 1000).2.ents 0).children
      "b" = some 1 ∧
    (fskit_rename env_cleanup_fails tree_two_files ["a"] ["b"] 1000 1000).2.name_freed 1
      = true :=
  ⟨tree_two_files_consistent, fun _ => rfl, by decide, by decide, by decide⟩

/-- C19, the code at a failing input: renaming the regular file `/a` onto the symbolic link
`/l`, neither of them a directory, does not replace the link: the kind check fails, the
call returns `-ENOTDIR` and the root holds the same children as before. -/
theorem rename_file_over_symlink_rejected :
    (tree_file_symlink.ents 1).type = FSKIT_ENTRY_TYPE_FILE ∧
    (tree_file_symlink.ents 2).type = FSKIT_ENTRY_TYPE_LNK ∧
    fskit_rename_check_types tree_file_symlink 1 (some 2) = -ENOTDIR ∧
    (fskit_rename env_plain tree_file_symlink ["a"] ["l"] 1000 1000).1 = -ENOTDIR ∧
    ((fskit_rename env_plain tree_file_symlink ["a"] ["l"] 1000 1000).2.ents 0).children
      = [("a", 1), ("l", 2)] := by
  decide

/-- The frame of a successful rename: a call of `fskit_rename` that returns 0 changes no
file id and no type; it changes no name but that of the moved entry; it changes no children
mapping but those of the old parent and of the new parent, so that the moved entry keeps
its own children mapping whenever it is not itself one of the two parents; and every entry
other than the two parents, the moved entry and a replaced destination entry is as before
in every field. -/
theorem rename_success_frame (env : fskit_env) (core : fskit_core)
    (old_path new_path : List String) (user group : Nat) (r : rename_parents)
    (fent_old src dst : Nat)
    (hr : fskit_rename_resolve_parents env core old_path new_path user group = r)
    (h0 : (fskit_rename env core old_path new_path user group).1 = 0)
    (hs : r.src_parent = some src) (hd : r.dest_parent = some dst)
    (hsrc : fskit_rename_fent_old r old_path = some fent_old) :
    (∀ x, ((fskit_rename env core old_path new_path user group).2.ents x).file_id
        = (core.ents x).file_id ∧
      ((fskit_rename env core old_path new_path user group).2.ents x).type
        = (core.ents x).type) ∧
    (∀ x, x ≠ fent_old →
      ((fskit_rename env core old_path new_path user group).2.ents x).name
        = (core.ents x).name) ∧
    (∀ x, x ≠ src → x ≠ dst →
      ((fskit_rename env core old_path new_path user group).2.ents x).children
        = (core.ents x).children) ∧
    (fent_old ≠ src → fent_old ≠ dst →
      ((fskit_rename env core old_path new_path user group).2.ents fent_old).children
        = (core.ents fent_old).children) ∧
    (∀ x, x ≠ src → x ≠ dst → x ≠ fent_old → fskit_rename_fent_new r new_path ≠ some x →
      (fskit_rename env core old_path new_path user group).2.ents x = core.ents x) := by
  subst hr
  have hp := resolve_parents_ok env core old_path new_path user group
  obtain ⟨hoom, hn, ho, hacc⟩ := rename_zero_past_checks env core old_path new_path user group h0
  rw [rename_past_checks env core old_path new_path user group hoom hn ho hacc] at h0 ⊢
  by_cases hsame : fskit_rename_fent_new
      (fskit_rename_resolve_parents env core old_path new_path user group) new_path
      = some fent_old
  · have hE : (fskit_rename_children env
        (fskit_rename_resolve_parents env core old_path new_path user group)
        old_path new_path).2.ents = core.ents := by
      rw [children_same_entry env _ old_path new_path fent_old hsrc hsame]
      exact unlock_parents_ents core _ hp
    rw [hE]
    exact ⟨fun _ => ⟨rfl, rfl⟩, fun _ _ => rfl, fun _ _ _ => rfl, fun _ _ => rfl,
      fun _ _ _ _ _ => rfl⟩
  · obtain ⟨hk, hh⟩ := children_zero_reaches env core _ old_path new_path fent_old src dst hp
      hs hd hsrc hsame h0
    cases hcase : fskit_rename_fent_new
        (fskit_rename_resolve_parents env core old_path new_path user group) new_path with
    | none =>
      rw [hcase] at hh
      obtain ⟨_, e2, _, _⟩ := children_moved_fresh env _ old_path new_path fent_old src dst
        hsrc hcase hs hd hh
      rw [e2]
      refine ⟨?_, ?_, ?_, ?_, ?_⟩
      · intro x
        rw [(move_ids _ _ _ _ _ _ _).1, (move_ids _ _ _ _ _ _ _).2, hp.1]
        exact ⟨rfl, rfl⟩
      · intro x hx
        rw [move_name, if_neg hx, hp.1]
      · intro x h1 h2
        rw [move_children_other _ _ _ _ _ _ _ h1 h2, hp.1]
      · intro h1 h2
        rw [move_children_other _ _ _ _ _ _ _ h1 h2, hp.1]
      · intro x h1 h2 h3 _
        rw [move_other _ _ _ _ _ _ _ h1 h2 h3, hp.1]
    | some n =>
      rw [hcase] at hh hk
      have hn_ne : n ≠ fent_old := by
        intro h; apply hsame; rw [hcase, h]
      obtain ⟨_, e2, _, _⟩ := children_moved_over env _ old_path new_path fent_old n src dst
        hsrc hcase hn_ne ((check_types_congr _ _ hp.1 _ _).trans hk) hs hd hh
      rw [e2]
      refine ⟨?_, ?_, ?_, ?_, ?_⟩
      · intro x
        rw [(detach_ids _ _ _ _ _).1, (detach_ids _ _ _ _ _).2, (move_ids _ _ _ _ _ _ _).1,
          (move_ids _ _ _ _ _ _ _).2, hp.1]
        exact ⟨rfl, rfl⟩
      · intro x hx
        rw [detach_name, move_name, if_neg hx, hp.1]
      · intro x h1 h2
        rw [detach_children_other _ _ _ _ _ h2, move_children_other _ _ _ _ _ _ _ h1 h2, hp.1]
      · intro h1 h2
        rw [detach_children_other _ _ _ _ _ h2, move_children_other _ _ _ _ _ _ _ h1 h2, hp.1]
      · intro x h1 h2 h3 h4
        have h5 : x ≠ n := fun h => h4 (by rw [h])
        rw [detach_other _ _ _ _ _ h2 h5, move_other _ _ _ _ _ _ _ h1 h2 h3, hp.1]

/-- An instance of `rename_success_frame`: `/a` is renamed over `/b` in the root. -/
theorem rename_success_frame_witness :
    (∀ x, ((fskit_rename env_plain tree_two_files ["a"] ["b"] 1000 1000).2.ents x).file_id
        = (tree_two_files.ents x).file_id ∧
      ((fskit_rename env_plain tree_two_files ["a"] ["b"] 1000 1000).2.ents x).type
        = (tree_two_files.ents x).type) ∧
    (∀ x, x ≠ 1 →
      ((fskit_rename env_plain tree_two_files ["a"] ["b"] 1000 1000).2.ents x).name
        = (tree_two_files.ents x).name) ∧
    (∀ x, x ≠ 0 → x ≠ 0 →
      ((fskit_rename env_plain tree_two_files ["a"] ["b"] 1000 1000).2.ents x).children
        = (tree_two_files.ents x).children) :=
  ⟨(rename_success_frame env_plain tree_two_files ["a"] ["b"] 1000 1000 _ 1 0 0 rfl
      (by decide) (by decide) (by decide) (by decide)).1,
    (rename_success_frame env_plain tree_two_files ["a"] ["b"] 1000 1000 _ 1 0 0 rfl
      (by decide) (by decide) (by decide) (by decide)).2.1,
    (rename_success_frame env_plain tree_two_files ["a"] ["b"] 1000 1000 _ 1 0 0 rfl
      (by decide) (by decide) (by decide) (by decide)).2.2.1⟩

/-- C13: in every call of `fskit_rename` that write-locks two parents (the old parent `p`
and the new parent `q`): when `fskit_depth(old_path) > fskit_depth(new_path)` the write
lock on the parent of `old_path` is taken before the one on the parent of `new_path`, and
when `fskit_depth(old_path) < fskit_depth(new_path)` the one on the parent of `new_path` is
taken first; these are the first write locks of the call. -/
theorem rename_locks_deeper_parent_first (env : fskit_env) (core : fskit_core)
    (old_path new_path : List String) (user group : Nat) (r : rename_parents) (p q : Nat)
    (hr : fskit_rename_resolve_parents env core old_path new_path user group = r)
    (hoom : env.dirname_old_oom = false ∧ env.dirname_new_oom = false)
    (hp : r.fent_old_parent = some p) (hq : r.fent_new_parent = some q) :
    (fskit_depth old_path > fskit_depth new_path →
      ∃ rest, wlocks (fskit_rename env core old_path new_path user group).2.lock_log
        = wlocks core.lock_log ++ [p, q] ++ rest) ∧
    (fskit_depth old_path < fskit_depth new_path →
      ∃ rest, wlocks (fskit_rename env core old_path new_path user group).2.lock_log
        = wlocks core.lock_log ++ [q, p] ++ rest) := by
  subst hr
  obtain ⟨rest, hrest⟩ := rename_wlocks env core old_path new_path user group hoom
  rw [hp, hq] at hrest
  constructor
  · intro h
    rw [if_pos h] at hrest
    exact ⟨rest, by rw [hrest]; simp [olist]⟩
  · intro h
    rw [if_neg (by omega)] at hrest
    refine ⟨olist (fskit_rename_resolve_parents env core old_path new_path user
      group).fent_common_parent ++ rest, ?_⟩
    rw [hrest]
    simp [olist]

/-- Witness for C13: renaming `/A/C/x` to `/B/x` locks the deeper parent `C` (entry 3)
before `B` (entry 2), and renaming `/B/x` to `/A/C/x` does so too. -/
theorem rename_locks_deeper_parent_first_witness :
    (∃ rest, wlocks (fskit_rename env_plain tree_deep ["A", "C", "x"] ["B", "x"] 1000
        1000).2.lock_log = wlocks tree_deep.lock_log ++ [3, 2] ++ rest) ∧
    (∃ rest, wlocks (fskit_rename env_plain tree_deep ["B", "x"] ["A", "C", "x"] 1000
        1000).2.lock_log = wlocks tree_deep.lock_log ++ [3, 2] ++ rest) :=
  ⟨(rename_locks_deeper_parent_first env_plain tree_deep ["A", "C", "x"] ["B", "x"] 1000 1000
      _ 3 2 rfl ⟨rfl, rfl⟩ (by decide) (by decide)).1 (by decide),
    (rename_locks_deeper_parent_first env_plain tree_deep ["B", "x"] ["A", "C", "x"] 1000 1000
      _ 2 3 rfl ⟨rfl, rfl⟩ (by decide) (by decide)).2 (by decide)⟩

/-- C14, as the code has it: with the directories `/A` (entry 1) and `/B` (entry 2) of equal
depth, `fskit_rename("/A/x", "/B/y")` write-locks `B` and then `A`, while
`fskit_rename("/B/y", "/A/x")` write-locks `A` and then `B`: the order depends on which one
is the source parent. -/
theorem rename_equal_depth_order_flips :
    fskit_depth ["A", "x"] = fskit_depth ["B", "y"] ∧
    wlocks (fskit_rename env_plain tree_two_dirs ["A", "x"] ["B", "y"] 1000 1000).2.lock_log
      = [2, 1, 3, 4] ∧
    wlocks (fskit_rename env_plain tree_two_dirs ["B", "y"] ["A", "x"] 1000 1000).2.lock_log
      = [1, 2, 4, 3] := by
  decide

/-- C14, amended: in every call of `fskit_rename` with paths of equal depth that write-locks
two parents (the old parent `p` and the new parent `q`), the write lock on the parent of
`new_path` is taken first and the one on the parent of `old_path` second, whatever the two
entries are. -/
theorem rename_equal_depth_new_parent_first (env : fskit_env) (core : fskit_core)
    (old_path new_path : List String) (user group : Nat) (r : rename_parents) (p q : Nat)
    (hr : fskit_rename_resolve_parents env core old_path new_path user group = r)
    (hoom : env.dirname_old_oom = false ∧ env.dirname_new_oom = false)
    (hdepth : fskit_depth old_path = fskit_depth new_path)
    (hp : r.fent_old_parent = some p) (hq : r.fent_new_parent = some q) :
    ∃ rest, wlocks (fskit_rename env core old_path new_path user group).2.lock_log
      = wlocks core.lock_log ++ [q, p] ++ rest := by
  subst hr
  obtain ⟨rest, hrest⟩ := rename_wlocks env core old_path new_path user group hoom
  rw [hp, hq, if_neg (by omega)] at hrest
  refine ⟨olist (fskit_rename_resolve_parents env core old_path new_path user
    group).fent_common_parent ++ rest, ?_⟩
  rw [hrest]
  simp [olist]

/-- Witness for C14, amended: `fskit_rename("/A/x", "/B/y")` locks the new parent `B`
(entry 2) before the old parent `A` (entry 1). -/
theorem rename_equal_depth_new_parent_first_witness :
    ∃ rest, wlocks (fskit_rename env_plain tree_two_dirs ["A", "x"] ["B", "y"] 1000
      1000).2.lock_log = wlocks tree_two_dirs.lock_log ++ [2, 1] ++ rest :=
  rename_equal_depth_new_parent_first env_plain tree_two_dirs ["A", "x"] ["B", "y"] 1000 1000
    _ 1 2 rfl ⟨rfl, rfl⟩ (by decide) (by decide) (by decide)

/-- C16, the code at a failing input: with every callback enabled and the core call
`fskit_link` failing with `-ENOENT`, `fskit_fuse_link` returns 0: the failure is turned into
success; `fskit_fuse_unlink` in the same state hands the same status on. -/
theorem fuse_link_drops_status :
    fuse_state_sample.callbacks &&& fuse_h_sample.FSKIT_FUSE_LINK ≠ 0 ∧
    fskit_fuse_link fuse_h_sample fuse_state_sample (-ENOENT) = 0 ∧
    fskit_fuse_link fuse_h_sample fuse_state_sample (-ENOENT) ≠ -ENOENT ∧
    fskit_fuse_unlink fuse_h_sample fuse_state_sample (-ENOENT) = -ENOENT := by
  decide

/-- C15, the half that the code checks: when the copy of a dirname cannot be allocated
(rename.cpp 115-123), `fskit_rename("/a", "/b")` returns `-ENOMEM` with the root holding
the same children and no lock taken.  The copies of the basenames (rename.cpp 187-188) are
used without such a check; the embedding has no allocation flag for them. -/
theorem rename_dirname_oom_checked :
    (fskit_rename env_dirname_oom tree_two_files ["a"] ["b"] 1000 1000).1 = -ENOMEM ∧
    ((fskit_rename env_dirname_oom tree_two_files ["a"] ["b"] 1000 1000).2.ents 0).children
      = [("a", 1), ("b", 2)] ∧
    (fskit_rename env_dirname_oom tree_two_files ["a"] ["b"] 1000 1000).2.locks 0 = 0 := by
  decide

/-- C24: `fskit_fuse_get_uid` and `fskit_fuse_get_gid` return 0 when the setting
`FSKIT_FUSE_NO_PERMISSIONS` is enabled, or when the request comes from the process of the
filesystem and `FSKIT_FUSE_SET_FS_ACCESS` is enabled; in every other case they return the
uid and the gid of the requesting context; and for a context whose uid and gid are not 0
(so that the branch taken shows in the result), the one returns 0 exactly when the other
does. -/
theorem fuse_get_uid_gid_bypass (h : fskit_fuse_h) (getpid : Nat) (ctx : fuse_context)
    (state : fskit_fuse_state) :
    (state.settings &&& h.FSKIT_FUSE_NO_PERMISSIONS ≠ 0 ∨
        (getpid = ctx.pid ∧ state.settings &&& h.FSKIT_FUSE_SET_FS_ACCESS ≠ 0) →
      fskit_fuse_get_uid h getpid ctx state = 0 ∧
      fskit_fuse_get_gid h getpid ctx state = 0) ∧
    (¬ (state.settings &&& h.FSKIT_FUSE_NO_PERMISSIONS ≠ 0 ∨
        (getpid = ctx.pid ∧ state.settings &&& h.FSKIT_FUSE_SET_FS_ACCESS ≠ 0)) →
      fskit_fuse_get_uid h getpid ctx state = ctx.uid ∧
      fskit_fuse_get_gid h getpid ctx state = ctx.gid) ∧
    (ctx.uid ≠ 0 → ctx.gid ≠ 0 →
      (fskit_fuse_get_uid h getpid ctx state = 0 ↔
        fskit_fuse_get_gid h getpid ctx state = 0)) := by
  unfold fskit_fuse_get_uid fskit_fuse_get_gid
  by_cases ha : getpid = ctx.pid ∧ state.settings &&& h.FSKIT_FUSE_SET_FS_ACCESS ≠ 0
  · rw [if_pos ha, if_pos ha]
    exact ⟨fun _ => ⟨rfl, rfl⟩, fun hn => absurd (Or.inr ha) hn, fun _ _ => Iff.rfl⟩
  · rw [if_neg ha, if_neg ha]
    by_cases hb : state.settings &&& h.FSKIT_FUSE_NO_PERMISSIONS ≠ 0
    · rw [if_pos hb, if_pos hb]
      exact ⟨fun _ => ⟨rfl, rfl⟩, fun hn => absurd (Or.inl hb) hn, fun _ _ => Iff.rfl⟩
    · rw [if_neg hb, if_neg hb]
      refine ⟨?_, fun _ => ⟨rfl, rfl⟩, fun hu hg => ⟨fun e => absurd e hu, fun e => absurd e hg⟩⟩
      rintro (h1 | h1)
      · exact absurd h1 hb
      · exact absurd h1 ha

/-- Witness for C24, with the sample header (`FSKIT_FUSE_SET_FS_ACCESS = 1`,
`FSKIT_FUSE_NO_PERMISSIONS = 2`) and the request of user 1000, group 100 from process 7:
with no setting the caller is 1000:100; with `FSKIT_FUSE_NO_PERMISSIONS` it is 0:0; with
`FSKIT_FUSE_SET_FS_ACCESS` it is 0:0 when the filesystem is process 7 itself. -/
theorem fuse_get_uid_gid_bypass_witness :
    (fskit_fuse_get_uid fuse_h_sample 9 ⟨7, 1000, 100⟩ fuse_state_sample = 1000 ∧
      fskit_fuse_get_gid fuse_h_sample 9 ⟨7, 1000, 100⟩ fuse_state_sample = 100) ∧
    (fskit_fuse_get_uid fuse_h_sample 9 ⟨7, 1000, 100⟩ ⟨tree_two_files, 2, 0⟩ = 0 ∧
      fskit_fuse_get_gid fuse_h_sample 9 ⟨7, 1000, 100⟩ ⟨tree_two_files, 2, 0⟩ = 0) ∧
    (fskit_fuse_get_uid fuse_h_sample 7 ⟨7, 1000, 100⟩ ⟨tree_two_files, 1, 0⟩ = 0 ∧
      fskit_fuse_get_gid fuse_h_sample 7 ⟨7, 1000, 100⟩ ⟨tree_two_files, 1, 0⟩ = 0) ∧
    (fskit_fuse_get_uid fuse_h_sample 9 ⟨7, 1000, 100⟩ ⟨tree_two_files, 1, 0⟩ = 0 ↔
      fskit_fuse_get_gid fuse_h_sample 9 ⟨7, 1000, 100⟩ ⟨tree_two_files, 1, 0⟩ = 0) :=
  ⟨(fuse_get_uid_gid_bypass fuse_h_sample 9 ⟨7, 1000, 100⟩ fuse_state_sample).2.1 (by decide),
    (fuse_get_uid_gid_bypass fuse_h_sample 9 ⟨7, 1000, 100⟩ ⟨tree_two_files, 2, 0⟩).1
      (by decide),
    (fuse_get_uid_gid_bypass fuse_h_sample 7 ⟨7, 1000, 100⟩ ⟨tree_two_files, 1, 0⟩).1
      (by decide),
    (fuse_get_uid_gid_bypass fuse_h_sample 9 ⟨7, 1000, 100⟩ ⟨tree_two_files, 1, 0⟩).2.2
      (by decide) (by decide)⟩

/-- C23: for every operation of the adapter guarded by a callback id (`getattr` through
`fgetattr`), when `state.callbacks & id` is 0 the operation returns `-ENOSYS`, whatever the
core would have returned, and makes no call into the core (`fskit_fuse_rename` hands the
state back as it was); `fskit_fuse_callback_enable(id)` returns 0, sets the bits of `id`
and leaves every other bit of `callbacks`, the settings and the core as they were;
`fskit_fuse_callback_disable(id)` does the same with the bits of `id` cleared (`callbacks`
being a number of 64 bits); and `fskit_fuse_init_fs` returns 0 and leaves a state with the
given core in which each of the 64 bits of `callbacks` is set, so that
`callbacks & id = id` for every id of 64 bits. -/
theorem fuse_callback_guard (h : fskit_fuse_h) (state : fskit_fuse_state) :
    ((state.callbacks &&& h.FSKIT_FUSE_GETATTR = 0 →
        (∀ (rc : Int), fskit_fuse_getattr h state rc = -ENOSYS) ∧
        (fskit_fuse_getattr_calls h state = [])) ∧
      (state.callbacks &&& h.FSKIT_FUSE_READLINK = 0 →
        (∀ (rc : Int), fskit_fuse_readlink h state rc = -ENOSYS) ∧
        (fskit_fuse_readlink_calls h state = [])) ∧
      (state.callbacks &&& h.FSKIT_FUSE_MKNOD = 0 →
        (∀ (rc : Int), fskit_fuse_mknod h state rc = -ENOSYS) ∧
        (fskit_fuse_mknod_calls h state = [])) ∧
      (state.callbacks &&& h.FSKIT_FUSE_MKDIR = 0 →
        (∀ (rc : Int), fskit_fuse_mkdir h state rc = -ENOSYS) ∧
        (fskit_fuse_mkdir_calls h state = [])) ∧
      (state.callbacks &&& h.FSKIT_FUSE_UNLINK = 0 →
        (∀ (rc : Int), fskit_fuse_unlink h state rc = -ENOSYS) ∧
        (fskit_fuse_unlink_calls h state = [])) ∧
      (state.callbacks &&& h.FSKIT_FUSE_RMDIR = 0 →
        (∀ (rc : Int), fskit_fuse_rmdir h state rc = -ENOSYS) ∧
        (fskit_fuse_rmdir_calls h state = [])) ∧
      (state.callbacks &&& h.FSKIT_FUSE_SYMLINK = 0 →
        (∀ (rc : Int), fskit_fuse_symlink h state rc = -ENOSYS) ∧
        (fskit_fuse_symlink_calls h state = [])) ∧
      (state.callbacks &&& h.FSKIT_FUSE_RENAME = 0 →
        (∀ (env : fskit_env) (getpid : Nat) (ctx : fuse_context) (path newpath : List String),
          fskit_fuse_rename h env getpid ctx state path newpath = (-ENOSYS, state)) ∧
        fskit_fuse_rename_calls h state = []) ∧
      (state.callbacks &&& h.FSKIT_FUSE_LINK = 0 →
        (∀ (rc : Int), fskit_fuse_link h state rc = -ENOSYS) ∧
        (fskit_fuse_link_calls h state = [])) ∧
      (state.callbacks &&& h.FSKIT_FUSE_CHMOD = 0 →
        (∀ (rc : Int), fskit_fuse_chmod h state rc = -ENOSYS) ∧
        (fskit_fuse_chmod_calls h state = [])) ∧
      (state.callbacks &&& h.FSKIT_FUSE_CHOWN = 0 →
        (∀ (rc : Int), fskit_fuse_chown h state rc = -ENOSYS) ∧
        (fskit_fuse_chown_calls h state = [])) ∧
      (state.callbacks &&& h.FSKIT_FUSE_TRUNCATE = 0 →
        (∀ (rc : Int), fskit_fuse_truncate h state rc = -ENOSYS) ∧
        (fskit_fuse_truncate_calls h state = [])) ∧
      (state.callbacks &&& h.FSKIT_FUSE_UTIME = 0 →
        (∀ (rc : Int), fskit_fuse_utime h state rc = -ENOSYS) ∧
        (fskit_fuse_utime_calls h state = [])) ∧
      (state.callbacks &&& h.FSKIT_FUSE_OPEN = 0 →
        (∀ (rc : Int) (ffi_null : Bool), fskit_fuse_open h state rc ffi_null = -ENOSYS) ∧
        (∀ (rc : Int) (ffi_null : Bool), fskit_fuse_open_calls h state rc ffi_null = [])) ∧
      (state.callbacks &&& h.FSKIT_FUSE_READ = 0 →
        (∀ (rc : Int), fskit_fuse_read h state rc = -ENOSYS) ∧
        (fskit_fuse_read_calls h state = [])) ∧
      (state.callbacks &&& h.FSKIT_FUSE_WRITE = 0 →
        (∀ (rc : Int), fskit_fuse_write h state rc = -ENOSYS) ∧
        (fskit_fuse_write_calls h state = [])) ∧
      (state.callbacks &&& h.FSKIT_FUSE_STATFS = 0 →
        (∀ (rc : Int), fskit_fuse_statfs h state rc = -ENOSYS) ∧
        (fskit_fuse_statfs_calls h state = [])) ∧
      (state.callbacks &&& h.FSKIT_FUSE_FLUSH = 0 →
        (∀ (ty : fskit_entry_type) (rc : Int), fskit_fuse_flush h state ty rc = -ENOSYS) ∧
        (∀ (ty : fskit_entry_type), fskit_fuse_flush_calls h state ty = [])) ∧
      (state.callbacks &&& h.FSKIT_FUSE_RELEASE = 0 →
        (∀ (rc : Int), fskit_fuse_release h state rc = -ENOSYS) ∧
        (fskit_fuse_release_calls h state = [])) ∧
      (state.callbacks &&& h.FSKIT_FUSE_FSYNC = 0 →
        (∀ (rc : Int), fskit_fuse_fsync h state rc = -ENOSYS) ∧
        (fskit_fuse_fsync_calls h state = [])) ∧
      (state.callbacks &&& h.FSKIT_FUSE_SETXATTR = 0 →
        (∀ (rc : Int), fskit_fuse_setxattr h state rc = -ENOSYS) ∧
        (fskit_fuse_setxattr_calls h state = [])) ∧
      (state.callbacks &&& h.FSKIT_FUSE_GETXATTR = 0 →
        (∀ (rc : Int), fskit_fuse_getxattr h state rc = -ENOSYS) ∧
        (fskit_fuse_getxattr_calls h state = [])) ∧
      (state.callbacks &&& h.FSKIT_FUSE_LISTXATTR = 0 →
        (∀ (rc : Int), fskit_fuse_listxattr h state rc = -ENOSYS) ∧
        (fskit_fuse_listxattr_calls h state = [])) ∧
      (state.callbacks &&& h.FSKIT_FUSE_REMOVEXATTR = 0 →
        (∀ (rc : Int), fskit_fuse_removexattr h state rc = -ENOSYS) ∧
        (fskit_fuse_removexattr_calls h state = [])) ∧
      (state.callbacks &&& h.FSKIT_FUSE_OPENDIR = 0 →
        (∀ (rc : Int) (ffi_null : Bool), fskit_fuse_opendir h state rc ffi_null = -ENOSYS) ∧
        (∀ (rc : Int) (ffi_null : Bool), fskit_fuse_opendir_calls h state rc ffi_null = [])) ∧
      (state.callbacks &&& h.FSKIT_FUSE_READDIR = 0 →
        (∀ (dirents_null : Bool) (n : Nat) (rc : Int) (filler : Nat → Int), fskit_fuse_readdir h state dirents_null n rc filler = -ENOSYS) ∧
        (fskit_fuse_readdir_calls h state = [])) ∧
      (state.callbacks &&& h.FSKIT_FUSE_RELEASEDIR = 0 →
        (∀ (rc : Int), fskit_fuse_releasedir h state rc = -ENOSYS) ∧
        (fskit_fuse_releasedir_calls h state = [])) ∧
      (state.callbacks &&& h.FSKIT_FUSE_FSYNCDIR = 0 →
        (fskit_fuse_fsyncdir h state = -ENOSYS) ∧
        (fskit_fuse_fsyncdir_calls h state = [])) ∧
      (state.callbacks &&& h.FSKIT_FUSE_ACCESS = 0 →
        (∀ (rc : Int), fskit_fuse_access h state rc = -ENOSYS) ∧
        (fskit_fuse_access_calls h state = [])) ∧
      (state.callbacks &&& h.FSKIT_FUSE_CREATE = 0 →
        (∀ (rc : Int) (ffi_null : Bool), fskit_fuse_create h state rc ffi_null = -ENOSYS) ∧
        (∀ (rc : Int) (ffi_null : Bool), fskit_fuse_create_calls h state rc ffi_null = [])) ∧
      (state.callbacks &&& h.FSKIT_FUSE_FTRUNCATE = 0 →
        (∀ (rc : Int), fskit_fuse_ftruncate h state rc = -ENOSYS) ∧
        (fskit_fuse_ftruncate_calls h state = [])) ∧
      (state.callbacks &&& h.FSKIT_FUSE_FGETATTR = 0 →
        (∀ (rc : Int), fskit_fuse_fgetattr h state rc = -ENOSYS) ∧
        (fskit_fuse_fgetattr_calls h state = []))) ∧
    (∀ id : Nat,
      (fskit_fuse_callback_enable state id).1 = 0 ∧
      (fskit_fuse_callback_enable state id).2.settings = state.settings ∧
      (fskit_fuse_callback_enable state id).2.core = state.core ∧
      (fskit_fuse_callback_enable state id).2.callbacks &&& id = id ∧
      ∀ i : Nat,
        (id.testBit i = true →
          (fskit_fuse_callback_enable state id).2.callbacks.testBit i = true) ∧
        (id.testBit i = false →
          (fskit_fuse_callback_enable state id).2.callbacks.testBit i
            = state.callbacks.testBit i)) ∧
    (state.callbacks < 2 ^ 64 → ∀ id : Nat,
      (fskit_fuse_callback_disable state id).1 = 0 ∧
      (fskit_fuse_callback_disable state id).2.settings = state.settings ∧
      (fskit_fuse_callback_disable state id).2.core = state.core ∧
      (fskit_fuse_callback_disable state id).2.callbacks &&& id = 0 ∧
      ∀ i : Nat,
        (id.testBit i = true →
          (fskit_fuse_callback_disable state id).2.callbacks.testBit i = false) ∧
        (id.testBit i = false →
          (fskit_fuse_callback_disable state id).2.callbacks.testBit i
            = state.callbacks.testBit i)) ∧
    (∀ fs : fskit_core,
      (fskit_fuse_init_fs state fs).1 = 0 ∧
      (fskit_fuse_init_fs state fs).2.core = fs ∧
      (∀ i : Nat, i < 64 → (fskit_fuse_init_fs state fs).2.callbacks.testBit i = true) ∧
      (∀ id : Nat, id < 2 ^ 64 → (fskit_fuse_init_fs state fs).2.callbacks &&& id = id)) :=
  ⟨fuse_guard_clear h state,
    fun id => ⟨rfl, rfl, rfl, or_and_self state.callbacks id,
      fun i => or_bits state.callbacks id i⟩,
    fun hc id => ⟨rfl, rfl, rfl, and_not_and_self state.callbacks id hc,
      fun i => and_not_bits state.callbacks id i hc⟩,
    fun _ => ⟨rfl, rfl,
      fun i hi => (testBit_uint64_max i).trans (decide_eq_true hi),
      fun id hid => uint64_max_and id hid⟩⟩

/-- Witness for C23, with the sample header in which `FSKIT_FUSE_GETATTR = 1` and
`FSKIT_FUSE_MKNOD = 4`: in the state that `fskit_fuse_init_fs` leaves `getattr` hands on
the status `-ENOENT` of the core; once `fskit_fuse_callback_disable` has run for
`FSKIT_FUSE_GETATTR` it returns `-ENOSYS` without a call into the core, while `mknod` still
hands on the status of the core; in a state with no callback enabled `fsync` is refused;
and `fskit_fuse_callback_enable` for `FSKIT_FUSE_GETATTR` brings `getattr` back. -/
theorem fuse_callback_guard_witness :
    fskit_fuse_getattr fuse_h_sample
      (fskit_fuse_init_fs fuse_state_disabled tree_two_files).2 (-ENOENT) = -ENOENT ∧
    ((∀ rc : Int, fskit_fuse_getattr fuse_h_sample
        (fskit_fuse_callback_disable
          (fskit_fuse_init_fs fuse_state_disabled tree_two_files).2 1).2 rc = -ENOSYS) ∧
      fskit_fuse_getattr_calls fuse_h_sample
        (fskit_fuse_callback_disable
          (fskit_fuse_init_fs fuse_state_disabled tree_two_files).2 1).2 = []) ∧
    fskit_fuse_mknod fuse_h_sample
      (fskit_fuse_callback_disable
        (fskit_fuse_init_fs fuse_state_disabled tree_two_files).2 1).2 (-EEXIST) = -EEXIST ∧
    ((∀ rc : Int, fskit_fuse_fsync fuse_h_sample fuse_state_disabled rc = -ENOSYS) ∧
      fskit_fuse_fsync_calls fuse_h_sample fuse_state_disabled = []) ∧
    (fskit_fuse_callback_disable fuse_state_sample 1).2.callbacks &&& 1 = 0 ∧
    fskit_fuse_getattr fuse_h_sample
      (fskit_fuse_callback_enable (fskit_fuse_callback_disable fuse_state_sample 1).2 1).2
      (-ENOENT) = -ENOENT :=
  ⟨by decide,
    (fuse_callback_guard fuse_h_sample
      (fskit_fuse_callback_disable
        (fskit_fuse_init_fs fuse_state_disabled tree_two_files).2 1).2).1.1 (by decide),
    by decide,
    (fuse_callback_guard fuse_h_sample fuse_state_disabled).1.2.2.2.2.2.2.2.2.2.2.2.2.2.2.2.2.2.2.2.1
      (by decide),
    ((fuse_callback_guard fuse_h_sample fuse_state_sample).2.2.1 (by decide) 1).2.2.2.1,
    by decide⟩

/-- C21: `fskit_entry_verify_no_loop` applied in turn to the entries of a list with
pairwise distinct `file_id`s, starting from the empty set and with no failure of
allocation, returns 0 every time and ends with a set that holds exactly those `file_id`s;
for every set and every entry it returns `-EINVAL` exactly when the `file_id` of the entry
is in the set, and then gives the set back as it was; hence, in a tree whose `file_id`s are
unique, the resolution of the parent of `new_path` by `fskit_rename`, the only one that
runs the guard, and from an empty set, never ends with `-EINVAL`, and neither does the
resolution of the parent of `old_path`, which runs no guard. -/
theorem verify_no_loop_spec (oom : Nat → Bool) (l : List fskit_entry) (fent : fskit_entry)
    (file_ids : List Nat) (env : fskit_env) (core : fskit_core)
    (old_path new_path : List String) (user group : Nat) :
    ((l.map (fun e => e.file_id)).Nodup → (∀ e ∈ l, oom e.file_id = false) →
      (verify_no_loop_each oom l []).1 = l.map (fun _ => 0) ∧
      ∀ x, x ∈ (verify_no_loop_each oom l []).2 ↔ x ∈ l.map (fun e => e.file_id)) ∧
    ((fskit_entry_verify_no_loop oom fent file_ids).1 = -EINVAL ↔
      fent.file_id ∈ file_ids) ∧
    ((fskit_entry_verify_no_loop oom fent file_ids).1 = -EINVAL →
      (fskit_entry_verify_no_loop oom fent file_ids).2 = file_ids) ∧
    (tree_inv core → unique_file_ids core →
      (fskit_rename_resolve_parents env core old_path new_path user group).err_new
        ≠ -EINVAL ∧
      (fskit_rename_resolve_parents env core old_path new_path user group).err_old
        ≠ -EINVAL) := by
  refine ⟨fun hnd hoom => ?_, verify_no_loop_einval oom fent file_ids, fun h => ?_,
    fun ht hu => ?_⟩
  · obtain ⟨h1, h2⟩ := verify_no_loop_each_fresh oom l [] (fun _ _ h => by cases h) hoom hnd
    refine ⟨h1, fun x => ?_⟩
    rw [h2 x]
    exact ⟨fun h => h.elim (fun h0 => by cases h0) id, Or.inr⟩
  · rcases verify_no_loop_cases oom fent file_ids with ⟨_, e⟩ | ⟨_, _, e⟩ | ⟨_, _, e⟩
    · rw [e]
    · rw [e] at h; exact absurd h enomem_ne_einval
    · rw [e] at h; exact absurd h zero_ne_einval
  · exact ⟨(resolve_parents_guard env core old_path new_path user group).1 ht.2 hu,
      (resolve_parents_guard env core old_path new_path user group).2⟩

/-- Witness for C21: the guard over the three entries of the tree `/d/c` returns 0 three
times and collects their ids; on the entry `d` with the set `[0, 1]` it returns `-EINVAL`
and leaves the set; and for `fskit_rename("/d", "/d/c/x")` in that tree, the call that
moves `d` below itself, the resolution of the parents does not end with `-EINVAL`. -/
theorem verify_no_loop_spec_witness :
    ((verify_no_loop_each (fun _ => false)
        [mk_dir 0 "/" [("d", 1)], mk_dir 1 "d" [("c", 2)], mk_dir 2 "c" []] []).1
        = [0, 0, 0] ∧
      ∀ x, x ∈ (verify_no_loop_each (fun _ => false)
          [mk_dir 0 "/" [("d", 1)], mk_dir 1 "d" [("c", 2)], mk_dir 2 "c" []] []).2
        ↔ x ∈ [0, 1, 2]) ∧
    (fskit_entry_verify_no_loop (fun _ => false) (mk_dir 1 "d" [("c", 2)]) [0, 1]).2
      = [0, 1] ∧
    ((fskit_rename_resolve_parents env_plain tree_nested ["d"] ["d", "c", "x"] 1000
        1000).err_new ≠ -EINVAL ∧
      (fskit_rename_resolve_parents env_plain tree_nested ["d"] ["d", "c", "x"] 1000
        1000).err_old ≠ -EINVAL) :=
  ⟨(verify_no_loop_spec (fun _ => false)
      [mk_dir 0 "/" [("d", 1)], mk_dir 1 "d" [("c", 2)], mk_dir 2 "c" []]
      (mk_dir 1 "d" [("c", 2)]) [0, 1] env_plain tree_nested ["d"] ["d", "c", "x"] 1000
      1000).1 (by decide) (fun _ _ => rfl),
    (verify_no_loop_spec (fun _ => false)
      [mk_dir 0 "/" [("d", 1)], mk_dir 1 "d" [("c", 2)], mk_dir 2 "c" []]
      (mk_dir 1 "d" [("c", 2)]) [0, 1] env_plain tree_nested ["d"] ["d", "c", "x"] 1000
      1000).2.2.1 (by decide),
    (verify_no_loop_spec (fun _ => false)
      [mk_dir 0 "/" [("d", 1)], mk_dir 1 "d" [("c", 2)], mk_dir 2 "c" []]
      (mk_dir 1 "d" [("c", 2)]) [0, 1] env_plain tree_nested ["d"] ["d", "c", "x"] 1000
      1000).2.2.2 tree_nested_tree tree_nested_unique⟩

/-- C22, the code at a failing input: in the tree `/d/c` (a tree with consistent names, one
entry per key and unique ids), whose entries `d` and `c` are reachable from the root,
`fskit_rename("/d", "/d/c/x")`, whose destination parent `c` lies below the source entry
`d`, returns 0 with no destination entry to replace, and afterwards the root holds no
child: neither the moved entry `d` nor its descendant `c` is reachable from the root any
more. -/
theorem rename_into_descendant_loses_entries :
    tree_inv tree_nested ∧
    name_key_consistent tree_nested ∧
    keys_unique tree_nested ∧
    unique_file_ids tree_nested ∧
    reachable tree_nested 1 ∧
    reachable tree_nested 2 ∧
    fskit_rename_fent_old
      (fskit_rename_resolve_parents env_plain tree_nested ["d"] ["d", "c", "x"] 1000 1000)
      ["d"] = some 1 ∧
    (fskit_rename_resolve_parents env_plain tree_nested ["d"] ["d", "c", "x"] 1000
      1000).dest_parent = some 2 ∧
    descends tree_nested 1 2 ∧
    (fskit_rename env_plain tree_nested ["d"] ["d", "c", "x"] 1000 1000).1 = 0 ∧
    fskit_rename_fent_new
      (fskit_rename_resolve_parents env_plain tree_nested ["d"] ["d", "c", "x"] 1000 1000)
      ["d", "c", "x"] = none ∧
    (fskit_rename env_plain tree_nested ["d"] ["d", "c", "x"] 1000 1000).2.root
      = tree_nested.root ∧
    ¬ reachable (fskit_rename env_plain tree_nested ["d"] ["d", "c", "x"] 1000 1000).2 1 ∧
    ¬ reachable (fskit_rename env_plain tree_nested ["d"] ["d", "c", "x"] 1000 1000).2 2 := by
  have h1 : reachable tree_nested 1 :=
    reachable.child 0 "d" 1 reachable.root (by decide)
  have h2 : reachable tree_nested 2 := reachable.child 1 "c" 2 h1 (by decide)
  have hroot : (((fskit_rename env_plain tree_nested ["d"] ["d", "c", "x"] 1000 1000).2.ents
      (fskit_rename env_plain tree_nested ["d"] ["d", "c", "x"] 1000 1000).2.root).children
      = []) := by decide
  refine ⟨tree_nested_tree, tree_nested_consistent, tree_nested_keys, tree_nested_unique,
    h1, h2, by decide, by decide, descends.child "c" 2 (by decide), by decide, by decide,
    by decide, fun hr => ?_, fun hr => ?_⟩
  · exact absurd (reachable_childless_root _ hroot 1 hr) (by decide)
  · exact absurd (reachable_childless_root _ hroot 2 hr) (by decide)

end Fskit
